import Mathlib

/-!
# Asteroids OOP: a shallow embedding of `Main.cpp`

The simulation of `Main.cpp` is embedded as pure functions over explicit state.

Modelling conventions
* `float` values are exact rationals (`ℚ`); rounding, infinities and NaN are not modelled.
  The one exception is the firing block, which is embedded a second time in single
  precision (`roundF32`, `fireLoopF`, `shootingF`, `fireFramesF`), every operation rounded
  to binary32: the number of iterations of its loop depends on the rounding.
* `int` values are unbounded integers (`Int`). The one exception is `Ship::Heal`, whose
  sum `hp + amount` wraps modulo `2^32` (`wrapInt32`), as the addition of the target does
  where C++ leaves signed overflow undefined.
* `Vector2Distance (a, b) < r` is evaluated without a square root as
  `0 < r` and `|a - b|² < r²`, which is the same comparison over the reals.
* The window is the one opened by `Renderer::Init (C_WIDTH, C_HEIGHT, ...)`, so
  `Renderer::Width ()` is `1600` and `Renderer::Height ()` is `900`.
* Keyboard state, the frame time, the loaded texture width and the outputs of the
  random generators are inputs of a frame, see `Input`.
* Drawing has no effect on the simulation state and is left out.
-/

namespace Asteroids

/-! ## Utilities and primitives -/

/-- Embedding of `Utils::RandomFloat (min, max)`; the argument `u` stands for the
quotient `rand () / RAND_MAX` drawn by the call. -/
def RandomFloat (min max u : ℚ) : ℚ := min + u * (max - min)

/-- Embedding of raylib `GetRandomValue (min, max)` on the raw generator output `raw`. -/
def GetRandomValue (min max : Int) (raw : Nat) : Int :=
  min + (raw : Int) % (|max - min| + 1)

/-- A raylib `Vector2`. -/
structure Vector2 where
  x : ℚ
  y : ℚ
  deriving DecidableEq

def Vector2Add (a b : Vector2) : Vector2 := ⟨a.x + b.x, a.y + b.y⟩

def Vector2Scale (v : Vector2) (k : ℚ) : Vector2 := ⟨v.x * k, v.y * k⟩

/-- Square of `Vector2Distance (a, b)`. -/
def Vector2DistanceSqr (a b : Vector2) : ℚ :=
  (a.x - b.x) * (a.x - b.x) + (a.y - b.y) * (a.y - b.y)

/-- Embedding of `Vector2Distance (a, b) < r`. -/
def distLt (a b : Vector2) (r : ℚ) : Bool :=
  decide (0 < r) && decide (Vector2DistanceSqr a b < r * r)

structure TransformA where
  position : Vector2
  rotation : ℚ
  deriving DecidableEq

structure Physics where
  velocity : Vector2
  rotationSpeed : ℚ
  deriving DecidableEq

/-- Embedding of `Renderable::Size`. -/
inductive Size where
  | SMALL
  | MEDIUM
  | LARGE
  deriving DecidableEq

/-- The integer value of a `Renderable::Size` enumerator. -/
def Size.toInt : Size → Int
  | .SMALL => 1
  | .MEDIUM => 2
  | .LARGE => 4

/-- Embedding of `static_cast<Renderable::Size> (1 << k)` for the `k` drawn in `0..2`. -/
def Size.ofShift (k : Int) : Size :=
  if k = 0 then .SMALL else if k = 1 then .MEDIUM else .LARGE

structure Renderable where
  size : Size
  deriving DecidableEq

/-- Width of the window, `Renderer::Instance ().Width ()`. -/
def screenW : Int := 1600

/-- Height of the window, `Renderer::Instance ().Height ()`. -/
def screenH : Int := 900

/-! ## Asteroids -/

/-- The dynamic class of an asteroid object. -/
inductive AsteroidKind where
  | Triangle
  | Square
  | Pentagon
  | Star
  deriving DecidableEq

/-- The data members of `Asteroid`, with the dynamic class as a tag. -/
structure Asteroid where
  kind : AsteroidKind
  transform : TransformA
  physics : Physics
  render : Renderable
  baseDamage : Int
  pointsValue : Int
  deriving DecidableEq

/-- The random values consumed by one run of `Asteroid::init`.
`aim` is the value of `Vector2Normalize (center - position)`, whose computation
goes through `cosf`, `sinf` and a square root. -/
structure InitDraw where
  sizeRaw : Nat
  edgeRaw : Nat
  alongU : ℚ
  aim : Vector2
  speedU : ℚ
  rotSpeedU : ℚ
  rotationU : ℚ

namespace Asteroid

def SPEED_MIN : ℚ := 125
def SPEED_MAX : ℚ := 250
def ROT_MIN : ℚ := 50
def ROT_MAX : ℚ := 240

def GetRadius (a : Asteroid) : ℚ := 16 * (a.render.size.toInt : ℚ)

def GetDamage (a : Asteroid) : Int := a.baseDamage * a.render.size.toInt

def GetSize (a : Asteroid) : Int := a.render.size.toInt

def GetPoints (a : Asteroid) : Int := a.pointsValue * a.render.size.toInt

def GetPosition (a : Asteroid) : Vector2 := a.transform.position

def GetPhysics (a : Asteroid) : Physics := a.physics

def SetPhysics (a : Asteroid) (phys : Physics) : Asteroid := { a with physics := phys }

/-- Embedding of `Asteroid::Update`: the advanced asteroid and the returned flag. -/
def Update (a : Asteroid) (dt : ℚ) : Asteroid × Bool :=
  let a1 : Asteroid :=
    { a with transform :=
        { position := Vector2Add a.transform.position (Vector2Scale a.physics.velocity dt)
          rotation := a.transform.rotation + a.physics.rotationSpeed * dt } }
  if a1.transform.position.x < -a1.GetRadius ∨
      a1.transform.position.x > (screenW : ℚ) + a1.GetRadius ∨
      a1.transform.position.y < -a1.GetRadius ∨
      a1.transform.position.y > (screenH : ℚ) + a1.GetRadius then
    (a1, false)
  else
    (a1, true)

/-- Embedding of the `Asteroid (screenW, screenH)` base constructor, that is of
`Asteroid::init` after the default member initialisers `baseDamage = 0` and
`pointsValue = 10`. -/
def init (kind : AsteroidKind) (w h : Int) (d : InitDraw) : Asteroid :=
  let size := Size.ofShift (GetRandomValue 0 2 d.sizeRaw)
  let radius : ℚ := 16 * (size.toInt : ℚ)
  let edge := GetRandomValue 0 3 d.edgeRaw
  let position : Vector2 :=
    if edge = 0 then ⟨RandomFloat 0 w d.alongU, -radius⟩
    else if edge = 1 then ⟨(w : ℚ) + radius, RandomFloat 0 h d.alongU⟩
    else if edge = 2 then ⟨RandomFloat 0 w d.alongU, (h : ℚ) + radius⟩
    else ⟨-radius, RandomFloat 0 h d.alongU⟩
  { kind := kind
    transform := { position := position, rotation := RandomFloat 0 360 d.rotationU }
    physics :=
      { velocity := Vector2Scale d.aim (RandomFloat SPEED_MIN SPEED_MAX d.speedU)
        rotationSpeed := RandomFloat ROT_MIN ROT_MAX d.rotSpeedU }
    render := { size := size }
    baseDamage := 0
    pointsValue := 10 }

end Asteroid

/-- Embedding of the `TriangleAsteroid` constructor. -/
def TriangleAsteroid (w h : Int) (d : InitDraw) : Asteroid :=
  { Asteroid.init .Triangle w h d with baseDamage := 5, pointsValue := 15 }

/-- Embedding of the `SquareAsteroid` constructor. -/
def SquareAsteroid (w h : Int) (d : InitDraw) : Asteroid :=
  { Asteroid.init .Square w h d with baseDamage := 10, pointsValue := 25 }

/-- Embedding of the `PentagonAsteroid` constructor. -/
def PentagonAsteroid (w h : Int) (d : InitDraw) : Asteroid :=
  { Asteroid.init .Pentagon w h d with baseDamage := 15, pointsValue := 40 }

/-- Embedding of the `StarAsteroid` constructor. -/
def StarAsteroid (w h : Int) (d : InitDraw) : Asteroid :=
  { Asteroid.init .Star w h d with baseDamage := 20, pointsValue := 60 }

/-- Embedding of `enum class AsteroidShape`. -/
inductive AsteroidShape where
  | TRIANGLE
  | SQUARE
  | PENTAGON
  | STAR
  | RANDOM
  deriving DecidableEq

/-- Embedding of `static_cast<AsteroidShape> (3 + r)` for the `r` drawn in `0..3`. -/
def AsteroidShape.ofDraw (r : Int) : AsteroidShape :=
  if r = 0 then .TRIANGLE else if r = 1 then .SQUARE else if r = 2 then .PENTAGON else .STAR

/-- Embedding of `MakeAsteroid`. The `default` branch calls `MakeAsteroid` again with one
of the four concrete shapes, chosen by `GetRandomValue (0, 3)` on `shapeRaw`. -/
def MakeAsteroid (w h : Int) (shape : AsteroidShape) (shapeRaw : Nat) (d : InitDraw) :
    Asteroid :=
  match shape with
  | .TRIANGLE => TriangleAsteroid w h d
  | .SQUARE => SquareAsteroid w h d
  | .PENTAGON => PentagonAsteroid w h d
  | .STAR => StarAsteroid w h d
  | .RANDOM =>
    match AsteroidShape.ofDraw (GetRandomValue 0 3 shapeRaw) with
    | .TRIANGLE => TriangleAsteroid w h d
    | .SQUARE => SquareAsteroid w h d
    | .PENTAGON => PentagonAsteroid w h d
    | _ => StarAsteroid w h d

/-! ## Explosions, projectiles, powerups -/

inductive Color where
  | YELLOW
  | ORANGE
  | RED
  | GREEN
  deriving DecidableEq

structure Explosion where
  position : Vector2
  radius : ℚ
  maxRadius : ℚ
  duration : ℚ
  timer : ℚ
  color : Color
  deriving DecidableEq

/-- Embedding of the `Explosion` constructor. -/
def Explosion.new (pos : Vector2) (maxRad dur : ℚ) (col : Color) : Explosion :=
  { position := pos, radius := 0, maxRadius := maxRad, duration := dur, timer := 0, color := col }

/-- Embedding of `Explosion::Update`: the advanced explosion and the returned flag. -/
def Explosion.Update (e : Explosion) (dt : ℚ) : Explosion × Bool :=
  let t := e.timer + dt
  ({ e with timer := t, radius := e.maxRadius * (t / e.duration) }, decide (t ≥ e.duration))

/-- Embedding of `enum class WeaponType`. -/
inductive WeaponType where
  | LASER
  | BULLET
  | COUNT
  deriving DecidableEq

def WeaponType.toInt : WeaponType → Int
  | .LASER => 0
  | .BULLET => 1
  | .COUNT => 2

def WeaponType.ofInt (i : Int) : WeaponType :=
  if i = 0 then .LASER else if i = 1 then .BULLET else .COUNT

structure Projectile where
  transform : TransformA
  physics : Physics
  baseDamage : Int
  type : WeaponType
  deriving DecidableEq

namespace Projectile

/-- Embedding of the `Projectile` constructor; rotation and rotation speed keep their
default member initialisers. -/
def new (pos vel : Vector2) (dmg : Int) (wt : WeaponType) : Projectile :=
  { transform := { position := pos, rotation := 0 }
    physics := { velocity := vel, rotationSpeed := 0 }
    baseDamage := dmg
    type := wt }

/-- Embedding of `Projectile::Update`: the advanced projectile and the returned flag. -/
def Update (p : Projectile) (dt : ℚ) : Projectile × Bool :=
  let p1 : Projectile :=
    { p with transform :=
        { p.transform with
          position := Vector2Add p.transform.position (Vector2Scale p.physics.velocity dt) } }
  if p1.transform.position.x < 0 ∨ p1.transform.position.x > (screenW : ℚ) ∨
      p1.transform.position.y < 0 ∨ p1.transform.position.y > (screenH : ℚ) then
    (p1, true)
  else
    (p1, false)

def GetPosition (p : Projectile) : Vector2 := p.transform.position

def GetRadius (p : Projectile) : ℚ := if p.type = .BULLET then 6 else 3

def GetDamage (p : Projectile) : Int := p.baseDamage

end Projectile

/-- Embedding of `MakeProjectile`. -/
def MakeProjectile (wt : WeaponType) (pos : Vector2) (speed : ℚ) : Projectile :=
  let vel : Vector2 := ⟨0, -speed⟩
  if wt = .LASER then Projectile.new pos vel 20 wt else Projectile.new pos vel 10 wt

inductive PowerUpType where
  | HEALTH
  | WEAPON_UPGRADE
  deriving DecidableEq

structure PowerUp where
  position : Vector2
  type : PowerUpType
  radius : ℚ
  rotation : ℚ
  rotationSpeed : ℚ
  lifetime : ℚ
  timer : ℚ
  deriving DecidableEq

/-- Embedding of the `PowerUp` constructor with the default member initialisers. -/
def PowerUp.new (pos : Vector2) (t : PowerUpType) : PowerUp :=
  { position := pos, type := t, radius := 15, rotation := 0, rotationSpeed := 90,
    lifetime := 10, timer := 0 }

/-- Embedding of `PowerUp::Update`: the advanced powerup and the returned flag. -/
def PowerUp.Update (p : PowerUp) (dt : ℚ) : PowerUp × Bool :=
  let t := p.timer + dt
  ({ p with rotation := p.rotation + p.rotationSpeed * dt, timer := t }, decide (t ≥ p.lifetime))

/-! ## The ship -/

/-- The value of a 32-bit two's complement `int` that holds the integer `x` modulo
`2^32`: the result of an `int` operation whose exact result is `x`. -/
def wrapInt32 (x : Int) : Int := (x + 2147483648) % 4294967296 - 2147483648

/-- The data members of `Ship`. -/
structure Ship where
  transform : TransformA
  hp : Int
  maxHp : Int
  speed : ℚ
  alive : Bool
  fireRateLaser : ℚ
  fireRateBullet : ℚ
  spacingLaser : ℚ
  spacingBullet : ℚ
  deriving DecidableEq

namespace Ship

/-- Embedding of the `Ship (screenW, screenH)` constructor. -/
def new (w h : Int) : Ship :=
  { transform := { position := ⟨(w : ℚ) * (1 / 2), (h : ℚ) * (1 / 2)⟩, rotation := 0 }
    hp := 100
    maxHp := 100
    speed := 250
    alive := true
    fireRateLaser := 18
    fireRateBullet := 22
    spacingLaser := 40
    spacingBullet := 20 }

/-- Embedding of `Ship::TakeDamage`, over unbounded integers: `hp - dmg` leaves the range
of `int` only for a negative `dmg` or for an `hp` below `INT_MIN + dmg`. -/
def TakeDamage (s : Ship) (dmg : Int) : Ship :=
  if !s.alive then s
  else
    let s1 : Ship := { s with hp := s.hp - dmg }
    if s1.hp ≤ 0 then { s1 with alive := false } else s1

/-- Embedding of `Ship::Heal`; the sum `hp + amount` of two `int` wraps modulo `2^32`. -/
def Heal (s : Ship) (amount : Int) : Ship :=
  { s with hp := min (wrapInt32 (s.hp + amount)) s.maxHp }

/-- Embedding of `Ship::UpgradeWeapon`. -/
def UpgradeWeapon (s : Ship) (wt : WeaponType) : Ship :=
  if wt = .LASER then
    { s with fireRateLaser := s.fireRateLaser * (12 / 10), spacingLaser := s.spacingLaser * (11 / 10) }
  else
    { s with fireRateBullet := s.fireRateBullet * (12 / 10), spacingBullet := s.spacingBullet * (11 / 10) }

def IsAlive (s : Ship) : Bool := s.alive

def GetPosition (s : Ship) : Vector2 := s.transform.position

def GetHP (s : Ship) : Int := s.hp

def GetMaxHP (s : Ship) : Int := s.maxHp

def GetFireRate (s : Ship) (wt : WeaponType) : ℚ :=
  if wt = .LASER then s.fireRateLaser else s.fireRateBullet

def GetSpacing (s : Ship) (wt : WeaponType) : ℚ :=
  if wt = .LASER then s.spacingLaser else s.spacingBullet

end Ship

/-- The data members of `PlayerShip`; of the texture only its width is kept. -/
structure PlayerShip extends Ship where
  textureWidth : Int
  scale : ℚ
  deriving DecidableEq

/-- Embedding of `std::clamp (v, lo, hi)`. -/
def clamp (v lo hi : ℚ) : ℚ := if v < lo then lo else if hi < v then hi else v

namespace PlayerShip

/-- Embedding of the `PlayerShip (w, h)` constructor; `texW` is the width of the texture
that `LoadTexture` yields. -/
def new (w h : Int) (texW : Int) : PlayerShip :=
  { Ship.new w h with textureWidth := texW, scale := 1 / 4 }

def GetRadius (p : PlayerShip) : ℚ := ((p.textureWidth : ℚ) * p.scale) * (1 / 2)

/-- Embedding of `PlayerShip::Update`, with the four `IsKeyDown` answers as arguments. -/
def Update (p : PlayerShip) (dt : ℚ) (keyW keyS keyA keyD : Bool) : PlayerShip :=
  let pos := p.transform.position
  if p.alive then
    let y := if keyW then pos.y - p.speed * dt else pos.y
    let y := if keyS then y + p.speed * dt else y
    let x := if keyA then pos.x - p.speed * dt else pos.x
    let x := if keyD then x + p.speed * dt else x
    let x := clamp x p.GetRadius ((screenW : ℚ) - p.GetRadius)
    let y := clamp y p.GetRadius ((screenH : ℚ) - p.GetRadius)
    { p with transform := { p.transform with position := ⟨x, y⟩ } }
  else
    { p with transform := { p.transform with position := ⟨pos.x, pos.y + p.speed * dt⟩ } }

/-- The call `player->TakeDamage (dmg)`. -/
def TakeDamage (p : PlayerShip) (dmg : Int) : PlayerShip :=
  { p with toShip := p.toShip.TakeDamage dmg }

/-- The call `player->Heal (amount)`. -/
def Heal (p : PlayerShip) (amount : Int) : PlayerShip :=
  { p with toShip := p.toShip.Heal amount }

/-- The call `player->UpgradeWeapon (wt)`. -/
def UpgradeWeapon (p : PlayerShip) (wt : WeaponType) : PlayerShip :=
  { p with toShip := p.toShip.UpgradeWeapon wt }

end PlayerShip

/-! ## The application: session state and the frame step -/

def C_WIDTH : Int := 1600
def C_HEIGHT : Int := 900
def MAX_AST : Nat := 150
def C_SPAWN_MIN : ℚ := 1 / 2
def C_SPAWN_MAX : ℚ := 3

/-- The members of `Application` together with the local variables of `Application::Run`
that live across iterations of the main loop. -/
structure State where
  player : PlayerShip
  asteroids : List Asteroid
  projectiles : List Projectile
  explosions : List Explosion
  powerups : List PowerUp
  currentShape : AsteroidShape
  spawnTimer : ℚ
  spawnInterval : ℚ
  currentWeapon : WeaponType
  shotTimer : ℚ
  score : Int
  level : Int
  asteroidsDestroyed : Int
  asteroidsToNextLevel : Int
  gameTime : ℚ
  deriving DecidableEq

/-- Everything one iteration of the main loop reads from outside the simulation:
the frame time, the keyboard, the texture loader and the random generators.
Each random draw is named after the place that consumes it; `hitRaw` is the sequence of
raw generator outputs read, in order, by the projectile-asteroid pass. -/
structure Input where
  dt : ℚ
  keyW : Bool
  keyS : Bool
  keyA : Bool
  keyD : Bool
  keySpace : Bool
  keyR : Bool
  keyOne : Bool
  keyTwo : Bool
  keyThree : Bool
  keyFour : Bool
  keyFive : Bool
  keyTab : Bool
  textureWidth : Int
  restartU : ℚ
  shapeRaw : Nat
  initDraw : InitDraw
  spawnU : ℚ
  hitRaw : Nat → Nat

/-- The session state set up by `Application::Run` before the main loop; `texW` is the
width of the loaded texture and `u` the draw of the first spawn interval. -/
def initState (texW : Int) (u : ℚ) : State :=
  { player := PlayerShip.new C_WIDTH C_HEIGHT texW
    asteroids := []
    projectiles := []
    explosions := []
    powerups := []
    currentShape := .TRIANGLE
    spawnTimer := 0
    spawnInterval := RandomFloat C_SPAWN_MIN C_SPAWN_MAX u
    currentWeapon := .LASER
    shotTimer := 0
    score := 0
    level := 1
    asteroidsDestroyed := 0
    asteroidsToNextLevel := 10
    gameTime := 0 }

/-- The two accumulations at the top of the loop body and `player->Update (dt)`. -/
def updatePlayer (inp : Input) (s : State) : State :=
  { s with
    spawnTimer := s.spawnTimer + inp.dt
    gameTime := s.gameTime + inp.dt
    player := s.player.Update inp.dt inp.keyW inp.keyS inp.keyA inp.keyD }

/-- The block under `// Restart logic`. -/
def restartLogic (inp : Input) (s : State) : State :=
  if !s.player.alive && inp.keyR then
    { s with
      player := PlayerShip.new C_WIDTH C_HEIGHT inp.textureWidth
      asteroids := []
      projectiles := []
      explosions := []
      powerups := []
      spawnTimer := 0
      spawnInterval := RandomFloat C_SPAWN_MIN C_SPAWN_MAX inp.restartU
      score := 0
      level := 1
      asteroidsDestroyed := 0
      asteroidsToNextLevel := 10
      gameTime := 0 }
  else s

/-- The block under `// Asteroid shape switch`. -/
def shapeSwitch (inp : Input) (s : State) : State :=
  let c := s.currentShape
  let c := if inp.keyOne then AsteroidShape.TRIANGLE else c
  let c := if inp.keyTwo then AsteroidShape.SQUARE else c
  let c := if inp.keyThree then AsteroidShape.PENTAGON else c
  let c := if inp.keyFour then AsteroidShape.STAR else c
  let c := if inp.keyFive then AsteroidShape.RANDOM else c
  { s with currentShape := c }

/-- The block under `// Weapon switch`. -/
def weaponSwitch (inp : Input) (s : State) : State :=
  if inp.keyTab then
    { s with
      currentWeapon :=
        WeaponType.ofInt ((s.currentWeapon.toInt + 1) % WeaponType.COUNT.toInt) }
  else s

/-- Embedding of `fmodf (x, y)`: `x` minus `y` times the quotient truncated toward zero. -/
def fmodf (x y : ℚ) : ℚ :=
  x - y * (if 0 ≤ x / y then (⌊x / y⌋ : ℚ) else (⌈x / y⌉ : ℚ))

/-- The `while (shotTimer >= interval)` loop of the shooting block, run for at most `fuel`
iterations. The result is `none` when the loop condition still holds after `fuel`
iterations. -/
def fireLoop (interval : ℚ) (proj : Projectile) :
    Nat → ℚ → List Projectile → Option (ℚ × List Projectile)
  | 0, shotTimer, projectiles =>
    if shotTimer ≥ interval then none else some (shotTimer, projectiles)
  | fuel + 1, shotTimer, projectiles =>
    if shotTimer ≥ interval then
      fireLoop interval proj fuel (shotTimer - interval) (projectiles ++ [proj])
    else some (shotTimer, projectiles)

/-- The block under `// Shooting`. -/
def shooting (fuel : Nat) (inp : Input) (s : State) : Option State :=
  if s.player.alive && inp.keySpace then
    let shotTimer := s.shotTimer + inp.dt
    let interval := 1 / s.player.GetFireRate s.currentWeapon
    let projSpeed := s.player.GetSpacing s.currentWeapon * s.player.GetFireRate s.currentWeapon
    let p : Vector2 := ⟨s.player.GetPosition.x, s.player.GetPosition.y - s.player.GetRadius⟩
    (fireLoop interval (MakeProjectile s.currentWeapon p projSpeed) fuel shotTimer
        s.projectiles).map
      fun r => { s with shotTimer := r.1, projectiles := r.2 }
  else
    let maxInterval := 1 / s.player.GetFireRate s.currentWeapon
    if s.shotTimer > maxInterval then
      some { s with shotTimer := fmodf s.shotTimer maxInterval }
    else some s

/-- The block under `// Spawn asteroids with level-based difficulty`. -/
def spawnAsteroids (inp : Input) (s : State) : State :=
  if s.spawnTimer ≥ s.spawnInterval ∧ s.asteroids.length < MAX_AST then
    let asteroid := MakeAsteroid C_WIDTH C_HEIGHT s.currentShape inp.shapeRaw inp.initDraw
    let speedMultiplier : ℚ := 1 + (s.level : ℚ) * (1 / 10)
    let phys := asteroid.GetPhysics
    let phys := { phys with velocity := Vector2Scale phys.velocity speedMultiplier }
    let asteroid := asteroid.SetPhysics phys
    { s with
      asteroids := s.asteroids ++ [asteroid]
      spawnTimer := 0
      spawnInterval :=
        RandomFloat (C_SPAWN_MIN / (1 + (s.level : ℚ) * (1 / 10)))
          (C_SPAWN_MAX / (1 + (s.level : ℚ) * (1 / 10))) inp.spawnU }
  else s

/-- The block under `// Update projectiles`: every projectile is advanced, those whose
`Update` returns `true` are erased. -/
def updateProjectiles (inp : Input) (s : State) : State :=
  { s with
    projectiles :=
      s.projectiles.filterMap fun p =>
        if (p.Update inp.dt).2 then none else some (p.Update inp.dt).1 }

/-- The test `dist < (*pit).GetRadius () + (*ait)->GetRadius ()` of the inner loop. -/
def hits (p : Projectile) (a : Asteroid) : Bool :=
  distLt p.GetPosition a.GetPosition (p.GetRadius + a.GetRadius)

/-- The inner `for (ait ...)` loop of the projectile-asteroid pass as a search: the first
asteroid in collection order that `p` overlaps, with the collection after
`asteroids.erase (ait)`; `none` when the loop ends without a match. -/
def scanAsteroids (p : Projectile) : List Asteroid → Option (Asteroid × List Asteroid)
  | [] => none
  | a :: rest =>
    if hits p a then some (a, rest)
    else (scanAsteroids p rest).map fun r => (r.1, a :: r.2)

/-- The statements of the inner loop body that precede the two `erase` calls, for the
matched asteroid `a`: score, kill counter, explosion and the powerup roll. The second
component is the generator output sequence left after the rolls. -/
def resolveHit (a : Asteroid) (raw : Nat → Nat) (s : State) : State × (Nat → Nat) :=
  let s1 : State :=
    { s with
      score := s.score + a.GetPoints
      asteroidsDestroyed := s.asteroidsDestroyed + 1
      explosions := s.explosions ++
        [Explosion.new a.GetPosition (a.GetRadius * 2) (1 / 2)
          (if a.GetSize = 1 then Color.YELLOW else if a.GetSize = 2 then Color.ORANGE
            else Color.RED)] }
  if GetRandomValue 0 4 (raw 0) = 0 then
    let type :=
      if GetRandomValue 0 1 (raw 1) ≠ 0 then PowerUpType.HEALTH else PowerUpType.WEAPON_UPGRADE
    ({ s1 with powerups := s1.powerups ++ [PowerUp.new a.GetPosition type] }, fun n => raw (n + 2))
  else (s1, fun n => raw (n + 1))

/-- The outer `for (pit ...)` loop of the projectile-asteroid pass. The first argument is
the part of the projectile vector from `pit` on; the projectiles before `pit` are
`s.projectiles`. -/
def collisionLoop : List Projectile → (Nat → Nat) → State → State
  | [], _, s => s
  | p :: todo, raw, s =>
    match scanAsteroids p s.asteroids with
    | some (a, rest) =>
      collisionLoop todo (resolveHit a raw s).2 { (resolveHit a raw s).1 with asteroids := rest }
    | none => collisionLoop todo raw { s with projectiles := s.projectiles ++ [p] }

/-- The block under `// Projectile-Asteroid collisions`. -/
def projectileAsteroidCollisions (inp : Input) (s : State) : State :=
  collisionLoop s.projectiles inp.hitRaw { s with projectiles := [] }

/-- The `std::remove_if` of the asteroid-ship block with its predicate `remove_collision`.
The first argument is the part of the asteroid vector not yet visited; the asteroids
kept so far are `s.asteroids`. -/
def shipLoop (dt : ℚ) : List Asteroid → State → State
  | [], s => s
  | a :: todo, s =>
    if s.player.alive && distLt s.player.GetPosition a.GetPosition (s.player.GetRadius + a.GetRadius)
    then
      shipLoop dt todo
        { s with
          player := s.player.TakeDamage a.GetDamage
          explosions := s.explosions ++
            [Explosion.new a.GetPosition (a.GetRadius * (3 / 2)) (4 / 10) Color.RED] }
    else if !(a.Update dt).2 then shipLoop dt todo s
    else shipLoop dt todo { s with asteroids := s.asteroids ++ [(a.Update dt).1] }

/-- The block under `// Asteroid-Ship collisions`. -/
def asteroidShipCollisions (inp : Input) (s : State) : State :=
  shipLoop inp.dt s.asteroids { s with asteroids := [] }

/-- The block under `// Update explosions`. -/
def updateExplosions (inp : Input) (s : State) : State :=
  { s with
    explosions :=
      s.explosions.filterMap fun e =>
        if (e.Update inp.dt).2 then none else some (e.Update inp.dt).1 }

/-- The block under `// Update powerups`. -/
def updatePowerups (inp : Input) (s : State) : State :=
  { s with
    powerups :=
      s.powerups.filterMap fun e =>
        if (e.Update inp.dt).2 then none else some (e.Update inp.dt).1 }

/-- The `for` loop of the powerup collection. The first argument is the part of the
powerup vector not yet visited; the powerups kept so far are `s.powerups`. -/
def collectLoop : List PowerUp → State → State
  | [], s => s
  | it :: todo, s =>
    if distLt s.player.GetPosition it.position (s.player.GetRadius + it.radius) then
      if it.type = .HEALTH then collectLoop todo { s with player := s.player.Heal 25 }
      else collectLoop todo { s with player := s.player.UpgradeWeapon s.currentWeapon }
    else collectLoop todo { s with powerups := s.powerups ++ [it] }

/-- The block under `// Powerup collection`. -/
def powerupCollection (s : State) : State :=
  if s.player.alive then collectLoop s.powerups { s with powerups := [] } else s

/-- The block under `// Level progression`. -/
def levelProgression (s : State) : State :=
  if s.asteroidsDestroyed ≥ s.asteroidsToNextLevel then
    { s with
      level := s.level + 1
      asteroidsDestroyed := 0
      asteroidsToNextLevel := 10 + (s.level + 1) * 5
      explosions := s.explosions ++
        [Explosion.new ⟨(screenW : ℚ) / 2, (screenH : ℚ) / 2⟩ ((screenW : ℚ) * (8 / 10)) 1
          Color.GREEN] }
  else s

/-- The loop body from the shape switch to the shooting block (the restart block has run). -/
def afterRestart (fuel : Nat) (inp : Input) (s : State) : Option State :=
  shooting fuel inp (weaponSwitch inp (shapeSwitch inp s))

/-- The loop body from the spawn block to the powerup collection. -/
def simulate (inp : Input) (s : State) : State :=
  powerupCollection (updatePowerups inp (updateExplosions inp (asteroidShipCollisions inp
    (projectileAsteroidCollisions inp (updateProjectiles inp (spawnAsteroids inp s))))))

/-- The loop body up to, and not including, the level progression block. -/
def beforeLevel (fuel : Nat) (inp : Input) (s : State) : Option State :=
  (afterRestart fuel inp (restartLogic inp (updatePlayer inp s))).map (simulate inp)

/-- One iteration of the main loop of `Application::Run` (rendering left out); `none`
when the firing loop does not finish within `fuel` iterations. -/
def frame (fuel : Nat) (inp : Input) (s : State) : Option State :=
  (beforeLevel fuel inp s).map levelProgression

/-- The frame processes a restart: the ship is dead and `R` was pressed. -/
def processesRestart (inp : Input) (s : State) : Prop :=
  s.player.alive = false ∧ inp.keyR = true

/-- States reachable from the initial session state by iterations of the main loop. -/
inductive Reachable : State → Prop where
  | init (texW : Int) (u : ℚ) : Reachable (initState texW u)
  | step {s s1 : State} (fuel : Nat) (inp : Input) :
      Reachable s → frame fuel inp s = some s1 → Reachable s1

/-- Ship states reachable from a freshly constructed ship by `TakeDamage` calls with a
non-negative `int` amount (at most `INT_MAX = 2147483647`) and `Heal` calls with a
non-negative amount of at most `INT_MAX - 100 = 2147483547`, the amounts for which
`hp + amount` does not overflow. -/
inductive ShipReachable : Ship → Prop where
  | fresh (w h : Int) : ShipReachable (Ship.new w h)
  | damage {s : Ship} (d : Int) :
      0 ≤ d → d ≤ 2147483647 → ShipReachable s → ShipReachable (s.TakeDamage d)
  | heal {s : Ship} (a : Int) :
      0 ≤ a → a ≤ 2147483547 → ShipReachable s → ShipReachable (s.Heal a)

/-! ## Concrete states and inputs used to evaluate the embedding -/

/-- An idle frame of 1/60 s: no key is down, the texture is 256 wide. -/
def idleInput : Input :=
  { dt := 1 / 60
    keyW := false, keyS := false, keyA := false, keyD := false
    keySpace := false, keyR := false
    keyOne := false, keyTwo := false, keyThree := false, keyFour := false, keyFive := false
    keyTab := false
    textureWidth := 256
    restartU := 0
    shapeRaw := 0
    initDraw :=
      { sizeRaw := 0, edgeRaw := 0, alongU := 1 / 2, aim := ⟨0, 1⟩, speedU := 0, rotSpeedU := 0,
        rotationU := 0 }
    spawnU := 0
    hitRaw := fun _ => 1 }

/-- The idle frame with `R` pressed. -/
def restartInput : Input := { idleInput with keyR := true }

/-- A game-over state: the ship of the initial session after three hits of 40, with a
shot timer of 1/100 s left over from firing, score 75 and 3 asteroids destroyed. -/
def gameOverState : State :=
  { initState 256 0 with
    player :=
      (((PlayerShip.new C_WIDTH C_HEIGHT 256).TakeDamage 40).TakeDamage 40).TakeDamage 40
    shotTimer := 1 / 100
    score := 75
    asteroidsDestroyed := 3
    gameTime := 20 }

/-- The state after one idle frame from the initial session state. -/
def idleFrameState : State :=
  { initState 256 0 with spawnTimer := 1 / 60, gameTime := 1 / 60 }

/-- A frame of 5/9 s with the fire key held and a texture 400 wide: the ship (radius 50,
at the centre) fires ten lasers, and the spawn block, when it runs, creates a small
asteroid in the middle of the top edge. -/
def killInput : Input :=
  { idleInput with dt := 5 / 9, keySpace := true, textureWidth := 400 }

/-- A laser fired by the centred ship of radius 50 after 5/9 s of flight: it stands on the
top edge of the screen. -/
def topLaser : Projectile :=
  { transform := { position := ⟨800, 0⟩, rotation := 0 }
    physics := { velocity := ⟨0, -720⟩, rotationSpeed := 0 }
    baseDamage := 20
    type := .LASER }

/-- A laser just fired by the centred ship of radius 50. -/
def freshLaser : Projectile :=
  { transform := { position := ⟨800, 400⟩, rotation := 0 }
    physics := { velocity := ⟨0, -720⟩, rotationSpeed := 0 }
    baseDamage := 20
    type := .LASER }

/-- The small triangle asteroid that the spawn block creates from the draws of
`killInput` at level 1: in the middle of the top edge, just off screen. -/
def topAsteroid : Asteroid :=
  { kind := .Triangle
    transform := { position := ⟨800, -16⟩, rotation := 0 }
    physics := { velocity := ⟨0, 275 / 2⟩, rotationSpeed := 50 }
    render := { size := .SMALL }
    baseDamage := 5
    pointsValue := 15 }

/-- A level-1 session state with `n` lasers standing on the top edge, spawn interval `iv`
and `k` asteroids destroyed, each a small triangle worth 15 points, in `k` frames of
5/9 s. `killState 0 (1/2) 0` is the initial session state, and every frame of
`killInput` leads from `killState n iv k` to `killState 9 (5/11) (k + 1)`. -/
def killState (n : Nat) (iv : ℚ) (k : Nat) : State :=
  { player := PlayerShip.new C_WIDTH C_HEIGHT 400
    asteroids := []
    projectiles := List.replicate n topLaser
    explosions := []
    powerups := []
    currentShape := .TRIANGLE
    spawnTimer := 0
    spawnInterval := iv
    currentWeapon := .LASER
    shotTimer := 0
    score := 15 * k
    level := 1
    asteroidsDestroyed := k
    asteroidsToNextLevel := 10
    gameTime := 5 / 9 * k }

/-- The initial session state with one laser on the top edge and one small triangle
asteroid, as constructed from the draws of `idleInput`, next to it. -/
def hitState : State :=
  { initState 256 0 with
    projectiles := [topLaser]
    asteroids := [TriangleAsteroid C_WIDTH C_HEIGHT { idleInput.initDraw with sizeRaw := 0 }] }

/-- The loop body up to, and not including, the spawn block: the state on which the spawn
block of the frame runs. -/
def beforeSpawn (fuel : Nat) (inp : Input) (s : State) : Option State :=
  afterRestart fuel inp (restartLogic inp (updatePlayer inp s))

/-- The state on which the projectile-asteroid pass of a frame runs, from the state after
the shooting block. -/
def atCollision (inp : Input) (t : State) : State :=
  updateProjectiles inp (spawnAsteroids inp t)

/-- The asteroid is within the screen rectangle expanded by its radius: the test of
`Asteroid::Update`, taken at the current position, does not fire. -/
def Asteroid.onScreen (a : Asteroid) : Prop :=
  ¬ (a.transform.position.x < -a.GetRadius ∨
    a.transform.position.x > (screenW : ℚ) + a.GetRadius ∨
    a.transform.position.y < -a.GetRadius ∨
    a.transform.position.y > (screenH : ℚ) + a.GetRadius)

/-- The values returned by successive calls of `Asteroid::Update` on one asteroid, one
call per time step of the list. -/
def Asteroid.updateFlags (a : Asteroid) : List ℚ → List Bool
  | [] => []
  | dt :: dts => (a.Update dt).2 :: Asteroid.updateFlags (a.Update dt).1 dts

/-- An idle frame of 1/64 s: a frame time that is a power of two, so that the products
and sums of the frame with the values below are exact in binary floating point as well. -/
def binaryInput : Input := { idleInput with dt := 1 / 64 }

/-- A laser 11.25 units below the top edge of the screen, flying up. -/
def nearLaser : Projectile :=
  { transform := { position := ⟨800, 45 / 4⟩, rotation := 0 }
    physics := { velocity := ⟨0, -720⟩, rotationSpeed := 0 }
    baseDamage := 20
    type := .LASER }

/-- The game-over state, with a shot timer of 1/128 s, and with one laser still in flight
below a small triangle asteroid that sits in the middle of the top edge. -/
def deadHitState : State :=
  { gameOverState with
    shotTimer := 1 / 128
    projectiles := [nearLaser]
    asteroids := [topAsteroid] }

/-- Runs of frames during which the asteroid collection stays at the cap: `CappedRun s u`
holds when `u` is reached from `s` by frames with non-negative frame time that process no
restart and each start with at least `MAX_AST` asteroids. -/
inductive CappedRun : State → State → Prop where
  | refl (s : State) : CappedRun s s
  | step {s u u1 : State} (fuel : Nat) (inp : Input) :
      CappedRun s u → MAX_AST ≤ u.asteroids.length → 0 ≤ inp.dt →
      ¬ processesRestart inp u → frame fuel inp u = some u1 → CappedRun s u1

/-- A game-over state at the asteroid cap: 150 small triangle asteroids in the middle of
the top edge, and a spawn timer of 1 s that has passed the spawn interval of 1/2 s. -/
def cappedState : State :=
  { gameOverState with
    asteroids := List.replicate 150 topAsteroid
    spawnTimer := 1
    spawnInterval := 1 / 2 }

/-- The state on which the spawn block of the idle frame from `cappedState` runs. -/
def cappedSpawn : State :=
  { cappedState with
    spawnTimer := 1 + 1 / 60
    gameTime := 20 + 1 / 60
    player := cappedState.player.Update (1 / 60) false false false false }

/-- The state at the end of the idle frame from `cappedState`: nothing was spawned and
every asteroid was advanced by 1/60 s. -/
def cappedNext : State :=
  { cappedSpawn with asteroids := List.replicate 150 (topAsteroid.Update (1 / 60)).1 }

/-- The state on which the spawn block runs in a frame that restarts the session from
`cappedNext`: the initial session state, but for the shot timer. -/
def restartedState : State :=
  { initState 256 0 with shotTimer := 1 / 100 }

/-- The shooting block run in consecutive frames with the fire key held, one frame per
time step of the list; the second component counts the projectiles the block emitted
over all frames. -/
def fireFrames (fuel : Nat) (inp : Input) : List ℚ → State → Option (State × Nat)
  | [], s => some (s, 0)
  | dt :: dts, s =>
    match shooting fuel { inp with dt := dt, keySpace := true } s with
    | none => none
    | some s1 =>
      (fireFrames fuel inp dts s1).map fun r =>
        (r.1, (s1.projectiles.length - s.projectiles.length) + r.2)

/-- The initial session state with the bullet weapon selected. -/
def bulletState : State := { initState 256 0 with currentWeapon := .BULLET }

/-- Specification of the projectile-asteroid pass in the words of the claim, on the two
collections alone: the projectiles are taken in collection order; a projectile that
overlaps an asteroid still present removes the first such asteroid and itself, a
projectile that overlaps none is kept. The result is the surviving projectiles and
asteroids. -/
def firstMatchSpec : List Projectile → List Asteroid → List Projectile × List Asteroid
  | [], asteroids => ([], asteroids)
  | p :: ps, asteroids =>
    match asteroids.find? (hits p) with
    | some a => firstMatchSpec ps (asteroids.erase a)
    | none => (p :: (firstMatchSpec ps asteroids).1, (firstMatchSpec ps asteroids).2)

/-- A small triangle asteroid far to the right of `topLaser`. -/
def farAsteroid : Asteroid :=
  { topAsteroid with transform := { position := ⟨1500, -16⟩, rotation := 0 } }

/-- A second small triangle asteroid within reach of `topLaser`. -/
def nearAsteroid : Asteroid :=
  { topAsteroid with transform := { position := ⟨800, -15⟩, rotation := 0 } }

/-- A laser on the top edge far to the left of the three asteroids. -/
def farLaser : Projectile :=
  { topLaser with transform := { position := ⟨100, 0⟩, rotation := 0 } }

/-- The initial session state with three lasers and three asteroids: the first and the
third laser overlap the second and the third asteroid, the second laser overlaps none. -/
def firstMatchState : State :=
  { initState 256 0 with
    projectiles := [topLaser, farLaser, topLaser]
    asteroids := [farAsteroid, topAsteroid, nearAsteroid] }

/-- The overlap test of the asteroid-ship pass:
`Vector2Distance (player position, asteroid position) < player radius + asteroid radius`. -/
def shipOverlaps (p : PlayerShip) (a : Asteroid) : Bool :=
  distLt p.GetPosition a.GetPosition (p.GetRadius + a.GetRadius)

/-- Specification of the asteroid-ship pass in the words of the claim: the asteroids are
taken in collection order with the ship's flag `alive` and hit points `hp`; while the ship
is alive an asteroid that overlaps it is removed by collision and lowers `hp` by its
damage, and once `hp` has dropped to 0 or below no later asteroid collides. The result is
the asteroids removed by collision and the other asteroids, both in collection order. -/
def collisionSplit (overlaps : Asteroid → Bool) :
    Bool → Int → List Asteroid → List Asteroid × List Asteroid
  | _, _, [] => ([], [])
  | alive, hp, a :: rest =>
    if alive && overlaps a then
      (a :: (collisionSplit overlaps (decide (0 < hp - a.GetDamage)) (hp - a.GetDamage) rest).1,
        (collisionSplit overlaps (decide (0 < hp - a.GetDamage)) (hp - a.GetDamage) rest).2)
    else
      ((collisionSplit overlaps alive hp rest).1, a :: (collisionSplit overlaps alive hp rest).2)

/-- A large star asteroid (damage 80) drifting down through the centre of the screen. -/
def starAsteroid : Asteroid :=
  { kind := .Star
    transform := { position := ⟨800, 450⟩, rotation := 0 }
    physics := { velocity := ⟨0, 120⟩, rotationSpeed := 0 }
    render := { size := .LARGE }
    baseDamage := 20
    pointsValue := 60 }

/-- A small triangle asteroid at rest near the top left corner. -/
def cornerAsteroid : Asteroid :=
  { topAsteroid with
    transform := { position := ⟨100, 100⟩, rotation := 0 }
    physics := { velocity := ⟨0, 0⟩, rotationSpeed := 0 } }

/-- The initial session state with four asteroids: three large stars on the ship and,
second in the collection, a small triangle far from it. -/
def rammedState : State :=
  { initState 256 0 with
    asteroids := [starAsteroid, cornerAsteroid, starAsteroid, starAsteroid] }

/-- The number of binary digits of `n`, by repeated halving; `fuel` bounds the number of
halvings. -/
def bitLengthAux : Nat → Nat → Nat
  | 0, _ => 0
  | fuel + 1, n => if n = 0 then 0 else bitLengthAux fuel (n / 2) + 1

/-- The number of binary digits of `n`: 0 for 0, and `k + 1` when `2^k ≤ n < 2^(k+1)`. -/
def bitLength (n : Nat) : Nat := bitLengthAux n n

/-- Rounding to `float` (IEEE 754 binary32, round to nearest, ties to even) of the
non-negative rational `p / q`. The unit is `2^-149`, the spacing of the subnormal
numbers: every finite non-negative `float` is a natural number of units, and `p / q` and
the result are in units. The result keeps 24 binary digits: with `e` the number of digits
of `⌊p / q⌋` beyond 24, it is the multiple of `2^e` nearest to `p / q`, the even multiple
when two are equally near. There is no infinity: a result above `F32.maxFinite` stands for
an overflow. -/
def roundF32 (p q : Nat) : Nat :=
  let e := bitLength (p / q) - 24
  let d := q * 2 ^ e
  let m := p / d
  let r := p % d
  if 2 * r < d then m * 2 ^ e
  else if d < 2 * r then (m + 1) * 2 ^ e
  else if m % 2 = 0 then m * 2 ^ e
  else (m + 1) * 2 ^ e

namespace F32

/-- The `float` 1, in units of `2^-149`. -/
def one : Nat := 2 ^ 149

/-- The largest finite `float`, `(2^24 - 1) × 2^104`, in units of `2^-149`. -/
def maxFinite : Nat := (2 ^ 24 - 1) * 2 ^ 253

/-- The `float` nearest to the rational `n / d`: the value of a literal or of a frame
time. -/
def ofRatio (n d : Nat) : Nat := roundF32 (n * 2 ^ 149) d

/-- Single precision `a + b` of two non-negative `float`. -/
def add (a b : Nat) : Nat := roundF32 (a + b) 1

/-- Single precision `a - b` of two `float` with `b ≤ a`. -/
def sub (a b : Nat) : Nat := roundF32 (a - b) 1

/-- Single precision `a / b` of a non-negative `float` by a positive one. -/
def div (a b : Nat) : Nat := roundF32 (a * 2 ^ 149) b

end F32

/-- The `while (shotTimer >= interval)` loop of the shooting block in single precision,
run for at most `fuel` iterations: the shot timer after the loop and `count` plus the
number of `push_back` calls. The result is `none` when the loop condition still holds
after `fuel` iterations. -/
def fireLoopF (interval : Nat) : Nat → Nat → Nat → Option (Nat × Nat)
  | 0, shotTimer, count => if shotTimer ≥ interval then none else some (shotTimer, count)
  | fuel + 1, shotTimer, count =>
    if shotTimer ≥ interval then
      fireLoopF interval fuel (F32.sub shotTimer interval) (count + 1)
    else some (shotTimer, count)

/-- The branch of the block under `// Shooting` that is taken when the ship is alive and
the fire key is down, in single precision: `shotTimer += dt`,
`interval = 1.f / fireRate` and the loop. The result is the shot timer after the block
and the number of projectiles it emitted. -/
def shootingF (fuel : Nat) (fireRate dt shotTimer : Nat) : Option (Nat × Nat) :=
  fireLoopF (F32.div F32.one fireRate) fuel (F32.add shotTimer dt) 0

/-- The firing branch run in consecutive frames, one frame per frame time of the list, in
single precision: the shot timer after the last frame and the number of projectiles
emitted over all frames. -/
def fireFramesF (fuel : Nat) (fireRate : Nat) : List Nat → Nat → Option (Nat × Nat)
  | [], shotTimer => some (shotTimer, 0)
  | dt :: dts, shotTimer =>
    match shootingF fuel fireRate dt shotTimer with
    | none => none
    | some r => (fireFramesF fuel fireRate dts r.1).map fun u => (u.1, r.2 + u.2)

/-! ## Asteroid damage and points -/

/-- `Asteroid::Update` writes the transform only. -/
theorem Asteroid.Update_fst (a : Asteroid) (dt : ℚ) :
    (a.Update dt).1 =
      { a with transform :=
          { position := Vector2Add a.transform.position (Vector2Scale a.physics.velocity dt)
            rotation := a.transform.rotation + a.physics.rotationSpeed * dt } } := by
  simp only [Asteroid.Update]
  split_ifs <;> rfl

theorem Size.toInt_mem (z : Size) : z.toInt = 1 ∨ z.toInt = 2 ∨ z.toInt = 4 := by
  cases z <;> simp [Size.toInt]

/-- C1: every constructed asteroid has a size multiplier in {1, 2, 4} (each of them
occurs); `GetDamage` is 5, 10, 15, 20 times the multiplier and `GetPoints` is 15, 25,
40, 60 times the multiplier for a triangle, square, pentagon and star asteroid; and
`Update` and `SetPhysics` change neither the size nor the two values of any asteroid. -/
theorem asteroid_damage_points (w h : Int) (d : InitDraw) :
    ((TriangleAsteroid w h d).GetSize = 1 ∨ (TriangleAsteroid w h d).GetSize = 2 ∨
        (TriangleAsteroid w h d).GetSize = 4) ∧
      (SquareAsteroid w h d).GetSize = (TriangleAsteroid w h d).GetSize ∧
      (PentagonAsteroid w h d).GetSize = (TriangleAsteroid w h d).GetSize ∧
      (StarAsteroid w h d).GetSize = (TriangleAsteroid w h d).GetSize ∧
      (∀ d0 : InitDraw, (TriangleAsteroid w h { d0 with sizeRaw := 0 }).GetSize = 1 ∧
        (TriangleAsteroid w h { d0 with sizeRaw := 1 }).GetSize = 2 ∧
        (TriangleAsteroid w h { d0 with sizeRaw := 2 }).GetSize = 4) ∧
      (TriangleAsteroid w h d).GetDamage = 5 * (TriangleAsteroid w h d).GetSize ∧
      (SquareAsteroid w h d).GetDamage = 10 * (SquareAsteroid w h d).GetSize ∧
      (PentagonAsteroid w h d).GetDamage = 15 * (PentagonAsteroid w h d).GetSize ∧
      (StarAsteroid w h d).GetDamage = 20 * (StarAsteroid w h d).GetSize ∧
      (TriangleAsteroid w h d).GetPoints = 15 * (TriangleAsteroid w h d).GetSize ∧
      (SquareAsteroid w h d).GetPoints = 25 * (SquareAsteroid w h d).GetSize ∧
      (PentagonAsteroid w h d).GetPoints = 40 * (PentagonAsteroid w h d).GetSize ∧
      (StarAsteroid w h d).GetPoints = 60 * (StarAsteroid w h d).GetSize ∧
      (∀ (a : Asteroid) (dt : ℚ) (phys : Physics),
        (a.Update dt).1.GetSize = a.GetSize ∧
        (a.Update dt).1.GetDamage = a.GetDamage ∧
        (a.Update dt).1.GetPoints = a.GetPoints ∧
        (a.SetPhysics phys).GetSize = a.GetSize ∧
        (a.SetPhysics phys).GetDamage = a.GetDamage ∧
        (a.SetPhysics phys).GetPoints = a.GetPoints) := by
  refine ⟨Size.toInt_mem _, rfl, rfl, rfl, ?_, rfl, rfl, rfl, rfl, rfl, rfl, rfl, rfl, ?_⟩
  · intro d0
    refine ⟨?_, ?_, ?_⟩ <;>
      simp [TriangleAsteroid, Asteroid.init, Asteroid.GetSize, GetRandomValue, Size.ofShift,
        Size.toInt]
  · intro a dt phys
    refine ⟨?_, ?_, ?_, rfl, rfl, rfl⟩ <;>
      · rw [Asteroid.Update_fst]
        rfl

/-! ## Ship hit points -/

theorem Ship.TakeDamage_dead (s : Ship) (d : Int) (h : s.alive = false) :
    s.TakeDamage d = s := by
  simp [Ship.TakeDamage, h]

theorem Ship.TakeDamage_hp (s : Ship) (d : Int) (h : s.alive = true) :
    (s.TakeDamage d).hp = s.hp - d := by
  simp only [Ship.TakeDamage, h]
  split_ifs <;> simp_all

theorem Ship.TakeDamage_alive (s : Ship) (d : Int) (h : s.alive = true) :
    (s.TakeDamage d).alive = decide (0 < s.hp - d) := by
  simp only [Ship.TakeDamage, h]
  split_ifs <;> simp_all

theorem Ship.TakeDamage_maxHp (s : Ship) (d : Int) : (s.TakeDamage d).maxHp = s.maxHp := by
  simp only [Ship.TakeDamage]
  split_ifs <;> rfl

theorem wrapInt32_eq (x : Int) (h1 : -2147483648 ≤ x) (h2 : x ≤ 2147483647) :
    wrapInt32 x = x := by
  unfold wrapInt32
  omega

/-- C2, as stated, fails: a fresh ship that takes 150 damage has hp −50. And a `Heal`
amount is not harmless for being non-negative: `Heal (2147483647)` on a fresh ship
overflows `hp + amount` and leaves an alive ship with hp −2147483549. -/
theorem ship_hp_clamped_counterexample :
    ¬ (∀ s : Ship, ShipReachable s → 0 ≤ s.hp ∧ s.hp ≤ s.maxHp) ∧
      ((Ship.new 1600 900).Heal 2147483647).hp = -2147483549 ∧
      ((Ship.new 1600 900).Heal 2147483647).alive = true := by
  refine ⟨?_, by decide, rfl⟩
  intro h
  have h1 := (h _ (ShipReachable.damage 150 (by decide) (by decide)
    (ShipReachable.fresh 1600 900))).1
  revert h1
  decide

/-- C2, amended: in every ship state reachable from a fresh ship by `TakeDamage` calls
with non-negative amounts and `Heal` calls with non-negative amounts of at most
`INT_MAX - 100` (no overflow of `hp + amount`), `maxHp = 100`, `hp ≤ maxHp`, and `0 < hp`
as long as the ship is alive. The hp of a dead ship may be negative; it stays above
`INT_MIN`, so that no `hp - dmg` or `hp + amount` on the way leaves the range of `int`. -/
theorem ship_hp_bounds (s : Ship) (h : ShipReachable s) :
    s.maxHp = 100 ∧ s.hp ≤ s.maxHp ∧ (s.alive = true → 0 < s.hp) ∧ -2147483648 < s.hp := by
  induction h with
  | fresh w h => exact ⟨rfl, by simp [Ship.new], fun _ => by simp [Ship.new], by simp [Ship.new]⟩
  | @damage s d hd hd2 _ ih =>
    obtain ⟨hm, hle, hpos, hlow⟩ := ih
    cases ha : s.alive with
    | false =>
      rw [Ship.TakeDamage_dead s d ha]
      exact ⟨hm, hle, fun h => Bool.noConfusion (ha.symm.trans h), hlow⟩
    | true =>
      have h0 : 0 < s.hp := hpos ha
      refine ⟨by rw [Ship.TakeDamage_maxHp]; exact hm, ?_, ?_, ?_⟩
      · rw [Ship.TakeDamage_hp s d ha, Ship.TakeDamage_maxHp]
        omega
      · rw [Ship.TakeDamage_hp s d ha, Ship.TakeDamage_alive s d ha]
        intro h
        simpa using h
      · rw [Ship.TakeDamage_hp s d ha]
        omega
  | @heal s a ha ha2 _ ih =>
    obtain ⟨hm, hle, hpos, hlow⟩ := ih
    have hw : wrapInt32 (s.hp + a) = s.hp + a :=
      wrapInt32_eq _ (by omega) (by omega)
    have hhp : (s.Heal a).hp = min (s.hp + a) s.maxHp := by
      show min (wrapInt32 (s.hp + a)) s.maxHp = _
      rw [hw]
    refine ⟨hm, ?_, ?_, ?_⟩
    · rw [hhp]
      exact min_le_right _ _
    · intro h
      have h0 : 0 < s.hp := hpos h
      rw [hhp]
      show 0 < min (s.hp + a) s.maxHp
      rw [hm]
      exact lt_min (by omega) (by decide)
    · rw [hhp]
      show -2147483648 < min (s.hp + a) s.maxHp
      rw [hm]
      exact lt_min (by omega) (by decide)

theorem ship_hp_bounds_witness :
    ShipReachable (((Ship.new 1600 900).TakeDamage 40).Heal 25) ∧
      (((Ship.new 1600 900).TakeDamage 40).Heal 25).hp = 85 ∧
      (((Ship.new 1600 900).TakeDamage 40).Heal 25).maxHp = 100 ∧
      (((Ship.new 1600 900).TakeDamage 40).Heal 25).hp ≤
        (((Ship.new 1600 900).TakeDamage 40).Heal 25).maxHp ∧
      ((((Ship.new 1600 900).TakeDamage 40).Heal 25).alive = true →
        0 < (((Ship.new 1600 900).TakeDamage 40).Heal 25).hp) ∧
      -2147483648 < (((Ship.new 1600 900).TakeDamage 40).Heal 25).hp :=
  ⟨ShipReachable.heal 25 (by decide) (by decide)
      (ShipReachable.damage 40 (by decide) (by decide) (ShipReachable.fresh 1600 900)),
    by decide,
    ship_hp_bounds _ (ShipReachable.heal 25 (by decide) (by decide)
      (ShipReachable.damage 40 (by decide) (by decide) (ShipReachable.fresh 1600 900)))⟩

/-- C3: `TakeDamage (d)` leaves a dead ship unchanged; on an alive ship it sets hp to
`hp − d` and clears the alive flag exactly when `hp − d ≤ 0`. A large square asteroid
deals 40 damage, and three such hits take a fresh ship from 100 to 60 (alive),
20 (alive) and −20 (dead). -/
theorem take_damage_spec (s : Ship) (d : Int) :
    (s.alive = false → s.TakeDamage d = s) ∧
      (s.alive = true →
        (s.TakeDamage d).hp = s.hp - d ∧
        ((s.TakeDamage d).alive = false ↔ s.hp - d ≤ 0) ∧
        (s.TakeDamage d).maxHp = s.maxHp) ∧
      (∀ (w h : Int) (i : InitDraw),
        (SquareAsteroid w h { i with sizeRaw := 2 }).GetDamage = 40 ∧
        (Ship.new w h).hp = 100 ∧ (Ship.new w h).maxHp = 100 ∧
        ((Ship.new w h).TakeDamage 40).hp = 60 ∧
        ((Ship.new w h).TakeDamage 40).alive = true ∧
        (((Ship.new w h).TakeDamage 40).TakeDamage 40).hp = 20 ∧
        (((Ship.new w h).TakeDamage 40).TakeDamage 40).alive = true ∧
        ((((Ship.new w h).TakeDamage 40).TakeDamage 40).TakeDamage 40).hp = -20 ∧
        ((((Ship.new w h).TakeDamage 40).TakeDamage 40).TakeDamage 40).alive = false) := by
  refine ⟨Ship.TakeDamage_dead s d, fun h => ⟨Ship.TakeDamage_hp s d h, ?_,
    Ship.TakeDamage_maxHp s d⟩, ?_⟩
  · rw [Ship.TakeDamage_alive s d h]
    simp
  · intro w h i
    refine ⟨?_, rfl, rfl, rfl, rfl, rfl, rfl, rfl, rfl⟩
    simp [SquareAsteroid, Asteroid.init, Asteroid.GetDamage, GetRandomValue, Size.ofShift,
      Size.toInt]

theorem take_damage_spec_witness :
    (((Ship.new 1600 900).TakeDamage 40).TakeDamage 40).alive = true ∧
      ((((Ship.new 1600 900).TakeDamage 40).TakeDamage 40).TakeDamage 40).hp =
        (((Ship.new 1600 900).TakeDamage 40).TakeDamage 40).hp - 40 ∧
      ((((Ship.new 1600 900).TakeDamage 40).TakeDamage 40).TakeDamage 40).alive = false :=
  ⟨by decide,
    ((take_damage_spec (((Ship.new 1600 900).TakeDamage 40).TakeDamage 40) 40).2.1
      (by decide)).1,
    ((take_damage_spec (((Ship.new 1600 900).TakeDamage 40).TakeDamage 40) 40).2.1
      (by decide)).2.1.mpr (by decide)⟩

/-! ## Restart -/

theorem updatePlayer_alive (inp : Input) (s : State) :
    (updatePlayer inp s).player.alive = s.player.alive := by
  simp only [updatePlayer, PlayerShip.Update]
  split_ifs <;> rfl

/-- C4: when the ship is dead and restart is pressed, the state right after the restart
block has empty asteroid, projectile, explosion and powerup collections, score 0,
level 1, no asteroids destroyed, threshold 10, and a ship that is alive with
hp = maxHp = 100. -/
theorem restart_resets (inp : Input) (s : State) (hdead : s.player.alive = false)
    (hR : inp.keyR = true) :
    (restartLogic inp (updatePlayer inp s)).asteroids = [] ∧
      (restartLogic inp (updatePlayer inp s)).projectiles = [] ∧
      (restartLogic inp (updatePlayer inp s)).explosions = [] ∧
      (restartLogic inp (updatePlayer inp s)).powerups = [] ∧
      (restartLogic inp (updatePlayer inp s)).score = 0 ∧
      (restartLogic inp (updatePlayer inp s)).level = 1 ∧
      (restartLogic inp (updatePlayer inp s)).asteroidsDestroyed = 0 ∧
      (restartLogic inp (updatePlayer inp s)).asteroidsToNextLevel = 10 ∧
      (restartLogic inp (updatePlayer inp s)).player.alive = true ∧
      (restartLogic inp (updatePlayer inp s)).player.hp =
        (restartLogic inp (updatePlayer inp s)).player.maxHp ∧
      (restartLogic inp (updatePlayer inp s)).player.maxHp = 100 := by
  have ha := updatePlayer_alive inp s
  rw [hdead] at ha
  simp only [restartLogic, ha, hR]
  refine ⟨rfl, rfl, rfl, rfl, rfl, rfl, rfl, rfl, rfl, rfl, rfl⟩

theorem restart_resets_witness :
    gameOverState.player.alive = false ∧ restartInput.keyR = true ∧
      (restartLogic restartInput (updatePlayer restartInput gameOverState)).score = 0 ∧
      (restartLogic restartInput (updatePlayer restartInput gameOverState)).level = 1 ∧
      (restartLogic restartInput (updatePlayer restartInput gameOverState)).player.alive = true :=
  ⟨rfl, rfl, (restart_resets restartInput gameOverState rfl rfl).2.2.2.2.1,
    (restart_resets restartInput gameOverState rfl rfl).2.2.2.2.2.1,
    (restart_resets restartInput gameOverState rfl rfl).2.2.2.2.2.2.2.2.1⟩

theorem updatePlayer_shotTimer (inp : Input) (s : State) :
    (updatePlayer inp s).shotTimer = s.shotTimer := rfl

/-- C5, as stated, fails: the restart block does not assign `shotTimer`. In the game-over
state with a shot timer of 1/100 the ship is dead, `R` is pressed, and after the restart
block the shot timer is still 1/100. -/
theorem restart_timers_counterexample :
    gameOverState.player.alive = false ∧ restartInput.keyR = true ∧
      (restartLogic restartInput (updatePlayer restartInput gameOverState)).shotTimer = 1 / 100 ∧
      ¬ ((restartLogic restartInput (updatePlayer restartInput gameOverState)).spawnTimer = 0 ∧
        (restartLogic restartInput (updatePlayer restartInput gameOverState)).gameTime = 0 ∧
        (restartLogic restartInput (updatePlayer restartInput gameOverState)).shotTimer = 0) := by
  have h : (restartLogic restartInput (updatePlayer restartInput gameOverState)).shotTimer
      = 1 / 100 := rfl
  refine ⟨rfl, rfl, h, ?_⟩
  rintro ⟨-, -, h0⟩
  rw [h] at h0
  norm_num at h0

/-- C5, amended: when the ship is dead and restart is pressed, the state right after the
restart block has spawn timer 0 and elapsed game time 0; the shot timer is not reset by
the restart block and keeps the value it had before the frame. -/
theorem restart_timers (inp : Input) (s : State) (hdead : s.player.alive = false)
    (hR : inp.keyR = true) :
    (restartLogic inp (updatePlayer inp s)).spawnTimer = 0 ∧
      (restartLogic inp (updatePlayer inp s)).gameTime = 0 ∧
      (restartLogic inp (updatePlayer inp s)).shotTimer = s.shotTimer := by
  have ha := updatePlayer_alive inp s
  rw [hdead] at ha
  simp only [restartLogic, ha, hR]
  exact ⟨rfl, rfl, rfl⟩

theorem restart_timers_witness :
    gameOverState.player.alive = false ∧ restartInput.keyR = true ∧
      (restartLogic restartInput (updatePlayer restartInput gameOverState)).spawnTimer = 0 ∧
      (restartLogic restartInput (updatePlayer restartInput gameOverState)).gameTime = 0 ∧
      (restartLogic restartInput (updatePlayer restartInput gameOverState)).shotTimer =
        gameOverState.shotTimer :=
  ⟨rfl, rfl, restart_timers restartInput gameOverState rfl rfl⟩

/-- With the ship alive the restart block changes nothing. -/
theorem restartLogic_alive (inp : Input) (s : State) (h : s.player.alive = true) :
    restartLogic inp s = s := by
  simp [restartLogic, h]

/-- C6: when the ship is alive at the start of a frame, the frame with `R` pressed yields
exactly the state of the same frame (same time step, keys and random draws) with `R`
not pressed. -/
theorem restart_ignored_while_alive (fuel : Nat) (inp : Input) (s : State)
    (halive : s.player.alive = true) :
    frame fuel { inp with keyR := true } s = frame fuel { inp with keyR := false } s := by
  have h : ∀ b : Bool,
      restartLogic { inp with keyR := b } (updatePlayer { inp with keyR := b } s) =
        updatePlayer inp s := by
    intro b
    rw [restartLogic_alive]
    · rfl
    · rw [updatePlayer_alive]
      exact halive
  unfold frame beforeLevel
  rw [h true, h false]
  rfl


/-! ## Level progression -/

theorem resolveHit_level (a : Asteroid) (raw : Nat → Nat) (s : State) :
    (resolveHit a raw s).1.level = s.level ∧
      (resolveHit a raw s).1.asteroidsToNextLevel = s.asteroidsToNextLevel := by
  simp only [resolveHit]
  split_ifs <;> exact ⟨rfl, rfl⟩

theorem collisionLoop_level (todo : List Projectile) (raw : Nat → Nat) (s : State) :
    (collisionLoop todo raw s).level = s.level ∧
      (collisionLoop todo raw s).asteroidsToNextLevel = s.asteroidsToNextLevel := by
  induction todo generalizing raw s with
  | nil => exact ⟨rfl, rfl⟩
  | cons p todo ih =>
    simp only [collisionLoop]
    split
    · rw [(ih _ _).1, (ih _ _).2]
      exact resolveHit_level _ _ _
    · rw [(ih _ _).1, (ih _ _).2]
      exact ⟨rfl, rfl⟩

theorem shipLoop_level (dt : ℚ) (todo : List Asteroid) (s : State) :
    (shipLoop dt todo s).level = s.level ∧
      (shipLoop dt todo s).asteroidsToNextLevel = s.asteroidsToNextLevel := by
  induction todo generalizing s with
  | nil => exact ⟨rfl, rfl⟩
  | cons a todo ih =>
    simp only [shipLoop]
    split_ifs <;> rw [(ih _).1, (ih _).2] <;> exact ⟨rfl, rfl⟩

theorem collectLoop_level (todo : List PowerUp) (s : State) :
    (collectLoop todo s).level = s.level ∧
      (collectLoop todo s).asteroidsToNextLevel = s.asteroidsToNextLevel := by
  induction todo generalizing s with
  | nil => exact ⟨rfl, rfl⟩
  | cons a todo ih =>
    simp only [collectLoop]
    split_ifs <;> rw [(ih _).1, (ih _).2] <;> exact ⟨rfl, rfl⟩

theorem spawnAsteroids_level (inp : Input) (s : State) :
    (spawnAsteroids inp s).level = s.level ∧
      (spawnAsteroids inp s).asteroidsToNextLevel = s.asteroidsToNextLevel := by
  simp only [spawnAsteroids]
  split_ifs <;> exact ⟨rfl, rfl⟩

theorem powerupCollection_level (s : State) :
    (powerupCollection s).level = s.level ∧
      (powerupCollection s).asteroidsToNextLevel = s.asteroidsToNextLevel := by
  simp only [powerupCollection]
  split_ifs
  · exact collectLoop_level _ _
  · exact ⟨rfl, rfl⟩

theorem simulate_level (inp : Input) (s : State) :
    (simulate inp s).level = s.level ∧
      (simulate inp s).asteroidsToNextLevel = s.asteroidsToNextLevel := by
  unfold simulate
  rw [(powerupCollection_level _).1, (powerupCollection_level _).2]
  show (asteroidShipCollisions inp _).level = _ ∧
    (asteroidShipCollisions inp _).asteroidsToNextLevel = _
  unfold asteroidShipCollisions
  rw [(shipLoop_level _ _ _).1, (shipLoop_level _ _ _).2]
  show (projectileAsteroidCollisions inp _).level = _ ∧
    (projectileAsteroidCollisions inp _).asteroidsToNextLevel = _
  unfold projectileAsteroidCollisions
  rw [(collisionLoop_level _ _ _).1, (collisionLoop_level _ _ _).2]
  exact spawnAsteroids_level inp s

theorem shooting_level (fuel : Nat) (inp : Input) (s t : State)
    (h : shooting fuel inp s = some t) :
    t.level = s.level ∧ t.asteroidsToNextLevel = s.asteroidsToNextLevel := by
  simp only [shooting] at h
  split_ifs at h
  · simp only [Option.map_eq_some'] at h
    obtain ⟨r, -, rfl⟩ := h
    exact ⟨rfl, rfl⟩
  · cases h
    exact ⟨rfl, rfl⟩
  · cases h
    exact ⟨rfl, rfl⟩

theorem afterRestart_level (fuel : Nat) (inp : Input) (s t : State)
    (h : afterRestart fuel inp s = some t) :
    t.level = s.level ∧ t.asteroidsToNextLevel = s.asteroidsToNextLevel := by
  have h1 := shooting_level fuel inp _ t h
  rw [h1.1, h1.2]
  simp only [weaponSwitch, shapeSwitch]
  split_ifs <;> exact ⟨rfl, rfl⟩

theorem restartLogic_level (inp : Input) (s : State) :
    ((restartLogic inp s).level = s.level ∧
        (restartLogic inp s).asteroidsToNextLevel = s.asteroidsToNextLevel) ∨
      ((s.player.alive = false ∧ inp.keyR = true) ∧
        (restartLogic inp s).level = 1 ∧ (restartLogic inp s).asteroidsToNextLevel = 10) := by
  simp only [restartLogic]
  split_ifs with h
  · right
    simp only [Bool.and_eq_true, Bool.not_eq_true'] at h
    exact ⟨h, rfl, rfl⟩
  · left
    exact ⟨rfl, rfl⟩

/-- Before the level progression block the two level variables are those of the start
of the frame, or `1` and `10` when the frame processed a restart. -/
theorem beforeLevel_level (fuel : Nat) (inp : Input) (s m : State)
    (h : beforeLevel fuel inp s = some m) :
    (m.level = s.level ∧ m.asteroidsToNextLevel = s.asteroidsToNextLevel) ∨
      (processesRestart inp s ∧ m.level = 1 ∧ m.asteroidsToNextLevel = 10) := by
  simp only [beforeLevel, Option.map_eq_some'] at h
  obtain ⟨t, ht, rfl⟩ := h
  have h1 := afterRestart_level fuel inp _ t ht
  rw [(simulate_level inp t).1, (simulate_level inp t).2, h1.1, h1.2]
  rcases restartLogic_level inp (updatePlayer inp s) with h2 | ⟨⟨h2, h3⟩, h4⟩
  · left
    exact h2
  · right
    rw [updatePlayer_alive] at h2
    exact ⟨⟨h2, h3⟩, h4⟩

theorem levelProgression_level (s : State) :
    (levelProgression s).level = s.level ∨ (levelProgression s).level = s.level + 1 := by
  simp only [levelProgression]
  split_ifs
  · right; rfl
  · left; rfl

/-- C7: in a frame that does not process a restart (the ship is alive or `R` is not
pressed), the level after the frame is the level before it or exactly one more; so the
level does not decrease. -/
theorem level_ratchet (fuel : Nat) (inp : Input) (s s1 : State)
    (hstep : frame fuel inp s = some s1) (hno : ¬ processesRestart inp s) :
    (s1.level = s.level ∨ s1.level = s.level + 1) ∧ s.level ≤ s1.level := by
  simp only [frame, Option.map_eq_some'] at hstep
  obtain ⟨m, hm, rfl⟩ := hstep
  have hl : m.level = s.level := by
    rcases beforeLevel_level fuel inp s m hm with h | ⟨h, -⟩
    · exact h.1
    · exact absurd h hno
  have h := levelProgression_level m
  rw [hl] at h
  refine ⟨h, ?_⟩
  rcases h with h | h <;> omega

/-! ## A session that reaches a level-up -/

theorem frame_idle : frame 8 idleInput (initState 256 0) = some idleFrameState := by
  norm_num [frame, beforeLevel, afterRestart, simulate, idleInput, initState, updatePlayer,
    restartLogic, shapeSwitch, weaponSwitch, shooting, spawnAsteroids, updateProjectiles,
    projectileAsteroidCollisions, asteroidShipCollisions, updateExplosions, updatePowerups,
    powerupCollection, levelProgression, collisionLoop, shipLoop, collectLoop,
    PlayerShip.new, Ship.new, PlayerShip.Update, PlayerShip.GetRadius, clamp, Ship.GetFireRate,
    RandomFloat, C_SPAWN_MIN, C_SPAWN_MAX, C_WIDTH, C_HEIGHT, screenW, screenH, MAX_AST,
    idleFrameState]

theorem initState_eq_killState : initState 400 0 = killState 0 (1 / 2) 0 := by
  norm_num [initState, killState, RandomFloat, C_SPAWN_MIN, C_SPAWN_MAX]

theorem kill_step1 (n : Nat) (iv : ℚ) (k : Nat) :
    restartLogic killInput (updatePlayer killInput (killState n iv k)) =
      { killState n iv k with spawnTimer := 5 / 9, gameTime := 5 / 9 * k + 5 / 9 } := by
  rw [restartLogic_alive _ _ (by rw [updatePlayer_alive]; rfl)]
  norm_num [updatePlayer, killState, killInput, idleInput, PlayerShip.Update, PlayerShip.new,
    Ship.new, PlayerShip.GetRadius, clamp, C_WIDTH, C_HEIGHT, screenW, screenH]

theorem kill_fire (ps : List Projectile) :
    fireLoop (1 / 18) freshLaser 10 (5 / 9) ps = some (0, ps ++ List.replicate 10 freshLaser) := by
  norm_num [fireLoop, List.replicate]

theorem kill_step2 (n : Nat) (iv : ℚ) (k : Nat) :
    afterRestart 10 killInput
        { killState n iv k with spawnTimer := 5 / 9, gameTime := 5 / 9 * k + 5 / 9 } =
      some { killState n iv k with
        spawnTimer := 5 / 9, gameTime := 5 / 9 * k + 5 / 9
        projectiles := List.replicate n topLaser ++ List.replicate 10 freshLaser } := by
  have hp : MakeProjectile WeaponType.LASER ⟨800, 400⟩ 720 = freshLaser := rfl
  simp only [afterRestart, shapeSwitch, weaponSwitch, shooting, killInput, idleInput, killState,
    PlayerShip.new, Ship.new, Ship.GetFireRate, Ship.GetSpacing, Ship.GetPosition,
    PlayerShip.GetRadius, C_WIDTH, C_HEIGHT]
  norm_num [hp, kill_fire]

theorem kill_step3 (n : Nat) (iv : ℚ) (k : Nat) (hiv : iv ≤ 5 / 9) :
    spawnAsteroids killInput { killState n iv k with
        spawnTimer := 5 / 9, gameTime := 5 / 9 * k + 5 / 9
        projectiles := List.replicate n topLaser ++ List.replicate 10 freshLaser } =
      { killState 9 (5 / 11) k with
        gameTime := 5 / 9 * k + 5 / 9
        projectiles := List.replicate n topLaser ++ List.replicate 10 freshLaser
        asteroids := [topAsteroid] } := by
  norm_num [spawnAsteroids, killInput, idleInput, killState, MAX_AST, MakeAsteroid,
    TriangleAsteroid, Asteroid.init, GetRandomValue, Size.ofShift, Size.toInt, RandomFloat,
    Asteroid.GetPhysics, Asteroid.SetPhysics, Vector2Scale, C_SPAWN_MIN, C_SPAWN_MAX, C_WIDTH,
    C_HEIGHT, Asteroid.SPEED_MIN, Asteroid.SPEED_MAX, Asteroid.ROT_MIN, Asteroid.ROT_MAX,
    topAsteroid, hiv]

theorem topLaser_update : (topLaser.Update (5 / 9)).2 = true := by
  norm_num [Projectile.Update, topLaser, Vector2Add, Vector2Scale, screenW, screenH]

theorem freshLaser_update : freshLaser.Update (5 / 9) = (topLaser, false) := by
  norm_num [Projectile.Update, topLaser, freshLaser, Vector2Add, Vector2Scale, screenW, screenH]

theorem kill_filter_old (n : Nat) :
    (List.replicate n topLaser).filterMap
        (fun p => if (p.Update (5 / 9)).2 then none else some (p.Update (5 / 9)).1) = [] := by
  induction n with
  | zero => rfl
  | succ n ih =>
    rw [List.replicate_succ, List.filterMap_cons_none (by rw [topLaser_update]; rfl)]
    exact ih

theorem kill_step4 (n : Nat) (k : Nat) :
    updateProjectiles killInput { killState 9 (5 / 11) k with
        gameTime := 5 / 9 * k + 5 / 9
        projectiles := List.replicate n topLaser ++ List.replicate 10 freshLaser
        asteroids := [topAsteroid] } =
      { killState 9 (5 / 11) k with
        gameTime := 5 / 9 * k + 5 / 9
        projectiles := List.replicate 10 topLaser
        asteroids := [topAsteroid] } := by
  have hdt : killInput.dt = 5 / 9 := rfl
  simp only [updateProjectiles, hdt, List.filterMap_append, kill_filter_old]
  simp [List.replicate, List.filterMap, freshLaser_update]

theorem kill_scan : scanAsteroids topLaser [topAsteroid] = some (topAsteroid, []) := by
  have hr : topLaser.GetRadius = 3 := rfl
  norm_num [scanAsteroids, hits, distLt, Vector2DistanceSqr, hr, topAsteroid,
    Projectile.GetPosition, Asteroid.GetPosition, Asteroid.GetRadius, Size.toInt]
  norm_num [topLaser]

theorem kill_resolve (s : State) :
    resolveHit topAsteroid killInput.hitRaw s =
      ({ s with
          score := s.score + 15
          asteroidsDestroyed := s.asteroidsDestroyed + 1
          explosions := s.explosions ++ [Explosion.new ⟨800, -16⟩ 32 (1 / 2) Color.YELLOW] },
        fun n => killInput.hitRaw (n + 1)) := by
  norm_num [resolveHit, killInput, idleInput, GetRandomValue, topAsteroid, Asteroid.GetPoints,
    Asteroid.GetSize, Asteroid.GetRadius, Asteroid.GetPosition, Size.toInt]

theorem collisionLoop_no_asteroids (todo : List Projectile) (raw : Nat → Nat) (s : State)
    (h : s.asteroids = []) :
    collisionLoop todo raw s = { s with projectiles := s.projectiles ++ todo } := by
  induction todo generalizing s with
  | nil => simp [collisionLoop]
  | cons p todo ih =>
    simp only [collisionLoop, h, scanAsteroids]
    rw [ih _ rfl]
    simp

theorem collisionLoop_hit (p : Projectile) (todo : List Projectile) (raw : Nat → Nat)
    (s : State) (a : Asteroid) (rest : List Asteroid)
    (h : scanAsteroids p s.asteroids = some (a, rest)) :
    collisionLoop (p :: todo) raw s =
      collisionLoop todo (resolveHit a raw s).2 { (resolveHit a raw s).1 with asteroids := rest } := by
  simp only [collisionLoop, h]

theorem kill_step5 (k : Nat) :
    projectileAsteroidCollisions killInput { killState 9 (5 / 11) k with
        gameTime := 5 / 9 * k + 5 / 9
        projectiles := List.replicate 10 topLaser
        asteroids := [topAsteroid] } =
      { killState 9 (5 / 11) k with
        gameTime := 5 / 9 * k + 5 / 9
        score := 15 * k + 15
        asteroidsDestroyed := k + 1
        explosions := [Explosion.new ⟨800, -16⟩ 32 (1 / 2) Color.YELLOW] } := by
  show collisionLoop (topLaser :: List.replicate 9 topLaser) killInput.hitRaw _ = _
  rw [collisionLoop_hit _ _ _ _ topAsteroid [] kill_scan, kill_resolve,
    collisionLoop_no_asteroids _ _ _ rfl]
  simp [killState]

theorem kill_step6 (n : Nat) (iv : ℚ) (k : Nat) (hiv : iv ≤ 5 / 9) :
    simulate killInput { killState n iv k with
        spawnTimer := 5 / 9, gameTime := 5 / 9 * k + 5 / 9
        projectiles := List.replicate n topLaser ++ List.replicate 10 freshLaser } =
      killState 9 (5 / 11) (k + 1) := by
  have hdt : killInput.dt = 5 / 9 := rfl
  unfold simulate
  rw [kill_step3 n iv k hiv, kill_step4, kill_step5]
  norm_num [asteroidShipCollisions, shipLoop, updateExplosions, updatePowerups, powerupCollection,
    collectLoop, killState, hdt, Explosion.Update, Explosion.new, PlayerShip.new, Ship.new]
  exact ⟨by ring, by ring⟩

/-- A frame of `killInput` destroys one more asteroid. -/
theorem beforeLevel_kill (n : Nat) (iv : ℚ) (k : Nat) (hiv : iv ≤ 5 / 9) :
    beforeLevel 10 killInput (killState n iv k) = some (killState 9 (5 / 11) (k + 1)) := by
  unfold beforeLevel
  rw [kill_step1, kill_step2, Option.map_some', kill_step6 n iv k hiv]

theorem frame_kill (n : Nat) (iv : ℚ) (k : Nat) (hiv : iv ≤ 5 / 9) (hk : k + 1 < 10) :
    frame 10 killInput (killState n iv k) = some (killState 9 (5 / 11) (k + 1)) := by
  unfold frame
  rw [beforeLevel_kill n iv k hiv, Option.map_some']
  have h : ¬ ((10 : Int) ≤ ((k + 1 : Nat) : Int)) := by omega
  simp only [levelProgression, killState, ge_iff_le, h, if_false]

/-- Nine asteroids destroyed at level 1 is a reachable session state. -/
theorem reachable_killState (k : Nat) (hk : k + 1 < 10) :
    Reachable (killState 9 (5 / 11) (k + 1)) := by
  induction k with
  | zero =>
    have h := frame_kill 0 (1 / 2) 0 (by norm_num) (by norm_num)
    rw [← initState_eq_killState] at h
    exact Reachable.step 10 killInput (Reachable.init 400 0) h
  | succ k ih =>
    exact Reachable.step 10 killInput (ih (by omega))
      (frame_kill 9 (5 / 11) (k + 1) (by norm_num) hk)

theorem restart_ignored_while_alive_witness :
    (initState 256 0).player.alive = true ∧
      frame 8 { idleInput with keyR := true } (initState 256 0) =
        frame 8 { idleInput with keyR := false } (initState 256 0) ∧
      frame 8 { idleInput with keyR := true } (initState 256 0) = some idleFrameState :=
  ⟨rfl, restart_ignored_while_alive 8 idleInput (initState 256 0) rfl,
    (restart_ignored_while_alive 8 idleInput (initState 256 0) rfl).trans frame_idle⟩

theorem level_ratchet_witness :
    frame 8 idleInput (initState 256 0) = some idleFrameState ∧
      ¬ processesRestart idleInput (initState 256 0) ∧
      (idleFrameState.level = (initState 256 0).level ∨
        idleFrameState.level = (initState 256 0).level + 1) :=
  ⟨frame_idle, fun h => Bool.noConfusion h.2,
    (level_ratchet 8 idleInput (initState 256 0) idleFrameState frame_idle
      (fun h => Bool.noConfusion h.2)).1⟩

/-- In every reachable state the level is at least 1 and the threshold is at most
`10 + 5 × level`. -/
theorem reachable_threshold (s : State) (h : Reachable s) :
    1 ≤ s.level ∧ s.asteroidsToNextLevel ≤ 10 + 5 * s.level := by
  induction h with
  | init texW u => exact ⟨by simp [initState], by simp [initState]⟩
  | @step s s1 fuel inp _ hstep ih =>
    simp only [frame, Option.map_eq_some'] at hstep
    obtain ⟨m, hm, rfl⟩ := hstep
    have hmid : 1 ≤ m.level ∧ m.asteroidsToNextLevel ≤ 10 + 5 * m.level := by
      rcases beforeLevel_level fuel inp s m hm with ⟨h1, h2⟩ | ⟨-, h1, h2⟩
      · rw [h1, h2]
        exact ih
      · rw [h1, h2]
        exact ⟨le_refl _, by norm_num⟩
    simp only [levelProgression]
    split_ifs
    · exact ⟨by show 1 ≤ m.level + 1; omega, by show 10 + (m.level + 1) * 5 ≤ 10 + 5 * (m.level + 1); omega⟩
    · exact hmid

/-- C8: in a frame that starts in a reachable state and reaches the level progression
block with `asteroidsDestroyed ≥ asteroidsToNextLevel`, the block increments the level by
one, resets `asteroidsDestroyed` to 0 and sets `asteroidsToNextLevel` to
`10 + 5 × (new level)`, which is strictly greater than the threshold before. -/
theorem level_up_spec (s : State) (hr : Reachable s) (fuel : Nat) (inp : Input) (m : State)
    (hm : beforeLevel fuel inp s = some m)
    (hup : m.asteroidsToNextLevel ≤ m.asteroidsDestroyed) :
    frame fuel inp s = some (levelProgression m) ∧
      (levelProgression m).level = m.level + 1 ∧
      (levelProgression m).asteroidsDestroyed = 0 ∧
      (levelProgression m).asteroidsToNextLevel = 10 + 5 * (levelProgression m).level ∧
      m.asteroidsToNextLevel < (levelProgression m).asteroidsToNextLevel := by
  have hinv : m.asteroidsToNextLevel ≤ 10 + 5 * m.level := by
    rcases beforeLevel_level fuel inp s m hm with ⟨h1, h2⟩ | ⟨-, h1, h2⟩
    · rw [h1, h2]
      exact (reachable_threshold s hr).2
    · rw [h1, h2]
      norm_num
  have hlp : levelProgression m =
      { m with
        level := m.level + 1
        asteroidsDestroyed := 0
        asteroidsToNextLevel := 10 + (m.level + 1) * 5
        explosions := m.explosions ++
          [Explosion.new ⟨(screenW : ℚ) / 2, (screenH : ℚ) / 2⟩ ((screenW : ℚ) * (8 / 10)) 1
            Color.GREEN] } := by
    simp only [levelProgression, ge_iff_le, hup, if_true]
  refine ⟨by simp only [frame, hm, Option.map_some'], ?_, ?_, ?_, ?_⟩
  · rw [hlp]
  · rw [hlp]
  · rw [hlp]
    show 10 + (m.level + 1) * 5 = 10 + 5 * (m.level + 1)
    omega
  · rw [hlp]
    show m.asteroidsToNextLevel < 10 + (m.level + 1) * 5
    omega

theorem level_up_spec_witness :
    Reachable (killState 9 (5 / 11) 9) ∧
      beforeLevel 10 killInput (killState 9 (5 / 11) 9) = some (killState 9 (5 / 11) 10) ∧
      (killState 9 (5 / 11) 10).asteroidsToNextLevel ≤
        (killState 9 (5 / 11) 10).asteroidsDestroyed ∧
      (levelProgression (killState 9 (5 / 11) 10)).level = (killState 9 (5 / 11) 10).level + 1 ∧
      (killState 9 (5 / 11) 10).asteroidsToNextLevel <
        (levelProgression (killState 9 (5 / 11) 10)).asteroidsToNextLevel :=
  ⟨reachable_killState 8 (by decide),
    beforeLevel_kill 9 (5 / 11) 9 (by norm_num),
    by decide,
    (level_up_spec (killState 9 (5 / 11) 9) (reachable_killState 8 (by decide)) 10 killInput
      (killState 9 (5 / 11) 10) (beforeLevel_kill 9 (5 / 11) 9 (by norm_num)) (by decide)).2.1,
    (level_up_spec (killState 9 (5 / 11) 9) (reachable_killState 8 (by decide)) 10 killInput
      (killState 9 (5 / 11) 10) (beforeLevel_kill 9 (5 / 11) 9 (by norm_num))
      (by decide)).2.2.2.2⟩

/-! ## The projectile-asteroid pass -/

theorem scanAsteroids_some (p : Projectile) (l : List Asteroid) (a : Asteroid)
    (rest : List Asteroid) (h : scanAsteroids p l = some (a, rest)) :
    hits p a = true ∧ l.Perm (a :: rest) ∧ rest.Sublist l := by
  induction l generalizing rest with
  | nil => simp [scanAsteroids] at h
  | cons b l ih =>
    simp only [scanAsteroids] at h
    split_ifs at h with hb
    · simp only [Option.some.injEq, Prod.mk.injEq] at h
      obtain ⟨rfl, rfl⟩ := h
      exact ⟨hb, List.Perm.refl _, List.sublist_cons_self _ _⟩
    · simp only [Option.map_eq_some'] at h
      obtain ⟨⟨a1, r1⟩, h1, h2⟩ := h
      simp only [Prod.mk.injEq] at h2
      obtain ⟨rfl, rfl⟩ := h2
      obtain ⟨ha, hp, hs⟩ := ih r1 h1
      exact ⟨ha, (List.Perm.cons b hp).trans (List.Perm.swap a1 b r1), hs.cons₂ b⟩

theorem resolveHit_fields (a : Asteroid) (raw : Nat → Nat) (s : State) :
    (resolveHit a raw s).1.score = s.score + a.GetPoints ∧
      (resolveHit a raw s).1.asteroidsDestroyed = s.asteroidsDestroyed + 1 ∧
      (resolveHit a raw s).1.explosions.length = s.explosions.length + 1 ∧
      (resolveHit a raw s).1.projectiles = s.projectiles ∧
      (resolveHit a raw s).1.asteroids = s.asteroids := by
  simp only [resolveHit]
  split_ifs <;> simp

/-- The collision events of the outer loop: the matched pairs, each projectile paired
with the asteroid it removed, account for everything the loop removes and counts. -/
theorem collisionLoop_events (todo : List Projectile) (raw : Nat → Nat) (s : State) :
    ∃ (events : List (Projectile × Asteroid)) (kept : List Projectile),
      (collisionLoop todo raw s).projectiles = s.projectiles ++ kept ∧
      todo.Perm (events.map Prod.fst ++ kept) ∧
      kept.Sublist todo ∧
      s.asteroids.Perm (events.map Prod.snd ++ (collisionLoop todo raw s).asteroids) ∧
      (collisionLoop todo raw s).asteroids.Sublist s.asteroids ∧
      (collisionLoop todo raw s).score =
        s.score + ((events.map Prod.snd).map Asteroid.GetPoints).sum ∧
      (collisionLoop todo raw s).asteroidsDestroyed = s.asteroidsDestroyed + events.length ∧
      (collisionLoop todo raw s).explosions.length = s.explosions.length + events.length ∧
      ∀ e ∈ events, hits e.1 e.2 = true := by
  induction todo generalizing raw s with
  | nil =>
    exact ⟨[], [], by simp [collisionLoop], by simp, List.Sublist.refl _, by simp [collisionLoop],
      List.Sublist.refl _, by simp [collisionLoop], by simp [collisionLoop],
      by simp [collisionLoop], by simp⟩
  | cons p todo ih =>
    cases hscan : scanAsteroids p s.asteroids with
    | none =>
      have hloop : collisionLoop (p :: todo) raw s =
          collisionLoop todo raw { s with projectiles := s.projectiles ++ [p] } := by
        simp only [collisionLoop, hscan]
      obtain ⟨events, kept, h1, h2, h3, h4, h5, h6, h7, h8, h9⟩ :=
        ih raw { s with projectiles := s.projectiles ++ [p] }
      rw [hloop]
      refine ⟨events, p :: kept, ?_, ?_, h3.cons₂ p, h4, h5, h6, h7, h8, h9⟩
      · rw [h1]
        simp
      · exact (List.Perm.cons p h2).trans List.perm_middle.symm
    | some r =>
      obtain ⟨a, rest⟩ := r
      have hloop := collisionLoop_hit p todo raw s a rest hscan
      obtain ⟨ha, hperm, hsub⟩ := scanAsteroids_some p s.asteroids a rest hscan
      obtain ⟨f1, f2, f3, f4, -⟩ := resolveHit_fields a raw s
      obtain ⟨events, kept, h1, h2, h3, h4, h5, h6, h7, h8, h9⟩ :=
        ih (resolveHit a raw s).2 { (resolveHit a raw s).1 with asteroids := rest }
      rw [hloop]
      refine ⟨(p, a) :: events, kept, ?_, ?_, h3.cons p, ?_, h5.trans hsub, ?_, ?_, ?_, ?_⟩
      · rw [h1]
        show (resolveHit a raw s).1.projectiles ++ kept = _
        rw [f4]
      · exact List.Perm.cons p h2
      · exact hperm.trans (List.Perm.cons a h4)
      · rw [h6]
        show (resolveHit a raw s).1.score + _ = _
        rw [f1]
        simp only [List.map_cons, List.sum_cons]
        ring
      · rw [h7]
        show (resolveHit a raw s).1.asteroidsDestroyed + _ = _
        rw [f2]
        simp only [List.length_cons]
        push_cast
        ring
      · rw [h8]
        show (resolveHit a raw s).1.explosions.length + _ = _
        rw [f3]
        simp only [List.length_cons]
        ring
      · intro e he
        rcases List.mem_cons.mp he with rfl | he
        · exact ha
        · exact h9 e he

/-- C9: resolving a hit on asteroid `a` adds exactly `a.GetPoints` to the score and 1 to
`asteroidsDestroyed`; over the whole pass the score grows by the sum of the points of
the asteroids removed and `asteroidsDestroyed` by their number; and a pass in which the
only projectile overlaps the only asteroid, a small triangle, adds exactly 15 and 1 and
removes both. -/
theorem collision_pass_score (inp : Input) (s : State) :
    (∀ (a : Asteroid) (raw : Nat → Nat) (t : State),
        (resolveHit a raw t).1.score = t.score + a.GetPoints ∧
        (resolveHit a raw t).1.asteroidsDestroyed = t.asteroidsDestroyed + 1) ∧
      (∃ removed : List Asteroid,
        s.asteroids.Perm (removed ++ (projectileAsteroidCollisions inp s).asteroids) ∧
        (projectileAsteroidCollisions inp s).score =
          s.score + (removed.map Asteroid.GetPoints).sum ∧
        (projectileAsteroidCollisions inp s).asteroidsDestroyed =
          s.asteroidsDestroyed + removed.length) ∧
      (∀ (w h : Int) (d : InitDraw) (p : Projectile),
        (TriangleAsteroid w h { d with sizeRaw := 0 }).GetSize = 1 ∧
        (TriangleAsteroid w h { d with sizeRaw := 0 }).GetPoints = 15 ∧
        (hits p (TriangleAsteroid w h { d with sizeRaw := 0 }) = true →
          s.projectiles = [p] →
          s.asteroids = [TriangleAsteroid w h { d with sizeRaw := 0 }] →
          (projectileAsteroidCollisions inp s).score = s.score + 15 ∧
          (projectileAsteroidCollisions inp s).asteroidsDestroyed = s.asteroidsDestroyed + 1 ∧
          (projectileAsteroidCollisions inp s).asteroids = [] ∧
          (projectileAsteroidCollisions inp s).projectiles = [])) := by
  refine ⟨fun a raw t => ⟨(resolveHit_fields a raw t).1, (resolveHit_fields a raw t).2.1⟩, ?_, ?_⟩
  · obtain ⟨events, kept, -, -, -, h4, -, h6, h7, -, -⟩ :=
      collisionLoop_events s.projectiles inp.hitRaw { s with projectiles := [] }
    refine ⟨events.map Prod.snd, h4, h6, ?_⟩
    rw [List.length_map]
    exact h7
  · intro w h d p
    have hsize : (TriangleAsteroid w h { d with sizeRaw := 0 }).GetSize = 1 := by
      simp [TriangleAsteroid, Asteroid.init, Asteroid.GetSize, GetRandomValue, Size.ofShift,
        Size.toInt]
    have hpts : (TriangleAsteroid w h { d with sizeRaw := 0 }).GetPoints = 15 := by
      have h1 : (TriangleAsteroid w h { d with sizeRaw := 0 }).GetPoints =
          15 * (TriangleAsteroid w h { d with sizeRaw := 0 }).GetSize := rfl
      rw [h1, hsize]
      rfl
    refine ⟨hsize, hpts, fun hhit hp ha => ?_⟩
    have hscan : scanAsteroids p ({ s with projectiles := [] } : State).asteroids =
        some (TriangleAsteroid w h { d with sizeRaw := 0 }, []) := by
      show scanAsteroids p s.asteroids = _
      rw [ha]
      simp [scanAsteroids, hhit]
    unfold projectileAsteroidCollisions
    rw [hp, collisionLoop_hit _ _ _ _ _ _ hscan, collisionLoop_no_asteroids _ _ _ rfl]
    obtain ⟨f1, f2, -, f4, -⟩ := resolveHit_fields
      (TriangleAsteroid w h { d with sizeRaw := 0 }) inp.hitRaw { s with projectiles := [] }
    refine ⟨?_, ?_, rfl, ?_⟩
    · show (resolveHit _ _ _).1.score = _
      rw [f1, hpts]
    · show (resolveHit _ _ _).1.asteroidsDestroyed = _
      rw [f2]
    · show (resolveHit _ _ _).1.projectiles ++ [] = _
      rw [f4]
      rfl

theorem hitState_hits :
    hits topLaser (TriangleAsteroid C_WIDTH C_HEIGHT { idleInput.initDraw with sizeRaw := 0 }) =
      true := by
  have hr : topLaser.GetRadius = 3 := rfl
  norm_num [hits, distLt, Vector2DistanceSqr, hr, Projectile.GetPosition, Asteroid.GetPosition,
    Asteroid.GetRadius, TriangleAsteroid, Asteroid.init, idleInput, GetRandomValue, Size.ofShift,
    Size.toInt, RandomFloat, C_WIDTH, C_HEIGHT]
  norm_num [topLaser]

theorem collision_pass_score_witness :
    (projectileAsteroidCollisions idleInput hitState).score = hitState.score + 15 ∧
      (projectileAsteroidCollisions idleInput hitState).asteroidsDestroyed =
        hitState.asteroidsDestroyed + 1 ∧
      (projectileAsteroidCollisions idleInput hitState).asteroids = [] ∧
      (projectileAsteroidCollisions idleInput hitState).projectiles = [] :=
  ((collision_pass_score idleInput hitState).2.2 C_WIDTH C_HEIGHT idleInput.initDraw
    topLaser).2.2 hitState_hits rfl rfl

/-- C10: the pass is a list of collision events, each pairing one projectile with one
asteroid it overlaps, such that the projectiles before the pass are the event projectiles
plus the survivors and the asteroids before the pass are the event asteroids plus the
survivors (so nothing takes part in two events, and a removed asteroid is not there for a
later projectile); the pass removes as many asteroids as projectiles, and that number is
the increase of `asteroidsDestroyed` and the number of explosions added. -/
theorem collision_pass_once (inp : Input) (s : State) :
    ∃ events : List (Projectile × Asteroid),
      s.projectiles.Perm
        (events.map Prod.fst ++ (projectileAsteroidCollisions inp s).projectiles) ∧
      s.asteroids.Perm
        (events.map Prod.snd ++ (projectileAsteroidCollisions inp s).asteroids) ∧
      (projectileAsteroidCollisions inp s).projectiles.Sublist s.projectiles ∧
      (projectileAsteroidCollisions inp s).asteroids.Sublist s.asteroids ∧
      s.projectiles.length =
        (projectileAsteroidCollisions inp s).projectiles.length + events.length ∧
      s.asteroids.length =
        (projectileAsteroidCollisions inp s).asteroids.length + events.length ∧
      (projectileAsteroidCollisions inp s).asteroidsDestroyed =
        s.asteroidsDestroyed + events.length ∧
      (projectileAsteroidCollisions inp s).explosions.length =
        s.explosions.length + events.length ∧
      (∀ e ∈ events, hits e.1 e.2 = true) ∧
      (s.asteroids.Nodup →
        (events.map Prod.snd).Nodup ∧
        ∀ e ∈ events, e.2 ∉ (projectileAsteroidCollisions inp s).asteroids) ∧
      (s.projectiles.Nodup →
        (events.map Prod.fst).Nodup ∧
        ∀ e ∈ events, e.1 ∉ (projectileAsteroidCollisions inp s).projectiles) := by
  obtain ⟨events, kept, h1, h2, h3, h4, h5, h6, h7, h8, h9⟩ :=
    collisionLoop_events s.projectiles inp.hitRaw { s with projectiles := [] }
  have hk : (projectileAsteroidCollisions inp s).projectiles = kept := by
    unfold projectileAsteroidCollisions
    rw [h1]
    rfl
  have ha : (projectileAsteroidCollisions inp s).asteroids =
      (collisionLoop s.projectiles inp.hitRaw { s with projectiles := [] }).asteroids := rfl
  have h4 : s.asteroids.Perm
      (events.map Prod.snd ++ (projectileAsteroidCollisions inp s).asteroids) := h4
  refine ⟨events, ?_, h4, ?_, h5, ?_, ?_, h7, h8, h9, ?_, ?_⟩
  · rw [hk]
    exact h2
  · rw [hk]
    exact h3
  · rw [hk, h2.length_eq]
    simp [Nat.add_comm]
  · rw [h4.length_eq]
    simp [Nat.add_comm]
  · intro hnd
    have hnd2 := (h4.nodup_iff).mp hnd
    rw [List.nodup_append] at hnd2
    refine ⟨hnd2.1, fun e he hmem => ?_⟩
    exact hnd2.2.2 (List.mem_map_of_mem Prod.snd he) hmem
  · intro hnd
    rw [hk]
    have hnd2 := (h2.nodup_iff).mp hnd
    rw [List.nodup_append] at hnd2
    refine ⟨hnd2.1, fun e he hmem => ?_⟩
    exact hnd2.2.2 (List.mem_map_of_mem Prod.fst he) hmem

/-! ## The ship-asteroid pass and the progression counters -/

theorem shipLoop_score (dt : ℚ) (todo : List Asteroid) (s : State) :
    (shipLoop dt todo s).score = s.score ∧
      (shipLoop dt todo s).asteroidsDestroyed = s.asteroidsDestroyed := by
  induction todo generalizing s with
  | nil => exact ⟨rfl, rfl⟩
  | cons a todo ih =>
    simp only [shipLoop]
    split_ifs <;> rw [(ih _).1, (ih _).2] <;> exact ⟨rfl, rfl⟩

/-- C16: the ship-asteroid pass (ship collisions and off-screen expiry of asteroids)
leaves `score` and `asteroidsDestroyed` unchanged, as well as the level and its
threshold, whatever asteroids it removes. -/
theorem ship_pass_no_progress (inp : Input) (s : State) :
    (asteroidShipCollisions inp s).score = s.score ∧
      (asteroidShipCollisions inp s).asteroidsDestroyed = s.asteroidsDestroyed ∧
      (asteroidShipCollisions inp s).level = s.level ∧
      (asteroidShipCollisions inp s).asteroidsToNextLevel = s.asteroidsToNextLevel :=
  ⟨(shipLoop_score inp.dt s.asteroids { s with asteroids := [] }).1,
    (shipLoop_score inp.dt s.asteroids { s with asteroids := [] }).2,
    (shipLoop_level inp.dt s.asteroids { s with asteroids := [] }).1,
    (shipLoop_level inp.dt s.asteroids { s with asteroids := [] }).2⟩

/-! ## Staying on screen -/

theorem clamp_bounds (v lo hi : ℚ) (h : lo ≤ hi) : lo ≤ clamp v lo hi ∧ clamp v lo hi ≤ hi := by
  unfold clamp
  split_ifs with h1 h2
  · exact ⟨le_refl _, h⟩
  · exact ⟨h, le_refl _⟩
  · exact ⟨not_lt.mp h1, not_lt.mp h2⟩

theorem PlayerShip.Update_radius (p : PlayerShip) (dt : ℚ) (keyW keyS keyA keyD : Bool) :
    (p.Update dt keyW keyS keyA keyD).GetRadius = p.GetRadius := by
  simp only [PlayerShip.Update]
  split_ifs <;> rfl

/-- C20: when the radius `r` of the ship satisfies `r ≤ width − r` and `r ≤ height − r`,
then for every time step and every combination of the four direction keys the position
of an alive ship after `PlayerShip::Update` satisfies `r ≤ x ≤ width − r` and
`r ≤ y ≤ height − r`; the radius itself is not changed by the update. -/
theorem ship_stays_on_screen (p : PlayerShip) (dt : ℚ) (keyW keyS keyA keyD : Bool)
    (halive : p.alive = true)
    (hw : p.GetRadius ≤ (screenW : ℚ) - p.GetRadius)
    (hh : p.GetRadius ≤ (screenH : ℚ) - p.GetRadius) :
    (p.Update dt keyW keyS keyA keyD).GetRadius = p.GetRadius ∧
      p.GetRadius ≤ (p.Update dt keyW keyS keyA keyD).GetPosition.x ∧
      (p.Update dt keyW keyS keyA keyD).GetPosition.x ≤ (screenW : ℚ) - p.GetRadius ∧
      p.GetRadius ≤ (p.Update dt keyW keyS keyA keyD).GetPosition.y ∧
      (p.Update dt keyW keyS keyA keyD).GetPosition.y ≤ (screenH : ℚ) - p.GetRadius := by
  refine ⟨PlayerShip.Update_radius p dt keyW keyS keyA keyD, ?_⟩
  simp only [PlayerShip.Update, halive, if_true, Ship.GetPosition]
  exact ⟨(clamp_bounds _ _ _ hw).1, (clamp_bounds _ _ _ hw).2, (clamp_bounds _ _ _ hh).1,
    (clamp_bounds _ _ _ hh).2⟩

theorem playerShip_new_radius : (PlayerShip.new C_WIDTH C_HEIGHT 256).GetRadius = 32 := by
  norm_num [PlayerShip.new, PlayerShip.GetRadius]

theorem ship_stays_on_screen_witness :
    (PlayerShip.new C_WIDTH C_HEIGHT 256).alive = true ∧
      (PlayerShip.new C_WIDTH C_HEIGHT 256).GetRadius ≤
        ((PlayerShip.new C_WIDTH C_HEIGHT 256).Update 10 true false false true).GetPosition.x ∧
      ((PlayerShip.new C_WIDTH C_HEIGHT 256).Update 10 true false false true).GetPosition.x ≤
        (screenW : ℚ) - (PlayerShip.new C_WIDTH C_HEIGHT 256).GetRadius ∧
      (PlayerShip.new C_WIDTH C_HEIGHT 256).GetRadius ≤
        ((PlayerShip.new C_WIDTH C_HEIGHT 256).Update 10 true false false true).GetPosition.y ∧
      ((PlayerShip.new C_WIDTH C_HEIGHT 256).Update 10 true false false true).GetPosition.y ≤
        (screenH : ℚ) - (PlayerShip.new C_WIDTH C_HEIGHT 256).GetRadius :=
  ⟨rfl,
    (ship_stays_on_screen (PlayerShip.new C_WIDTH C_HEIGHT 256) 10 true false false true rfl
      (by rw [playerShip_new_radius]; norm_num [screenW])
      (by rw [playerShip_new_radius]; norm_num [screenH])).2⟩

/-! ## Weapon upgrades -/

theorem foldl_UpgradeWeapon (ws : List WeaponType) (s : Ship) :
    (ws.foldl Ship.UpgradeWeapon s).fireRateLaser =
        s.fireRateLaser * (12 / 10) ^ ws.count WeaponType.LASER ∧
      (ws.foldl Ship.UpgradeWeapon s).spacingLaser =
        s.spacingLaser * (11 / 10) ^ ws.count WeaponType.LASER ∧
      (ws.foldl Ship.UpgradeWeapon s).fireRateBullet =
        s.fireRateBullet * (12 / 10) ^ (ws.length - ws.count WeaponType.LASER) ∧
      (ws.foldl Ship.UpgradeWeapon s).spacingBullet =
        s.spacingBullet * (11 / 10) ^ (ws.length - ws.count WeaponType.LASER) ∧
      (ws.foldl Ship.UpgradeWeapon s).hp = s.hp ∧
      (ws.foldl Ship.UpgradeWeapon s).maxHp = s.maxHp ∧
      (ws.foldl Ship.UpgradeWeapon s).alive = s.alive ∧
      (ws.foldl Ship.UpgradeWeapon s).transform = s.transform := by
  induction ws generalizing s with
  | nil => simp
  | cons w ws ih =>
    have hle := List.count_le_length WeaponType.LASER ws
    obtain ⟨h1, h2, h3, h4, h5, h6, h7, h8⟩ := ih (s.UpgradeWeapon w)
    rw [List.foldl_cons, h1, h2, h3, h4, h5, h6, h7, h8]
    by_cases hw : w = WeaponType.LASER
    · subst hw
      have e : (ws.length + 1) - (List.count WeaponType.LASER ws + 1) =
          ws.length - List.count WeaponType.LASER ws := by omega
      simp only [Ship.UpgradeWeapon, if_true, List.count_cons_self, List.length_cons, e]
      refine ⟨?_, ?_, ?_, ?_, ?_, ?_, ?_, ?_⟩ <;> first | trivial | rfl | ring
    · have e : (ws.length + 1) - List.count WeaponType.LASER ws =
          (ws.length - List.count WeaponType.LASER ws) + 1 := by omega
      simp only [Ship.UpgradeWeapon, if_neg hw, List.count_cons_of_ne (Ne.symm hw),
        List.length_cons, e]
      refine ⟨?_, ?_, ?_, ?_, ?_, ?_, ?_, ?_⟩ <;> first | trivial | rfl | ring

/-- C19: `UpgradeWeapon (w)` multiplies the fire rate of weapon `w` by 1.2 and its spacing
by 1.1 and leaves the fire rate and spacing of the other weapon, hp, maxHp, the alive flag
and the transform unchanged. After any sequence `ws` of upgrades, in whatever order the
weapons were selected, the laser has fire rate × 1.2^n and spacing × 1.1^n for the number
`n` of laser upgrades in `ws`, and the bullet weapon likewise for the number of the other
upgrades. The powerup pass applies the upgrade to the weapon selected at that time. -/
theorem upgrade_weapon_spec (s : Ship) (w : WeaponType) :
    (s.UpgradeWeapon w).GetFireRate w = s.GetFireRate w * (12 / 10) ∧
      (s.UpgradeWeapon w).GetSpacing w = s.GetSpacing w * (11 / 10) ∧
      (∀ o : WeaponType, (o = WeaponType.LASER ↔ w ≠ WeaponType.LASER) →
        (s.UpgradeWeapon w).GetFireRate o = s.GetFireRate o ∧
        (s.UpgradeWeapon w).GetSpacing o = s.GetSpacing o) ∧
      (s.UpgradeWeapon w).hp = s.hp ∧
      (s.UpgradeWeapon w).maxHp = s.maxHp ∧
      (s.UpgradeWeapon w).alive = s.alive ∧
      (s.UpgradeWeapon w).transform = s.transform ∧
      (∀ ws : List WeaponType,
        (ws.foldl Ship.UpgradeWeapon s).GetFireRate WeaponType.LASER =
          s.GetFireRate WeaponType.LASER * (12 / 10) ^ ws.count WeaponType.LASER ∧
        (ws.foldl Ship.UpgradeWeapon s).GetSpacing WeaponType.LASER =
          s.GetSpacing WeaponType.LASER * (11 / 10) ^ ws.count WeaponType.LASER ∧
        (ws.foldl Ship.UpgradeWeapon s).GetFireRate WeaponType.BULLET =
          s.GetFireRate WeaponType.BULLET * (12 / 10) ^ ws.count WeaponType.BULLET *
            (12 / 10) ^ ws.count WeaponType.COUNT ∧
        (ws.foldl Ship.UpgradeWeapon s).GetSpacing WeaponType.BULLET =
          s.GetSpacing WeaponType.BULLET * (11 / 10) ^ ws.count WeaponType.BULLET *
            (11 / 10) ^ ws.count WeaponType.COUNT) ∧
      (∀ (it : PowerUp) (todo : List PowerUp) (t : State),
        distLt t.player.GetPosition it.position (t.player.GetRadius + it.radius) = true →
        it.type = PowerUpType.WEAPON_UPGRADE →
        collectLoop (it :: todo) t =
          collectLoop todo { t with player := t.player.UpgradeWeapon t.currentWeapon }) := by
  have hone : ∀ ws : List WeaponType,
      ws.length - ws.count WeaponType.LASER =
        ws.count WeaponType.BULLET + ws.count WeaponType.COUNT := by
    intro ws
    induction ws with
    | nil => rfl
    | cons a ws ih =>
      have hle := List.count_le_length WeaponType.LASER ws
      cases a <;> simp [List.count_cons] <;> omega
  refine ⟨?_, ?_, ?_, ?_, ?_, ?_, ?_, ?_, ?_⟩
  · cases w <;> simp [Ship.UpgradeWeapon, Ship.GetFireRate]
  · cases w <;> simp [Ship.UpgradeWeapon, Ship.GetSpacing]
  · intro o ho
    cases w <;> cases o <;> simp at ho <;>
      simp [Ship.UpgradeWeapon, Ship.GetFireRate, Ship.GetSpacing]
  · cases w <;> simp [Ship.UpgradeWeapon]
  · cases w <;> simp [Ship.UpgradeWeapon]
  · cases w <;> simp [Ship.UpgradeWeapon]
  · cases w <;> simp [Ship.UpgradeWeapon]
  · intro ws
    obtain ⟨h1, h2, h3, h4, -⟩ := foldl_UpgradeWeapon ws s
    simp only [Ship.GetFireRate, Ship.GetSpacing, if_true]
    have hb : ¬ (WeaponType.BULLET = WeaponType.LASER) := by decide
    simp only [if_neg hb]
    rw [h1, h2, h3, h4, hone ws, pow_add, pow_add]
    exact ⟨rfl, rfl, by ring, by ring⟩
  · intro it todo t hd ht
    have hne : ¬ (it.type = PowerUpType.HEALTH) := by rw [ht]; decide
    simp only [collectLoop, hd, if_true, if_neg hne]

/-! ## The frame, block by block -/

theorem frame_eq_some (fuel : Nat) (inp : Input) (s s1 : State) :
    frame fuel inp s = some s1 ↔
      ∃ t, beforeSpawn fuel inp s = some t ∧ s1 = levelProgression (simulate inp t) := by
  simp only [frame, beforeLevel, beforeSpawn, Option.map_map, Option.map_eq_some',
    Function.comp_apply]
  constructor
  · rintro ⟨t, ht, rfl⟩
    exact ⟨t, ht, rfl⟩
  · rintro ⟨t, ht, rfl⟩
    exact ⟨t, ht, rfl⟩

/-- The blocks between the restart block and the spawn block write only the shape and
weapon selection, the shot timer and the projectile collection. -/
theorem afterRestart_some (fuel : Nat) (inp : Input) (s t : State)
    (h : afterRestart fuel inp s = some t) :
    t = { s with
      currentShape := t.currentShape
      currentWeapon := t.currentWeapon
      shotTimer := t.shotTimer
      projectiles := t.projectiles } := by
  simp only [afterRestart, shooting] at h
  split_ifs at h
  · simp only [Option.map_eq_some'] at h
    obtain ⟨r, -, rfl⟩ := h
    simp only [weaponSwitch, shapeSwitch]
    split_ifs <;> rfl
  · cases h
    simp only [weaponSwitch, shapeSwitch]
    split_ifs <;> rfl
  · cases h
    simp only [weaponSwitch, shapeSwitch]
    split_ifs <;> rfl

theorem restartLogic_no (inp : Input) (s : State) (h : ¬ processesRestart inp s) :
    restartLogic inp (updatePlayer inp s) = updatePlayer inp s := by
  have ha := updatePlayer_alive inp s
  simp only [restartLogic]
  split_ifs with hc
  · exfalso
    apply h
    simp only [Bool.and_eq_true, Bool.not_eq_true', ha] at hc
    exact hc
  · rfl

theorem restartLogic_yes (inp : Input) (s : State) (h : processesRestart inp s) :
    restartLogic inp (updatePlayer inp s) =
      { updatePlayer inp s with
        player := PlayerShip.new C_WIDTH C_HEIGHT inp.textureWidth
        asteroids := []
        projectiles := []
        explosions := []
        powerups := []
        spawnTimer := 0
        spawnInterval := RandomFloat C_SPAWN_MIN C_SPAWN_MAX inp.restartU
        score := 0
        level := 1
        asteroidsDestroyed := 0
        asteroidsToNextLevel := 10
        gameTime := 0 } := by
  have ha := updatePlayer_alive inp s
  simp only [restartLogic, ha, h.1, h.2]
  rfl

/-- The state on which the spawn block runs: without a restart it has the asteroids,
counters, spawn interval and ship status of the start of the frame and the spawn timer
advanced by `dt`; after a restart it has the values the restart block assigns. -/
theorem beforeSpawn_some (fuel : Nat) (inp : Input) (s t : State)
    (h : beforeSpawn fuel inp s = some t) :
    (¬ processesRestart inp s ∧ t.asteroids = s.asteroids ∧ t.score = s.score ∧
        t.asteroidsDestroyed = s.asteroidsDestroyed ∧ t.level = s.level ∧
        t.asteroidsToNextLevel = s.asteroidsToNextLevel ∧
        t.spawnTimer = s.spawnTimer + inp.dt ∧ t.spawnInterval = s.spawnInterval ∧
        t.player.alive = s.player.alive ∧ t.explosions = s.explosions ∧
        t.powerups = s.powerups) ∨
      (processesRestart inp s ∧ t.asteroids = [] ∧ t.score = 0 ∧
        t.asteroidsDestroyed = 0 ∧ t.level = 1 ∧ t.asteroidsToNextLevel = 10 ∧
        t.spawnTimer = 0 ∧ t.spawnInterval = RandomFloat C_SPAWN_MIN C_SPAWN_MAX inp.restartU ∧
        t.player.alive = true ∧ t.explosions = [] ∧ t.powerups = []) := by
  unfold beforeSpawn at h
  have ht := afterRestart_some fuel inp _ t h
  by_cases hr : processesRestart inp s
  · right
    rw [restartLogic_yes inp s hr] at ht
    rw [ht]
    exact ⟨hr, rfl, rfl, rfl, rfl, rfl, rfl, rfl, rfl, rfl, rfl⟩
  · left
    rw [restartLogic_no inp s hr] at ht
    rw [ht]
    exact ⟨hr, rfl, rfl, rfl, rfl, rfl, rfl, rfl, updatePlayer_alive inp s, rfl, rfl⟩

/-- The ship-asteroid pass writes only the ship, the explosions and the asteroids. -/
theorem shipLoop_eq (dt : ℚ) (todo : List Asteroid) (s : State) :
    shipLoop dt todo s =
      { s with
        player := (shipLoop dt todo s).player
        explosions := (shipLoop dt todo s).explosions
        asteroids := (shipLoop dt todo s).asteroids } := by
  induction todo generalizing s with
  | nil => rfl
  | cons a todo ih =>
    simp only [shipLoop]
    split_ifs
    · exact ih _
    · exact ih _
    · exact ih _

/-- The projectile-asteroid pass leaves the ship, the selections, the timers, the level
and its threshold alone. -/
theorem collisionLoop_eq (todo : List Projectile) (raw : Nat → Nat) (s : State) :
    collisionLoop todo raw s =
      { s with
        asteroids := (collisionLoop todo raw s).asteroids
        projectiles := (collisionLoop todo raw s).projectiles
        explosions := (collisionLoop todo raw s).explosions
        powerups := (collisionLoop todo raw s).powerups
        score := (collisionLoop todo raw s).score
        asteroidsDestroyed := (collisionLoop todo raw s).asteroidsDestroyed } := by
  induction todo generalizing raw s with
  | nil => rfl
  | cons p todo ih =>
    simp only [collisionLoop]
    split
    · refine (ih _ _).trans ?_
      simp only [resolveHit]
      split_ifs <;> rfl
    · exact ih _ _

/-- The powerup collection writes only the ship and the powerups. -/
theorem collectLoop_eq (todo : List PowerUp) (s : State) :
    collectLoop todo s =
      { s with
        player := (collectLoop todo s).player
        powerups := (collectLoop todo s).powerups } := by
  induction todo generalizing s with
  | nil => rfl
  | cons a todo ih =>
    simp only [collectLoop]
    split_ifs
    · exact ih _
    · exact ih _
    · exact ih _

theorem powerupCollection_eq (s : State) :
    powerupCollection s =
      { s with
        player := (powerupCollection s).player
        powerups := (powerupCollection s).powerups } := by
  simp only [powerupCollection]
  split_ifs
  · exact collectLoop_eq _ _
  · rfl

/-- Where the fields of the state after the simulation blocks come from: the asteroids
from the ship-asteroid pass, score and kill counter from the projectile-asteroid pass,
the spawn timer and interval from the spawn block. -/
theorem simulate_fields (inp : Input) (t : State) :
    (simulate inp t).asteroids =
        (asteroidShipCollisions inp (projectileAsteroidCollisions inp (atCollision inp t))).asteroids ∧
      (simulate inp t).score = (projectileAsteroidCollisions inp (atCollision inp t)).score ∧
      (simulate inp t).asteroidsDestroyed =
        (projectileAsteroidCollisions inp (atCollision inp t)).asteroidsDestroyed ∧
      (simulate inp t).spawnTimer = (spawnAsteroids inp t).spawnTimer ∧
      (simulate inp t).spawnInterval = (spawnAsteroids inp t).spawnInterval := by
  have hp : ∀ x : State, (powerupCollection x).asteroids = x.asteroids ∧
      (powerupCollection x).score = x.score ∧
      (powerupCollection x).asteroidsDestroyed = x.asteroidsDestroyed ∧
      (powerupCollection x).spawnTimer = x.spawnTimer ∧
      (powerupCollection x).spawnInterval = x.spawnInterval := fun x =>
    ⟨by rw [powerupCollection_eq], by rw [powerupCollection_eq], by rw [powerupCollection_eq],
      by rw [powerupCollection_eq], by rw [powerupCollection_eq]⟩
  have hs : ∀ x : State, (asteroidShipCollisions inp x).score = x.score ∧
      (asteroidShipCollisions inp x).asteroidsDestroyed = x.asteroidsDestroyed ∧
      (asteroidShipCollisions inp x).spawnTimer = x.spawnTimer ∧
      (asteroidShipCollisions inp x).spawnInterval = x.spawnInterval := fun x =>
    ⟨by unfold asteroidShipCollisions; rw [shipLoop_eq],
      by unfold asteroidShipCollisions; rw [shipLoop_eq],
      by unfold asteroidShipCollisions; rw [shipLoop_eq],
      by unfold asteroidShipCollisions; rw [shipLoop_eq]⟩
  have hc : ∀ x : State, (projectileAsteroidCollisions inp x).spawnTimer = x.spawnTimer ∧
      (projectileAsteroidCollisions inp x).spawnInterval = x.spawnInterval := fun x =>
    ⟨by unfold projectileAsteroidCollisions; rw [collisionLoop_eq],
      by unfold projectileAsteroidCollisions; rw [collisionLoop_eq]⟩
  unfold simulate
  refine ⟨(hp _).1, (hp _).2.1.trans (hs _).1, (hp _).2.2.1.trans (hs _).2.1,
    (hp _).2.2.2.1.trans ((hs _).2.2.1.trans (hc _).1),
    (hp _).2.2.2.2.trans ((hs _).2.2.2.trans (hc _).2)⟩

/-- The spawn block either changes nothing, or, when the spawn timer has reached the
interval and fewer than `MAX_AST` asteroids are alive, appends one new asteroid worth 15,
25, 40 or 60 base points, resets the spawn timer and draws a new interval. -/
theorem spawnAsteroids_cases (inp : Input) (t : State) :
    (¬ (t.spawnTimer ≥ t.spawnInterval ∧ t.asteroids.length < MAX_AST) ∧
        spawnAsteroids inp t = t) ∨
      ((t.spawnTimer ≥ t.spawnInterval ∧ t.asteroids.length < MAX_AST) ∧
        ∃ a : Asteroid,
          (a.pointsValue = 15 ∨ a.pointsValue = 25 ∨ a.pointsValue = 40 ∨ a.pointsValue = 60) ∧
          spawnAsteroids inp t =
            { t with
              asteroids := t.asteroids ++ [a]
              spawnTimer := 0
              spawnInterval :=
                RandomFloat (C_SPAWN_MIN / (1 + (t.level : ℚ) * (1 / 10)))
                  (C_SPAWN_MAX / (1 + (t.level : ℚ) * (1 / 10))) inp.spawnU }) := by
  by_cases hc : t.spawnTimer ≥ t.spawnInterval ∧ t.asteroids.length < MAX_AST
  · right
    refine ⟨hc, (MakeAsteroid C_WIDTH C_HEIGHT t.currentShape inp.shapeRaw inp.initDraw).SetPhysics
      { velocity := Vector2Scale
          (MakeAsteroid C_WIDTH C_HEIGHT t.currentShape inp.shapeRaw inp.initDraw).GetPhysics.velocity
          (1 + (t.level : ℚ) * (1 / 10))
        rotationSpeed :=
          (MakeAsteroid C_WIDTH C_HEIGHT t.currentShape inp.shapeRaw
            inp.initDraw).GetPhysics.rotationSpeed },
      ?_, by simp only [spawnAsteroids, hc, and_self, if_true]⟩
    simp only [Asteroid.SetPhysics, MakeAsteroid]
    split
    · left; rfl
    · right; left; rfl
    · right; right; left; rfl
    · right; right; right; rfl
    · split
      · left; rfl
      · right; left; rfl
      · right; right; left; rfl
      · right; right; right; rfl
  · left
    exact ⟨hc, by simp only [spawnAsteroids, hc, if_false]⟩

/-! ## The asteroid collection through a frame -/

/-- The asteroids kept by the ship-asteroid pass are advanced copies of asteroids it
visited, and there are no more of them than before. -/
theorem shipLoop_asteroids (dt : ℚ) (todo : List Asteroid) (s : State) :
    (shipLoop dt todo s).asteroids.length ≤ s.asteroids.length + todo.length ∧
      ∀ b ∈ (shipLoop dt todo s).asteroids,
        b ∈ s.asteroids ∨ ∃ a ∈ todo, b = (a.Update dt).1 := by
  induction todo generalizing s with
  | nil => exact ⟨le_refl _, fun b hb => Or.inl hb⟩
  | cons a todo ih =>
    simp only [shipLoop]
    split_ifs
    · obtain ⟨h1, h2⟩ := ih { s with
        player := s.player.TakeDamage a.GetDamage
        explosions := s.explosions ++
          [Explosion.new a.GetPosition (a.GetRadius * (3 / 2)) (4 / 10) Color.RED] }
      refine ⟨?_, fun b hb => ?_⟩
      · simp only [List.length_cons] at h1 ⊢
        omega
      rcases h2 b hb with h | ⟨c, hc, rfl⟩
      · exact Or.inl h
      · exact Or.inr ⟨c, List.mem_cons_of_mem _ hc, rfl⟩
    · obtain ⟨h1, h2⟩ := ih s
      refine ⟨?_, fun b hb => ?_⟩
      · simp only [List.length_cons] at h1 ⊢
        omega
      rcases h2 b hb with h | ⟨c, hc, rfl⟩
      · exact Or.inl h
      · exact Or.inr ⟨c, List.mem_cons_of_mem _ hc, rfl⟩
    · obtain ⟨h1, h2⟩ := ih { s with asteroids := s.asteroids ++ [(a.Update dt).1] }
      refine ⟨?_, fun b hb => ?_⟩
      · simp only [List.length_cons, List.length_append, List.length_nil] at h1 ⊢
        omega
      rcases h2 b hb with h | ⟨c, hc, rfl⟩
      · rcases List.mem_append.mp h with h | h
        · exact Or.inl h
        · exact Or.inr ⟨a, List.mem_cons_self _ _, List.mem_singleton.mp h⟩
      · exact Or.inr ⟨c, List.mem_cons_of_mem _ hc, rfl⟩

theorem collisionPass_asteroids (inp : Input) (s : State) :
    (projectileAsteroidCollisions inp s).asteroids.Sublist s.asteroids := by
  obtain ⟨events, kept, -, -, -, -, h5, -⟩ :=
    collisionLoop_events s.projectiles inp.hitRaw { s with projectiles := [] }
  exact h5

/-- After the spawn block the simulation blocks only remove and advance asteroids. -/
theorem simulate_asteroids (inp : Input) (t : State) :
    (simulate inp t).asteroids.length ≤ (spawnAsteroids inp t).asteroids.length ∧
      ∀ b ∈ (simulate inp t).asteroids,
        ∃ a ∈ (spawnAsteroids inp t).asteroids, b = (a.Update inp.dt).1 := by
  rw [(simulate_fields inp t).1]
  have hsub := collisionPass_asteroids inp (atCollision inp t)
  have hat : (atCollision inp t).asteroids = (spawnAsteroids inp t).asteroids := rfl
  rw [hat] at hsub
  obtain ⟨h1, h2⟩ := shipLoop_asteroids inp.dt
    (projectileAsteroidCollisions inp (atCollision inp t)).asteroids
    { projectileAsteroidCollisions inp (atCollision inp t) with asteroids := [] }
  refine ⟨?_, fun b hb => ?_⟩
  · have := hsub.length_le
    simp only [List.length_nil, zero_add] at h1
    exact le_trans h1 this
  · rcases h2 b hb with h | ⟨a, ha, rfl⟩
    · cases h
    · exact ⟨a, hsub.subset ha, rfl⟩

theorem levelProgression_asteroids (s : State) :
    (levelProgression s).asteroids = s.asteroids ∧
      (levelProgression s).score = s.score ∧
      (levelProgression s).spawnTimer = s.spawnTimer ∧
      (levelProgression s).spawnInterval = s.spawnInterval ∧
      (levelProgression s).player = s.player ∧
      (levelProgression s).projectiles = s.projectiles := by
  simp only [levelProgression]
  split_ifs <;> exact ⟨rfl, rfl, rfl, rfl, rfl, rfl⟩

/-- A frame adds at most one asteroid, in its spawn block, and only when there the
spawn timer has reached the interval and fewer than 150 asteroids are alive. -/
theorem frame_asteroids (fuel : Nat) (inp : Input) (s s1 : State)
    (h : frame fuel inp s = some s1) :
    ∃ t, beforeSpawn fuel inp s = some t ∧
      (t.asteroids = s.asteroids ∨ (processesRestart inp s ∧ t.asteroids = [])) ∧
      ((spawnAsteroids inp t).asteroids = t.asteroids ∨
        (t.spawnTimer ≥ t.spawnInterval ∧ t.asteroids.length < 150 ∧
          ∃ a, (spawnAsteroids inp t).asteroids = t.asteroids ++ [a])) ∧
      s1.asteroids.length ≤ (spawnAsteroids inp t).asteroids.length ∧
      s1.asteroids.length ≤ s.asteroids.length + 1 := by
  obtain ⟨t, ht, rfl⟩ := (frame_eq_some fuel inp s s1).mp h
  have h1 : t.asteroids = s.asteroids ∨ (processesRestart inp s ∧ t.asteroids = []) := by
    rcases beforeSpawn_some fuel inp s t ht with hh | hh
    · exact Or.inl hh.2.1
    · exact Or.inr ⟨hh.1, hh.2.1⟩
  have h2 : (spawnAsteroids inp t).asteroids = t.asteroids ∨
      (t.spawnTimer ≥ t.spawnInterval ∧ t.asteroids.length < 150 ∧
        ∃ a, (spawnAsteroids inp t).asteroids = t.asteroids ++ [a]) := by
    rcases spawnAsteroids_cases inp t with ⟨-, he⟩ | ⟨hc, a, -, he⟩
    · left
      rw [he]
    · right
      refine ⟨hc.1, hc.2, a, ?_⟩
      rw [he]
  have h3 : (levelProgression (simulate inp t)).asteroids.length ≤
      (spawnAsteroids inp t).asteroids.length := by
    rw [(levelProgression_asteroids _).1]
    exact (simulate_asteroids inp t).1
  refine ⟨t, ht, h1, h2, h3, ?_⟩
  have hl : t.asteroids.length ≤ s.asteroids.length := by
    rcases h1 with h1 | ⟨-, h1⟩ <;> rw [h1]
    exact Nat.zero_le _
  rcases h2 with h2 | ⟨-, -, a, h2⟩
  · rw [h2] at h3
    omega
  · rw [h2, List.length_append, List.length_singleton] at h3
    omega

/-- C12: in every state reachable from the initial, empty session state the asteroid
collection holds at most 150 asteroids; and a frame from such a state adds at most one
asteroid, namely in its spawn block, and only when the spawn timer has there reached the
spawn interval and fewer than 150 asteroids are alive; every other block leaves the
number of asteroids as it is or lowers it. -/
theorem asteroid_cap (s : State) (hr : Reachable s) :
    s.asteroids.length ≤ 150 ∧
      ∀ (fuel : Nat) (inp : Input) (s1 : State), frame fuel inp s = some s1 →
        s1.asteroids.length ≤ 150 ∧
        s1.asteroids.length ≤ s.asteroids.length + 1 ∧
        ∃ t, beforeSpawn fuel inp s = some t ∧
          (t.asteroids = s.asteroids ∨ (processesRestart inp s ∧ t.asteroids = [])) ∧
          ((spawnAsteroids inp t).asteroids = t.asteroids ∨
            (t.spawnTimer ≥ t.spawnInterval ∧ t.asteroids.length < 150 ∧
              ∃ a, (spawnAsteroids inp t).asteroids = t.asteroids ++ [a])) ∧
          s1.asteroids.length ≤ (spawnAsteroids inp t).asteroids.length := by
  have hstep : ∀ (s : State), s.asteroids.length ≤ 150 → ∀ (fuel : Nat) (inp : Input)
      (s1 : State), frame fuel inp s = some s1 → s1.asteroids.length ≤ 150 := by
    intro s hs fuel inp s1 h
    obtain ⟨t, -, h1, h2, h3, -⟩ := frame_asteroids fuel inp s s1 h
    have hl : t.asteroids.length ≤ 150 := by
      rcases h1 with h1 | ⟨-, h1⟩ <;> rw [h1]
      · exact hs
      · exact Nat.zero_le _
    rcases h2 with h2 | ⟨-, hlt, a, h2⟩
    · rw [h2] at h3
      omega
    · rw [h2, List.length_append, List.length_singleton] at h3
      omega
  have hinv : s.asteroids.length ≤ 150 := by
    induction hr with
    | init texW u => exact Nat.zero_le _
    | @step s s1 fuel inp _ hf ih => exact hstep s ih fuel inp s1 hf
  refine ⟨hinv, fun fuel inp s1 h => ?_⟩
  obtain ⟨t, ht, h1, h2, h3, h4⟩ := frame_asteroids fuel inp s s1 h
  exact ⟨hstep s hinv fuel inp s1 h, h4, t, ht, h1, h2, h3⟩

theorem asteroid_cap_witness :
    Reachable (killState 9 (5 / 11) 1) ∧
      (killState 9 (5 / 11) 1).asteroids.length ≤ 150 ∧
      frame 10 killInput (killState 9 (5 / 11) 1) = some (killState 9 (5 / 11) 2) ∧
      (killState 9 (5 / 11) 2).asteroids.length ≤ (killState 9 (5 / 11) 1).asteroids.length + 1 :=
  ⟨reachable_killState 0 (by decide),
    (asteroid_cap _ (reachable_killState 0 (by decide))).1,
    frame_kill 9 (5 / 11) 1 (by norm_num) (by decide),
    ((asteroid_cap _ (reachable_killState 0 (by decide))).2 10 killInput _
      (frame_kill 9 (5 / 11) 1 (by norm_num) (by decide))).2.1⟩

/-! ## Score -/

theorem Size.toInt_pos (z : Size) : 0 < z.toInt := by
  cases z <;> simp [Size.toInt]

theorem Asteroid.GetPoints_nonneg (a : Asteroid) (h : 0 ≤ a.pointsValue) : 0 ≤ a.GetPoints :=
  Int.mul_nonneg h (le_of_lt (Size.toInt_pos _))

theorem Asteroid.Update_pointsValue (a : Asteroid) (dt : ℚ) :
    (a.Update dt).1.pointsValue = a.pointsValue := by
  rw [Asteroid.Update_fst]

/-- When every asteroid has a non-negative points value, the simulation blocks do not
lower the score, and every asteroid left has a non-negative points value. -/
theorem simulate_score (inp : Input) (t : State) (h : ∀ a ∈ t.asteroids, 0 ≤ a.pointsValue) :
    t.score ≤ (simulate inp t).score ∧ ∀ a ∈ (simulate inp t).asteroids, 0 ≤ a.pointsValue := by
  have hA : ∀ a ∈ (spawnAsteroids inp t).asteroids, 0 ≤ a.pointsValue := by
    rcases spawnAsteroids_cases inp t with ⟨-, he⟩ | ⟨-, b, hb, he⟩
    · rw [he]
      exact h
    · rw [he]
      intro a ha
      rcases List.mem_append.mp ha with ha | ha
      · exact h a ha
      · rw [List.mem_singleton.mp ha]
        rcases hb with hb | hb | hb | hb <;> rw [hb] <;> norm_num
  have hAs : (spawnAsteroids inp t).score = t.score := by
    rcases spawnAsteroids_cases inp t with ⟨-, he⟩ | ⟨-, b, -, he⟩ <;> rw [he]
  refine ⟨?_, fun b hb => ?_⟩
  · rw [(simulate_fields inp t).2.1]
    obtain ⟨events, kept, -, -, -, h4, -, h6, -⟩ :=
      collisionLoop_events (atCollision inp t).projectiles inp.hitRaw
        { atCollision inp t with projectiles := [] }
    have h6 : (projectileAsteroidCollisions inp (atCollision inp t)).score =
        (spawnAsteroids inp t).score +
          ((events.map Prod.snd).map Asteroid.GetPoints).sum := h6
    have h4 : (spawnAsteroids inp t).asteroids.Perm
        (events.map Prod.snd ++ (projectileAsteroidCollisions inp (atCollision inp t)).asteroids) :=
      h4
    rw [h6, hAs]
    have hnn : 0 ≤ ((events.map Prod.snd).map Asteroid.GetPoints).sum := by
      apply List.sum_nonneg
      intro x hx
      obtain ⟨a, ha, rfl⟩ := List.mem_map.mp hx
      exact Asteroid.GetPoints_nonneg a
        (hA a (h4.symm.subset (List.mem_append_left _ ha)))
    omega
  · obtain ⟨a, ha, rfl⟩ := (simulate_asteroids inp t).2 b hb
    rw [Asteroid.Update_pointsValue]
    exact hA a ha

/-- C17: in every reachable state the score is non-negative, and a frame from a reachable
state that does not process a restart ends with a score greater than or equal to the
score it started with. -/
theorem score_monotone (s : State) (hr : Reachable s) :
    0 ≤ s.score ∧
      ∀ (fuel : Nat) (inp : Input) (s1 : State), frame fuel inp s = some s1 →
        ¬ processesRestart inp s → s.score ≤ s1.score := by
  have hstep : ∀ (s : State), (∀ a ∈ s.asteroids, 0 ≤ a.pointsValue) →
      ∀ (fuel : Nat) (inp : Input) (s1 : State), frame fuel inp s = some s1 →
        (∀ a ∈ s1.asteroids, 0 ≤ a.pointsValue) ∧
        (¬ processesRestart inp s → s.score ≤ s1.score) ∧
        (processesRestart inp s → 0 ≤ s1.score) := by
    intro s hs fuel inp s1 h
    obtain ⟨t, ht, rfl⟩ := (frame_eq_some fuel inp s s1).mp h
    have hta : ∀ a ∈ t.asteroids, 0 ≤ a.pointsValue := by
      rcases beforeSpawn_some fuel inp s t ht with hh | hh
      · rw [hh.2.1]
        exact hs
      · rw [hh.2.1]
        intro a ha
        cases ha
    obtain ⟨h1, h2⟩ := simulate_score inp t hta
    rw [(levelProgression_asteroids _).1, (levelProgression_asteroids _).2.1]
    refine ⟨h2, fun hno => ?_, fun hyes => ?_⟩
    · rcases beforeSpawn_some fuel inp s t ht with hh | hh
      · rw [← hh.2.2.1]
        exact h1
      · exact absurd hh.1 hno
    · rcases beforeSpawn_some fuel inp s t ht with hh | hh
      · exact absurd hyes hh.1
      · rw [← hh.2.2.1]
        exact h1
  have hinv : 0 ≤ s.score ∧ ∀ a ∈ s.asteroids, 0 ≤ a.pointsValue := by
    induction hr with
    | init texW u =>
      refine ⟨le_refl _, fun a ha => ?_⟩
      cases ha
    | @step s s1 fuel inp _ hf ih =>
      obtain ⟨h1, h2, h3⟩ := hstep s ih.2 fuel inp s1 hf
      refine ⟨?_, h1⟩
      by_cases hrs : processesRestart inp s
      · exact h3 hrs
      · exact le_trans ih.1 (h2 hrs)
  exact ⟨hinv.1, fun fuel inp s1 h hno => (hstep s hinv.2 fuel inp s1 h).2.1 hno⟩

theorem score_monotone_witness :
    Reachable (killState 9 (5 / 11) 1) ∧
      0 ≤ (killState 9 (5 / 11) 1).score ∧
      frame 10 killInput (killState 9 (5 / 11) 1) = some (killState 9 (5 / 11) 2) ∧
      ¬ processesRestart killInput (killState 9 (5 / 11) 1) ∧
      (killState 9 (5 / 11) 1).score ≤ (killState 9 (5 / 11) 2).score :=
  ⟨reachable_killState 0 (by decide),
    (score_monotone _ (reachable_killState 0 (by decide))).1,
    frame_kill 9 (5 / 11) 1 (by norm_num) (by decide),
    fun h => Bool.noConfusion h.1,
    (score_monotone _ (reachable_killState 0 (by decide))).2 10 killInput _
      (frame_kill 9 (5 / 11) 1 (by norm_num) (by decide)) (fun h => Bool.noConfusion h.1)⟩

/-! ## Off-screen expiry of asteroids -/

theorem Asteroid.Update_snd (a : Asteroid) (dt : ℚ) :
    (a.Update dt).2 = true ↔ (a.Update dt).1.onScreen := by
  simp only [Asteroid.Update, Asteroid.onScreen]
  split_ifs with h
  · simp only [Bool.false_eq_true, false_iff, not_not]
    exact h
  · simp only [true_iff]
    exact h

/-- A point moving at constant velocity from inside an interval is inside at every time
before a time at which it is inside. -/
theorem segment_inside (x0 v lo hi T T1 : ℚ) (h0 : 0 ≤ T) (h1 : T ≤ T1)
    (hx0 : lo ≤ x0 ∧ x0 ≤ hi) (hx1 : lo ≤ x0 + v * T1 ∧ x0 + v * T1 ≤ hi) :
    lo ≤ x0 + v * T ∧ x0 + v * T ≤ hi := by
  rcases le_total 0 v with hv | hv
  · have ha : 0 ≤ v * T := mul_nonneg hv h0
    have hb : v * T ≤ v * T1 := mul_le_mul_of_nonneg_left h1 hv
    exact ⟨by linarith [hx0.1], by linarith [hx1.2]⟩
  · have ha : v * T ≤ 0 := mul_nonpos_of_nonpos_of_nonneg hv h0
    have hb : v * T1 ≤ v * T := mul_le_mul_of_nonpos_left h1 hv
    exact ⟨by linarith [hx1.1], by linarith [hx0.2]⟩

/-- An asteroid that started within the expanded screen rectangle and is outside of it
after time `T` on its straight path is outside at every later time. -/
theorem Asteroid.off_stays_off (a : Asteroid) (p0 : Vector2) (T : ℚ) (dt : ℚ)
    (hT : 0 ≤ T) (hdt : 0 ≤ dt)
    (hp0 : -a.GetRadius ≤ p0.x ∧ p0.x ≤ (screenW : ℚ) + a.GetRadius ∧
      -a.GetRadius ≤ p0.y ∧ p0.y ≤ (screenH : ℚ) + a.GetRadius)
    (hpos : a.transform.position = Vector2Add p0 (Vector2Scale a.physics.velocity T))
    (hoff : ¬ a.onScreen) : ¬ (a.Update dt).1.onScreen := by
  intro hon
  apply hoff
  rw [Asteroid.Update_fst] at hon
  simp only [Asteroid.onScreen, Asteroid.GetRadius, not_or, not_lt, gt_iff_lt, hpos, Vector2Add,
    Vector2Scale] at hon ⊢
  simp only [Asteroid.GetRadius] at hp0
  obtain ⟨h1, h2, h3, h4⟩ := hon
  have hx := segment_inside p0.x a.physics.velocity.x _ _ T (T + dt) hT (by linarith)
    ⟨hp0.1, hp0.2.1⟩ ⟨by linarith, by linarith⟩
  have hy := segment_inside p0.y a.physics.velocity.y _ _ T (T + dt) hT (by linarith)
    ⟨hp0.2.2.1, hp0.2.2.2⟩ ⟨by linarith, by linarith⟩
  exact ⟨hx.1, hx.2, hy.1, hy.2⟩

theorem Asteroid.Update_ray (a : Asteroid) (p0 : Vector2) (T dt : ℚ)
    (hpos : a.transform.position = Vector2Add p0 (Vector2Scale a.physics.velocity T)) :
    (a.Update dt).1.GetRadius = a.GetRadius ∧
      (a.Update dt).1.physics = a.physics ∧
      (a.Update dt).1.transform.position =
        Vector2Add p0 (Vector2Scale (a.Update dt).1.physics.velocity (T + dt)) := by
  rw [Asteroid.Update_fst]
  refine ⟨rfl, rfl, ?_⟩
  simp only [hpos, Vector2Add, Vector2Scale, Vector2.mk.injEq]
  constructor <;> ring

/-- Once an asteroid on a straight path from within the expanded screen rectangle is
outside of it, every further `Update` returns `false`. -/
theorem Asteroid.updateFlags_off (dts : List ℚ) (a : Asteroid) (p0 : Vector2) (T : ℚ)
    (hT : 0 ≤ T) (hd : ∀ d ∈ dts, 0 ≤ d)
    (hp0 : -a.GetRadius ≤ p0.x ∧ p0.x ≤ (screenW : ℚ) + a.GetRadius ∧
      -a.GetRadius ≤ p0.y ∧ p0.y ≤ (screenH : ℚ) + a.GetRadius)
    (hpos : a.transform.position = Vector2Add p0 (Vector2Scale a.physics.velocity T))
    (hoff : ¬ a.onScreen) : ∀ c ∈ a.updateFlags dts, c = false := by
  induction dts generalizing a T with
  | nil =>
    intro c hc
    cases hc
  | cons dt dts ih =>
    have hdt : 0 ≤ dt := hd dt (List.mem_cons_self _ _)
    have hoff1 := Asteroid.off_stays_off a p0 T dt hT hdt hp0 hpos hoff
    obtain ⟨hr, -, hray⟩ := Asteroid.Update_ray a p0 T dt hpos
    intro c hc
    simp only [Asteroid.updateFlags, List.mem_cons] at hc
    rcases hc with rfl | hc
    · cases hf : (a.Update dt).2
      · rfl
      · exact absurd ((Asteroid.Update_snd a dt).mp hf) hoff1
    · exact ih (a.Update dt).1 (T + dt) (by linarith)
        (fun d hdm => hd d (List.mem_cons_of_mem _ hdm)) (by rw [hr]; exact hp0) hray hoff1 c hc

theorem Asteroid.updateFlags_pairwise (dts : List ℚ) (a : Asteroid) (p0 : Vector2) (T : ℚ)
    (hT : 0 ≤ T) (hd : ∀ d ∈ dts, 0 ≤ d)
    (hp0 : -a.GetRadius ≤ p0.x ∧ p0.x ≤ (screenW : ℚ) + a.GetRadius ∧
      -a.GetRadius ≤ p0.y ∧ p0.y ≤ (screenH : ℚ) + a.GetRadius)
    (hpos : a.transform.position = Vector2Add p0 (Vector2Scale a.physics.velocity T)) :
    (a.updateFlags dts).Pairwise (fun b c => b = false → c = false) := by
  induction dts generalizing a T with
  | nil => exact List.Pairwise.nil
  | cons dt dts ih =>
    have hdt : 0 ≤ dt := hd dt (List.mem_cons_self _ _)
    have hd1 : ∀ d ∈ dts, 0 ≤ d := fun d hdm => hd d (List.mem_cons_of_mem _ hdm)
    obtain ⟨hr, -, hray⟩ := Asteroid.Update_ray a p0 T dt hpos
    have hp1 : -(a.Update dt).1.GetRadius ≤ p0.x ∧
        p0.x ≤ (screenW : ℚ) + (a.Update dt).1.GetRadius ∧
        -(a.Update dt).1.GetRadius ≤ p0.y ∧
        p0.y ≤ (screenH : ℚ) + (a.Update dt).1.GetRadius := by
      rw [hr]
      exact hp0
    simp only [Asteroid.updateFlags]
    refine List.Pairwise.cons (fun c hc hf => ?_) (ih (a.Update dt).1 (T + dt) (by linarith) hd1
      hp1 hray)
    have hoff1 : ¬ (a.Update dt).1.onScreen := by
      intro hon
      rw [(Asteroid.Update_snd a dt).mpr hon] at hf
      cases hf
    exact Asteroid.updateFlags_off dts (a.Update dt).1 p0 (T + dt) (by linarith) hd1 hp1 hray
      hoff1 c hc

/-- An asteroid as constructed sits within the expanded screen rectangle (on its
boundary), when the draw for the place along the edge is a quotient in [0, 1]. -/
theorem Asteroid.init_onScreen (kind : AsteroidKind) (d : InitDraw)
    (h0 : 0 ≤ d.alongU) (h1 : d.alongU ≤ 1) :
    (Asteroid.init kind C_WIDTH C_HEIGHT d).onScreen := by
  have hr : 0 < (Asteroid.init kind C_WIDTH C_HEIGHT d).GetRadius := by
    have := Size.toInt_pos (Asteroid.init kind C_WIDTH C_HEIGHT d).render.size
    simp only [Asteroid.GetRadius]
    have h2 : (0 : ℚ) < ((Asteroid.init kind C_WIDTH C_HEIGHT d).render.size.toInt : ℚ) := by
      exact_mod_cast this
    linarith
  simp only [Asteroid.onScreen, not_or, not_lt, gt_iff_lt]
  simp only [Asteroid.GetRadius, Asteroid.init] at hr ⊢
  simp only [RandomFloat, C_WIDTH, C_HEIGHT, screenW, screenH]
  push_cast
  generalize (16 : ℚ) * ((Size.ofShift (GetRandomValue 0 2 d.sizeRaw)).toInt : ℚ) = r at hr ⊢
  split_ifs <;> dsimp only <;> refine ⟨?_, ?_, ?_, ?_⟩ <;> linarith

theorem MakeAsteroid_onScreen (shape : AsteroidShape) (shapeRaw : Nat) (d : InitDraw)
    (phys : Physics) (h0 : 0 ≤ d.alongU) (h1 : d.alongU ≤ 1) :
    ((MakeAsteroid C_WIDTH C_HEIGHT shape shapeRaw d).SetPhysics phys).onScreen := by
  simp only [MakeAsteroid]
  split
  · exact Asteroid.init_onScreen .Triangle d h0 h1
  · exact Asteroid.init_onScreen .Square d h0 h1
  · exact Asteroid.init_onScreen .Pentagon d h0 h1
  · exact Asteroid.init_onScreen .Star d h0 h1
  · split
    · exact Asteroid.init_onScreen .Triangle d h0 h1
    · exact Asteroid.init_onScreen .Square d h0 h1
    · exact Asteroid.init_onScreen .Pentagon d h0 h1
    · exact Asteroid.init_onScreen .Star d h0 h1

/-- C14: for an asteroid that starts within the screen rectangle expanded by its radius,
as every asteroid does at construction (it is placed on the boundary of that rectangle),
and is advanced by repeated `Update` calls with non-negative time steps at its constant
velocity: once an `Update` returns `false`, every later `Update` returns `false`. -/
theorem expiry_monotone (a : Asteroid) (dts : List ℚ) (hstart : a.onScreen)
    (hd : ∀ d ∈ dts, 0 ≤ d) :
    (a.updateFlags dts).Pairwise (fun b c => b = false → c = false) ∧
      (∀ (i j : Nat) (hi : i < (a.updateFlags dts).length) (hj : j < (a.updateFlags dts).length),
        i < j → (a.updateFlags dts)[i] = false → (a.updateFlags dts)[j] = false) ∧
      (∀ (shape : AsteroidShape) (shapeRaw : Nat) (d : InitDraw) (phys : Physics),
        0 ≤ d.alongU → d.alongU ≤ 1 →
        ((MakeAsteroid C_WIDTH C_HEIGHT shape shapeRaw d).SetPhysics phys).onScreen) := by
  have hp : (a.updateFlags dts).Pairwise (fun b c => b = false → c = false) := by
    refine Asteroid.updateFlags_pairwise dts a a.transform.position 0 (le_refl _) hd ?_ ?_
    · simp only [Asteroid.onScreen, not_or, not_lt, gt_iff_lt] at hstart
      exact hstart
    · simp only [Vector2Add, Vector2Scale, mul_zero, add_zero]
  refine ⟨hp, fun i j hi hj hij => ?_, fun shape shapeRaw d phys h0 h1 =>
    MakeAsteroid_onScreen shape shapeRaw d phys h0 h1⟩
  exact (List.pairwise_iff_getElem.mp hp) i j hi hj hij

theorem topAsteroid_flags : topAsteroid.updateFlags [1, 10, 1] = [true, false, false] := by
  norm_num [Asteroid.updateFlags, Asteroid.Update, topAsteroid, Vector2Add, Vector2Scale,
    Asteroid.GetRadius, Size.toInt, screenW, screenH]

theorem expiry_monotone_witness :
    topAsteroid.onScreen ∧ (∀ d ∈ [(1 : ℚ), 10, 1], 0 ≤ d) ∧
      topAsteroid.updateFlags [1, 10, 1] = [true, false, false] ∧
      (topAsteroid.updateFlags [1, 10, 1]).Pairwise (fun b c => b = false → c = false) :=
  ⟨by norm_num [Asteroid.onScreen, topAsteroid, Asteroid.GetRadius, Size.toInt, screenW, screenH],
    by norm_num, topAsteroid_flags,
    (expiry_monotone topAsteroid [1, 10, 1]
      (by norm_num [Asteroid.onScreen, topAsteroid, Asteroid.GetRadius, Size.toInt, screenW,
        screenH])
      (by norm_num)).1⟩

/-! ## Projectiles fired in a frame -/

theorem spawnAsteroids_projectiles (inp : Input) (t : State) :
    (spawnAsteroids inp t).projectiles = t.projectiles := by
  rcases spawnAsteroids_cases inp t with ⟨-, he⟩ | ⟨-, a, -, he⟩ <;> rw [he]

/-- With the ship dead and `R` not pressed the blocks before the spawn block finish and
fire nothing. -/
theorem beforeSpawn_dead (fuel : Nat) (inp : Input) (s : State)
    (hdead : s.player.alive = false) (hR : inp.keyR = false) :
    ∃ t, beforeSpawn fuel inp s = some t ∧ t.projectiles = s.projectiles := by
  have hno : ¬ processesRestart inp s := fun h => by
    rw [h.2] at hR
    cases hR
  have ha : (weaponSwitch inp (shapeSwitch inp (updatePlayer inp s))).player.alive = false := by
    have h1 := updatePlayer_alive inp s
    rw [hdead] at h1
    simp only [weaponSwitch, shapeSwitch]
    split_ifs <;> exact h1
  have hp : (weaponSwitch inp (shapeSwitch inp (updatePlayer inp s))).projectiles =
      s.projectiles := by
    simp only [weaponSwitch, shapeSwitch]
    split_ifs <;> rfl
  unfold beforeSpawn
  rw [restartLogic_no inp s hno]
  simp only [afterRestart, shooting, ha, Bool.false_and, Bool.false_eq_true, if_false]
  split_ifs
  · exact ⟨_, rfl, hp⟩
  · exact ⟨_, rfl, hp⟩

theorem collisionPass_single (inp : Input) (s : State) (p : Projectile) (a : Asteroid)
    (hp : s.projectiles = [p]) (ha : s.asteroids = [a]) (hhit : hits p a = true) :
    (projectileAsteroidCollisions inp s).score = s.score + a.GetPoints ∧
      (projectileAsteroidCollisions inp s).asteroidsDestroyed = s.asteroidsDestroyed + 1 := by
  have hscan : scanAsteroids p ({ s with projectiles := [] } : State).asteroids =
      some (a, []) := by
    show scanAsteroids p s.asteroids = _
    rw [ha]
    simp [scanAsteroids, hhit]
  unfold projectileAsteroidCollisions
  rw [hp, collisionLoop_hit _ _ _ _ _ _ hscan, collisionLoop_no_asteroids _ _ _ rfl]
  obtain ⟨f1, f2, -⟩ := resolveHit_fields a inp.hitRaw { s with projectiles := [] }
  exact ⟨f1, f2⟩

theorem nearLaser_update : nearLaser.Update (1 / 64) = (topLaser, false) := by
  norm_num [Projectile.Update, topLaser, nearLaser, Vector2Add, Vector2Scale, screenW, screenH]

theorem topLaser_hits_topAsteroid : hits topLaser topAsteroid = true := by
  have hr : topLaser.GetRadius = 3 := rfl
  norm_num [hits, distLt, Vector2DistanceSqr, hr, topAsteroid, Projectile.GetPosition,
    Asteroid.GetPosition, Asteroid.GetRadius, Size.toInt]
  norm_num [topLaser]

/-- C18, as stated, fails: in the game-over state with a laser in flight 11.25 units below
an asteroid on the top edge, the ship is dead and `R` is not pressed, and the frame of
1/64 s raises the score from 75 to 90 and `asteroidsDestroyed` from 3 to 4. The laser
moves by 720/64 = 11.25 to the top edge `y = 0`, where it is kept, at distance 16 from the
asteroid; every number of the frame is a binary fraction and every operation on them is
exact, so nothing is rounded in single precision either. -/
theorem dead_ship_progress_counterexample :
    deadHitState.player.alive = false ∧ ¬ processesRestart binaryInput deadHitState ∧
      deadHitState.score = 75 ∧ deadHitState.asteroidsDestroyed = 3 ∧
      (frame 8 binaryInput deadHitState).map (fun s => (s.score, s.asteroidsDestroyed)) =
        some (90, 4) := by
  refine ⟨rfl, fun h => Bool.noConfusion h.2, rfl, rfl, ?_⟩
  obtain ⟨t, ht, hproj⟩ := beforeSpawn_dead 8 binaryInput deadHitState rfl rfl
  have hf : frame 8 binaryInput deadHitState = some (levelProgression (simulate binaryInput t)) :=
    (frame_eq_some _ _ _ _).mpr ⟨t, ht, rfl⟩
  rcases beforeSpawn_some 8 binaryInput deadHitState t ht with
    ⟨-, hast, hscore, hdes, hlev, hthr, htim, hint, -⟩ | ⟨hr, -⟩
  swap
  · exact absurd hr (fun h => Bool.noConfusion h.2)
  have hspawn : spawnAsteroids binaryInput t = t := by
    rcases spawnAsteroids_cases binaryInput t with ⟨-, he⟩ | ⟨⟨hc, -⟩, -⟩
    · exact he
    · exfalso
      rw [htim, hint] at hc
      norm_num [deadHitState, gameOverState, initState, binaryInput, idleInput, RandomFloat,
        C_SPAWN_MIN, C_SPAWN_MAX] at hc
  have hatp : (atCollision binaryInput t).projectiles = [topLaser] := by
    have hdt : binaryInput.dt = 1 / 64 := rfl
    unfold atCollision
    simp only [updateProjectiles, hspawn, hproj, hdt]
    show List.filterMap _ [nearLaser] = _
    rw [List.filterMap_cons_some (b := topLaser) (by rw [nearLaser_update]; rfl)]
    rfl
  have hata : (atCollision binaryInput t).asteroids = [topAsteroid] := by
    unfold atCollision
    rw [hspawn]
    exact hast
  have hats : (atCollision binaryInput t).score = 75 ∧
      (atCollision binaryInput t).asteroidsDestroyed = 3 := by
    unfold atCollision
    rw [hspawn]
    exact ⟨hscore, hdes⟩
  obtain ⟨c1, c2⟩ := collisionPass_single binaryInput (atCollision binaryInput t) topLaser
    topAsteroid hatp hata topLaser_hits_topAsteroid
  have hpts : topAsteroid.GetPoints = 15 := rfl
  rw [hats.1, hpts] at c1
  rw [hats.2] at c2
  have hsc : (simulate binaryInput t).score = 90 := by
    rw [(simulate_fields binaryInput t).2.1, c1]
    rfl
  have hsd : (simulate binaryInput t).asteroidsDestroyed = 4 := by
    rw [(simulate_fields binaryInput t).2.2.1, c2]
    rfl
  have hst : (simulate binaryInput t).asteroidsToNextLevel = 10 := by
    rw [(simulate_level binaryInput t).2, hthr]
    rfl
  have hlp : levelProgression (simulate binaryInput t) = simulate binaryInput t := by
    simp only [levelProgression, hsd, hst]
    rfl
  rw [hf, hlp, Option.map_some', hsc, hsd]

theorem simulate_projectiles (inp : Input) (t : State) :
    (simulate inp t).projectiles =
      (projectileAsteroidCollisions inp (atCollision inp t)).projectiles := by
  unfold simulate
  rw [powerupCollection_eq]
  show (asteroidShipCollisions inp _).projectiles = _
  unfold asteroidShipCollisions
  rw [shipLoop_eq]
  rfl

theorem spawnAsteroids_score (inp : Input) (t : State) :
    (spawnAsteroids inp t).score = t.score ∧
      (spawnAsteroids inp t).asteroidsDestroyed = t.asteroidsDestroyed := by
  rcases spawnAsteroids_cases inp t with ⟨-, he⟩ | ⟨-, a, -, he⟩ <;> rw [he] <;> exact ⟨rfl, rfl⟩

/-- C18, amended: a frame that starts with the ship dead, no projectile in the
collection and `asteroidsDestroyed` below the threshold (as it is at the end of every
frame of a session), and that does not process a restart, returns with score, level and
`asteroidsDestroyed` as they were and with the projectile collection still empty.
Projectiles that are in flight when the ship dies keep destroying asteroids and scoring
until they have left the screen. -/
theorem dead_ship_freezes (fuel : Nat) (inp : Input) (s : State)
    (hdead : s.player.alive = false) (hno : ¬ processesRestart inp s)
    (hproj : s.projectiles = []) (hlt : s.asteroidsDestroyed < s.asteroidsToNextLevel) :
    (frame fuel inp s).map
        (fun s1 => (s1.score, s1.level, s1.asteroidsDestroyed, s1.projectiles)) =
      some (s.score, s.level, s.asteroidsDestroyed, []) := by
  have hR : inp.keyR = false := by
    cases h : inp.keyR
    · rfl
    · exact absurd ⟨hdead, h⟩ hno
  obtain ⟨t, ht, htp⟩ := beforeSpawn_dead fuel inp s hdead hR
  have hf : frame fuel inp s = some (levelProgression (simulate inp t)) :=
    (frame_eq_some _ _ _ _).mpr ⟨t, ht, rfl⟩
  rcases beforeSpawn_some fuel inp s t ht with
    ⟨-, -, hscore, hdes, hlev, hthr, -⟩ | ⟨hr, -⟩
  swap
  · exact absurd hr hno
  have hatp : (atCollision inp t).projectiles = [] := by
    unfold atCollision
    simp only [updateProjectiles, spawnAsteroids_projectiles, htp, hproj, List.filterMap_nil]
  have hpass : projectileAsteroidCollisions inp (atCollision inp t) =
      { atCollision inp t with projectiles := [] } := by
    unfold projectileAsteroidCollisions
    rw [hatp]
    rfl
  have hat : (atCollision inp t).score = s.score ∧
      (atCollision inp t).asteroidsDestroyed = s.asteroidsDestroyed := by
    obtain ⟨h1, h2⟩ := spawnAsteroids_score inp t
    exact ⟨h1.trans hscore, h2.trans hdes⟩
  have hsc : (simulate inp t).score = s.score := by
    rw [(simulate_fields inp t).2.1, hpass]
    exact hat.1
  have hsd : (simulate inp t).asteroidsDestroyed = s.asteroidsDestroyed := by
    rw [(simulate_fields inp t).2.2.1, hpass]
    exact hat.2
  have hsl : (simulate inp t).level = s.level := (simulate_level inp t).1.trans hlev
  have hst : (simulate inp t).asteroidsToNextLevel = s.asteroidsToNextLevel :=
    (simulate_level inp t).2.trans hthr
  have hsp : (simulate inp t).projectiles = [] := by
    rw [simulate_projectiles, hpass]
  have hlp : levelProgression (simulate inp t) = simulate inp t := by
    have hn : ¬ ((simulate inp t).asteroidsDestroyed ≥ (simulate inp t).asteroidsToNextLevel) := by
      rw [hsd, hst]
      exact not_le.mpr hlt
    simp only [levelProgression, hn, if_false]
  rw [hf, hlp, Option.map_some', hsc, hsl, hsd, hsp]

theorem dead_ship_freezes_witness :
    gameOverState.player.alive = false ∧ ¬ processesRestart idleInput gameOverState ∧
      gameOverState.projectiles = [] ∧
      gameOverState.asteroidsDestroyed < gameOverState.asteroidsToNextLevel ∧
      (frame 8 idleInput gameOverState).map
          (fun s1 => (s1.score, s1.level, s1.asteroidsDestroyed, s1.projectiles)) =
        some (75, 1, 3, []) :=
  ⟨rfl, fun h => Bool.noConfusion h.2, rfl, by decide,
    dead_ship_freezes 8 idleInput gameOverState rfl (fun h => Bool.noConfusion h.2) rfl
      (by decide)⟩

/-! ## Spawning at the cap -/

/-- With the ship dead the ship-asteroid pass only advances the asteroids and drops those
that left the expanded screen rectangle. -/
theorem shipLoop_dead (dt : ℚ) (todo : List Asteroid) (s : State)
    (hdead : s.player.alive = false) :
    shipLoop dt todo s =
      { s with asteroids := s.asteroids ++
          todo.filterMap fun a => if (a.Update dt).2 then some (a.Update dt).1 else none } := by
  induction todo generalizing s with
  | nil => simp [shipLoop]
  | cons a todo ih =>
    simp only [shipLoop, hdead, Bool.false_and, Bool.false_eq_true, if_false]
    by_cases h : (a.Update dt).2 = true
    · have h2 : (!(a.Update dt).2) = false := by rw [h]; rfl
      simp only [h2, Bool.false_eq_true, if_false]
      rw [ih { s with asteroids := s.asteroids ++ [(a.Update dt).1] } hdead,
        List.filterMap_cons_some (by rw [if_pos h])]
      simp
    · have h2 : (!(a.Update dt).2) = true := by
        cases hb : (a.Update dt).2
        · rfl
        · exact absurd hb h
      simp only [h2, if_true]
      rw [ih _ hdead, List.filterMap_cons_none (by rw [if_neg h])]

theorem filterMap_replicate_asteroid (dt : ℚ) (n : Nat) (a : Asteroid)
    (h : (a.Update dt).2 = true) :
    (List.replicate n a).filterMap
        (fun b => if (b.Update dt).2 then some (b.Update dt).1 else none) =
      List.replicate n (a.Update dt).1 := by
  induction n with
  | zero => rfl
  | succ n ih =>
    rw [List.replicate_succ, List.filterMap_cons_some (by rw [if_pos h]), ih,
      List.replicate_succ]

theorem spawnAsteroids_capped (inp : Input) (t : State) (h : MAX_AST ≤ t.asteroids.length) :
    spawnAsteroids inp t = t := by
  rcases spawnAsteroids_cases inp t with ⟨-, he⟩ | ⟨⟨-, hc⟩, -⟩
  · exact he
  · omega

theorem cappedSpawn_eq : beforeSpawn 8 idleInput cappedState = some cappedSpawn := by
  unfold beforeSpawn
  rw [restartLogic_no idleInput cappedState (fun h => Bool.noConfusion h.2)]
  have ha : (updatePlayer idleInput cappedState).player.alive = false := by
    rw [updatePlayer_alive]
    rfl
  have hr : (updatePlayer idleInput cappedState).player.GetFireRate
      (updatePlayer idleInput cappedState).currentWeapon = 18 := by
    simp only [updatePlayer, PlayerShip.Update]
    rfl
  have hst : (updatePlayer idleInput cappedState).shotTimer = 1 / 100 := rfl
  have hu : weaponSwitch idleInput (shapeSwitch idleInput (updatePlayer idleInput cappedState)) =
      updatePlayer idleInput cappedState := rfl
  simp only [afterRestart, hu, shooting, ha, Bool.false_and, Bool.false_eq_true, if_false, hr, hst]
  norm_num
  simp only [updatePlayer, cappedSpawn]
  norm_num [idleInput, cappedState, gameOverState, initState]

theorem topAsteroid_update_flag : (topAsteroid.Update (1 / 60)).2 = true := by
  norm_num [Asteroid.Update, topAsteroid, Vector2Add, Vector2Scale, Asteroid.GetRadius,
    Size.toInt, screenW, screenH]

theorem cappedSpawn_dead : cappedSpawn.player.alive = false :=
  (updatePlayer_alive idleInput cappedState).trans rfl

theorem cappedNext_eq : simulate idleInput cappedSpawn = cappedNext := by
  have hcap : MAX_AST ≤ cappedSpawn.asteroids.length := by
    show 150 ≤ (List.replicate 150 topAsteroid).length
    rw [List.length_replicate]
  have hdt : idleInput.dt = 1 / 60 := rfl
  have hA : spawnAsteroids idleInput cappedSpawn = cappedSpawn :=
    spawnAsteroids_capped idleInput cappedSpawn hcap
  have hB : updateProjectiles idleInput cappedSpawn = cappedSpawn := rfl
  have hC : projectileAsteroidCollisions idleInput cappedSpawn = cappedSpawn := rfl
  have hD : asteroidShipCollisions idleInput cappedSpawn = cappedNext := by
    unfold asteroidShipCollisions
    rw [shipLoop_dead idleInput.dt cappedSpawn.asteroids { cappedSpawn with asteroids := [] }
      cappedSpawn_dead, hdt]
    show ({ cappedSpawn with asteroids := [] ++ List.filterMap _ (List.replicate 150 topAsteroid) } :
      State) = cappedNext
    rw [filterMap_replicate_asteroid _ _ _ topAsteroid_update_flag]
    rfl
  have hE : updateExplosions idleInput cappedNext = cappedNext := rfl
  have hF : updatePowerups idleInput cappedNext = cappedNext := rfl
  have hG : powerupCollection cappedNext = cappedNext := by
    have ha : cappedNext.player.alive = false := cappedSpawn_dead
    simp only [powerupCollection, ha, Bool.false_eq_true, if_false]
  unfold simulate
  rw [hA, hB, hC, hD, hE, hF, hG]

theorem frame_capped : frame 8 idleInput cappedState = some cappedNext := by
  rw [frame_eq_some]
  refine ⟨cappedSpawn, cappedSpawn_eq, ?_⟩
  rw [cappedNext_eq]
  have hn : ¬ (cappedNext.asteroidsDestroyed ≥ cappedNext.asteroidsToNextLevel) := by decide
  simp only [levelProgression, hn, if_false]

theorem restartedState_eq : beforeSpawn 8 restartInput cappedNext = some restartedState := by
  unfold beforeSpawn
  have ha : cappedNext.player.alive = false := cappedSpawn_dead
  rw [restartLogic_yes restartInput cappedNext ⟨ha, rfl⟩]
  have hu : ∀ x : State, weaponSwitch restartInput (shapeSwitch restartInput x) = x :=
    fun x => rfl
  simp only [afterRestart, hu, shooting]
  norm_num [restartInput, idleInput, PlayerShip.new, Ship.new, Ship.GetFireRate, updatePlayer,
    cappedNext, cappedSpawn, cappedState, gameOverState, initState, restartedState]

theorem restartedState_no_spawn : spawnAsteroids restartInput restartedState = restartedState := by
  rcases spawnAsteroids_cases restartInput restartedState with ⟨-, he⟩ | ⟨⟨hc, -⟩, -⟩
  · exact he
  · exfalso
    norm_num [restartedState, initState, RandomFloat, C_SPAWN_MIN, C_SPAWN_MAX] at hc

/-- In a frame without restart the spawn block sees the asteroids and the spawn interval
of the start of the frame and the spawn timer advanced by `dt`; the frame ends with the
spawn timer and interval the spawn block leaves. -/
theorem frame_spawn_timer (fuel : Nat) (inp : Input) (u u1 : State)
    (hf : frame fuel inp u = some u1) (hno : ¬ processesRestart inp u) :
    ∃ t, beforeSpawn fuel inp u = some t ∧ t.asteroids = u.asteroids ∧
      t.spawnTimer = u.spawnTimer + inp.dt ∧ t.spawnInterval = u.spawnInterval ∧
      u1.spawnTimer = (spawnAsteroids inp t).spawnTimer ∧
      u1.spawnInterval = (spawnAsteroids inp t).spawnInterval ∧
      u1.asteroids.length ≤ (spawnAsteroids inp t).asteroids.length := by
  obtain ⟨t, ht, rfl⟩ := (frame_eq_some fuel inp u u1).mp hf
  rcases beforeSpawn_some fuel inp u t ht with
    ⟨-, hast, -, -, -, -, htim, hint, -⟩ | ⟨hr, -⟩
  · refine ⟨t, ht, hast, htim, hint, ?_, ?_, ?_⟩
    · rw [(levelProgression_asteroids _).2.2.1, (simulate_fields inp t).2.2.2.1]
    · rw [(levelProgression_asteroids _).2.2.2.1, (simulate_fields inp t).2.2.2.2]
    · rw [(levelProgression_asteroids _).1]
      exact (simulate_asteroids inp t).1
  · exact absurd hr hno

/-- C13, as stated, fails when a restart comes in between. From the game-over state
`cappedState` (150 asteroids, spawn timer 1 s past the interval of 1/2 s) the spawn block
of an idle frame sees 150 asteroids and changes nothing; in the next frame `R` is
pressed, the restart block clears the asteroids and resets the spawn timer to 0, the
spawn block sees 0 asteroids, below the cap, and spawns nothing. -/
theorem capped_spawn_counterexample :
    beforeSpawn 8 idleInput cappedState = some cappedSpawn ∧
      cappedSpawn.asteroids.length = 150 ∧
      cappedSpawn.spawnTimer ≥ cappedSpawn.spawnInterval ∧
      spawnAsteroids idleInput cappedSpawn = cappedSpawn ∧
      frame 8 idleInput cappedState = some cappedNext ∧
      beforeSpawn 8 restartInput cappedNext = some restartedState ∧
      restartedState.asteroids.length < 150 ∧
      spawnAsteroids restartInput restartedState = restartedState ∧
      restartedState.asteroids = [] ∧
      (frame 8 restartInput cappedNext).map State.asteroids = some [] := by
  have hlen : cappedSpawn.asteroids.length = 150 := by
    show (List.replicate 150 topAsteroid).length = 150
    rw [List.length_replicate]
  refine ⟨cappedSpawn_eq, hlen, ?_, ?_, frame_capped, restartedState_eq, by decide,
    restartedState_no_spawn, rfl, ?_⟩
  · norm_num [cappedSpawn, cappedState]
  · exact spawnAsteroids_capped idleInput cappedSpawn (by rw [hlen]; decide)
  · have hf : frame 8 restartInput cappedNext =
        some (levelProgression (simulate restartInput restartedState)) :=
      (frame_eq_some _ _ _ _).mpr ⟨restartedState, restartedState_eq, rfl⟩
    rw [hf, Option.map_some', (levelProgression_asteroids _).1]
    have h := (simulate_asteroids restartInput restartedState).1
    rw [restartedState_no_spawn] at h
    have h0 : (simulate restartInput restartedState).asteroids.length = 0 :=
      Nat.le_zero.mp h
    rw [List.length_eq_zero.mp h0]

/-- C13, amended: when at least 150 asteroids are alive the spawn block changes nothing,
whatever the spawn timer. Over frames with non-negative frame time that process no
restart and start at the cap, a spawn timer that has reached the spawn interval keeps
the interval and does not fall; and in the next such frame the spawn block sees the
asteroids of the start of the frame with the timer still at or past the interval, so at
the cap it again changes nothing and the frame ends with the timer advanced by `dt`,
and below the cap it appends one asteroid and resets the timer to 0. -/
theorem capped_spawn (s u : State) (htimer : s.spawnInterval ≤ s.spawnTimer)
    (hrun : CappedRun s u) :
    (∀ (inp : Input) (t : State), MAX_AST ≤ t.asteroids.length → spawnAsteroids inp t = t) ∧
      MAX_AST = 150 ∧
      u.spawnInterval = s.spawnInterval ∧ s.spawnTimer ≤ u.spawnTimer ∧
      ∀ (fuel : Nat) (inp : Input) (u1 : State), 0 ≤ inp.dt → ¬ processesRestart inp u →
        frame fuel inp u = some u1 →
        ∃ t, beforeSpawn fuel inp u = some t ∧ t.asteroids = u.asteroids ∧
          t.spawnInterval ≤ t.spawnTimer ∧
          (MAX_AST ≤ u.asteroids.length →
            spawnAsteroids inp t = t ∧ u1.spawnTimer = u.spawnTimer + inp.dt ∧
            u1.spawnInterval = u.spawnInterval) ∧
          (u.asteroids.length < MAX_AST →
            ∃ a, (spawnAsteroids inp t).asteroids = u.asteroids ++ [a] ∧ u1.spawnTimer = 0) := by
  have hinv : u.spawnInterval = s.spawnInterval ∧ s.spawnTimer ≤ u.spawnTimer := by
    induction hrun with
    | refl => exact ⟨rfl, le_refl _⟩
    | @step u u1 fuel inp _ hcap hdt hno hf ih =>
      obtain ⟨t, -, hast, htim, hint, h1, h2, -⟩ := frame_spawn_timer fuel inp u u1 hf hno
      have hid : spawnAsteroids inp t = t := spawnAsteroids_capped inp t (by rw [hast]; exact hcap)
      rw [hid] at h1 h2
      rw [h1, h2, htim, hint]
      exact ⟨ih.1, by linarith [ih.2]⟩
  refine ⟨spawnAsteroids_capped, rfl, hinv.1, hinv.2, fun fuel inp u1 hdt hno hf => ?_⟩
  obtain ⟨t, ht, hast, htim, hint, h1, h2, -⟩ := frame_spawn_timer fuel inp u u1 hf hno
  have hreach : t.spawnInterval ≤ t.spawnTimer := by
    rw [htim, hint, hinv.1]
    linarith [hinv.2]
  refine ⟨t, ht, hast, hreach, fun hcap => ?_, fun hlt => ?_⟩
  · have hid : spawnAsteroids inp t = t := spawnAsteroids_capped inp t (by rw [hast]; exact hcap)
    rw [hid] at h1 h2
    exact ⟨hid, h1.trans htim, h2.trans hint⟩
  · rcases spawnAsteroids_cases inp t with ⟨hc, -⟩ | ⟨-, a, -, he⟩
    · exact absurd ⟨hreach, by rw [hast]; exact hlt⟩ hc
    · refine ⟨a, ?_, ?_⟩
      · rw [he, ← hast]
      · rw [h1, he]

theorem capped_spawn_witness :
    cappedState.spawnInterval ≤ cappedState.spawnTimer ∧
      CappedRun cappedState cappedNext ∧
      cappedNext.spawnInterval = cappedState.spawnInterval ∧
      cappedState.spawnTimer ≤ cappedNext.spawnTimer :=
  ⟨by norm_num [cappedState],
    CappedRun.step 8 idleInput (CappedRun.refl cappedState)
      (by show 150 ≤ (List.replicate 150 topAsteroid).length; rw [List.length_replicate])
      (by norm_num [idleInput]) (fun h => Bool.noConfusion h.2) frame_capped,
    (capped_spawn cappedState cappedNext (by norm_num [cappedState])
      (CappedRun.step 8 idleInput (CappedRun.refl cappedState)
        (by show 150 ≤ (List.replicate 150 topAsteroid).length; rw [List.length_replicate])
        (by norm_num [idleInput]) (fun h => Bool.noConfusion h.2) frame_capped)).2.2.1,
    (capped_spawn cappedState cappedNext (by norm_num [cappedState])
      (CappedRun.step 8 idleInput (CappedRun.refl cappedState)
        (by show 150 ≤ (List.replicate 150 topAsteroid).length; rw [List.length_replicate])
        (by norm_num [idleInput]) (fun h => Bool.noConfusion h.2) frame_capped)).2.2.2.1⟩

/-! ## Fire cadence -/

/-- With a positive interval the firing loop, given enough fuel, runs exactly `n` times
when the timer holds `n` whole intervals. -/
theorem fireLoop_count (interval : ℚ) (proj : Projectile) (hI : 0 < interval) (n : Nat) :
    ∀ (fuel : Nat) (t : ℚ) (ps : List Projectile), n * interval ≤ t → t < (n + 1) * interval →
      n ≤ fuel →
      fireLoop interval proj fuel t ps = some (t - n * interval, ps ++ List.replicate n proj) := by
  induction n with
  | zero =>
    intro fuel t ps _ hhi _
    have hlt : ¬ (t ≥ interval) := by
      simp only [Nat.cast_zero, zero_add, one_mul] at hhi
      exact not_le.mpr hhi
    cases fuel <;> simp [fireLoop, hlt]
  | succ n ih =>
    intro fuel t ps hlo hhi hfuel
    push_cast at hlo hhi
    have hn : (0 : ℚ) ≤ n * interval := mul_nonneg (Nat.cast_nonneg n) (le_of_lt hI)
    have hge : t ≥ interval := by linarith
    cases fuel with
    | zero => omega
    | succ fuel =>
      simp only [fireLoop, hge, if_true]
      rw [ih fuel (t - interval) (ps ++ [proj]) (by linarith) (by linarith) (by omega)]
      simp only [Option.some.injEq, Prod.mk.injEq]
      refine ⟨by push_cast; ring, ?_⟩
      rw [List.append_assoc, List.singleton_append, ← List.replicate_succ]

/-- The shooting block with the ship alive, the fire key held, a positive fire rate and
enough fuel: it emits `⌊(shotTimer + dt) × fireRate⌋` projectiles. -/
theorem shooting_fire (fuel : Nat) (inp : Input) (s : State)
    (halive : s.player.alive = true) (hspace : inp.keySpace = true)
    (hrate : 0 < s.player.GetFireRate s.currentWeapon)
    (ht : 0 ≤ s.shotTimer + inp.dt)
    (hfuel : ⌊(s.shotTimer + inp.dt) * s.player.GetFireRate s.currentWeapon⌋₊ ≤ fuel) :
    shooting fuel inp s =
      some { s with
        shotTimer := s.shotTimer + inp.dt -
          ⌊(s.shotTimer + inp.dt) * s.player.GetFireRate s.currentWeapon⌋₊ *
            (1 / s.player.GetFireRate s.currentWeapon)
        projectiles := s.projectiles ++
          List.replicate ⌊(s.shotTimer + inp.dt) * s.player.GetFireRate s.currentWeapon⌋₊
            (MakeProjectile s.currentWeapon
              ⟨s.player.GetPosition.x, s.player.GetPosition.y - s.player.GetRadius⟩
              (s.player.GetSpacing s.currentWeapon * s.player.GetFireRate s.currentWeapon)) } := by
  have hI : 0 < 1 / s.player.GetFireRate s.currentWeapon := one_div_pos.mpr hrate
  have hx : 0 ≤ (s.shotTimer + inp.dt) * s.player.GetFireRate s.currentWeapon :=
    mul_nonneg ht (le_of_lt hrate)
  have hlo := Nat.floor_le hx
  have hhi := Nat.lt_floor_add_one ((s.shotTimer + inp.dt) * s.player.GetFireRate s.currentWeapon)
  have h1 : (⌊(s.shotTimer + inp.dt) * s.player.GetFireRate s.currentWeapon⌋₊ : ℚ) *
      (1 / s.player.GetFireRate s.currentWeapon) ≤ s.shotTimer + inp.dt := by
    rw [mul_one_div, div_le_iff₀ hrate]
    exact hlo
  have h2 : s.shotTimer + inp.dt <
      ((⌊(s.shotTimer + inp.dt) * s.player.GetFireRate s.currentWeapon⌋₊ : ℚ) + 1) *
        (1 / s.player.GetFireRate s.currentWeapon) := by
    rw [mul_one_div, lt_div_iff₀ hrate]
    exact hhi
  simp only [shooting, halive, hspace, Bool.and_self, if_true]
  rw [fireLoop_count _ _ hI _ fuel _ _ h1 h2 hfuel]
  rfl

/-- Firing over consecutive frames from a shot timer below one interval: the number of
projectiles emitted is `⌊(shotTimer + sum of the frame times) × fireRate⌋`. -/
theorem fireFrames_count (fuel : Nat) (inp : Input) (dts : List ℚ) :
    ∀ s : State, s.player.alive = true → 0 < s.player.GetFireRate s.currentWeapon →
      0 ≤ s.shotTimer → s.shotTimer * s.player.GetFireRate s.currentWeapon < 1 →
      (∀ d ∈ dts, 0 ≤ d) →
      ⌊(s.shotTimer + dts.sum) * s.player.GetFireRate s.currentWeapon⌋₊ ≤ fuel →
      (fireFrames fuel inp dts s).map Prod.snd =
        some ⌊(s.shotTimer + dts.sum) * s.player.GetFireRate s.currentWeapon⌋₊ := by
  induction dts with
  | nil =>
    intro s _ _ _ hlt _ _
    simp only [fireFrames, Option.map_some', List.sum_nil, add_zero]
    rw [Nat.floor_eq_zero.mpr hlt]
  | cons d ds ih =>
    intro s halive hrate ht0 hlt hd hfuel
    have hd0 : 0 ≤ d := hd d (List.mem_cons_self _ _)
    have hds : ∀ x ∈ ds, 0 ≤ x := fun x hx => hd x (List.mem_cons_of_mem _ hx)
    have hS : 0 ≤ ds.sum := List.sum_nonneg hds
    have hsum : (d :: ds).sum = d + ds.sum := List.sum_cons
    rw [hsum] at hfuel ⊢
    have hmono : ⌊(s.shotTimer + d) * s.player.GetFireRate s.currentWeapon⌋₊ ≤
        ⌊(s.shotTimer + (d + ds.sum)) * s.player.GetFireRate s.currentWeapon⌋₊ :=
      Nat.floor_mono (mul_le_mul_of_nonneg_right (by linarith) (le_of_lt hrate))
    have hshoot := shooting_fire fuel { inp with dt := d, keySpace := true } s halive rfl hrate
      (by show 0 ≤ s.shotTimer + d; linarith) (le_trans hmono hfuel)
    simp only [fireFrames, hshoot]
    have hx : 0 ≤ (s.shotTimer + d) * s.player.GetFireRate s.currentWeapon :=
      mul_nonneg (by linarith) (le_of_lt hrate)
    have hlo := Nat.floor_le hx
    have hhi := Nat.lt_floor_add_one ((s.shotTimer + d) * s.player.GetFireRate s.currentWeapon)
    have hne : s.player.GetFireRate s.currentWeapon ≠ 0 := ne_of_gt hrate
    have ht1 : (s.shotTimer + d -
        (⌊(s.shotTimer + d) * s.player.GetFireRate s.currentWeapon⌋₊ : ℚ) *
          (1 / s.player.GetFireRate s.currentWeapon)) * s.player.GetFireRate s.currentWeapon =
        (s.shotTimer + d) * s.player.GetFireRate s.currentWeapon -
          ⌊(s.shotTimer + d) * s.player.GetFireRate s.currentWeapon⌋₊ := by
      field_simp
    have ht1nn : 0 ≤ s.shotTimer + d -
        (⌊(s.shotTimer + d) * s.player.GetFireRate s.currentWeapon⌋₊ : ℚ) *
          (1 / s.player.GetFireRate s.currentWeapon) := by
      have := ht1
      by_contra hneg
      have hneg := not_le.mp hneg
      have := mul_neg_of_neg_of_pos hneg hrate
      rw [ht1] at this
      linarith
    have hrest : (s.shotTimer + d -
        (⌊(s.shotTimer + d) * s.player.GetFireRate s.currentWeapon⌋₊ : ℚ) *
          (1 / s.player.GetFireRate s.currentWeapon) + ds.sum) *
          s.player.GetFireRate s.currentWeapon +
        (⌊(s.shotTimer + d) * s.player.GetFireRate s.currentWeapon⌋₊ : ℚ) =
        (s.shotTimer + (d + ds.sum)) * s.player.GetFireRate s.currentWeapon := by
      field_simp
      ring
    have hrestnn : 0 ≤ (s.shotTimer + d -
        (⌊(s.shotTimer + d) * s.player.GetFireRate s.currentWeapon⌋₊ : ℚ) *
          (1 / s.player.GetFireRate s.currentWeapon) + ds.sum) *
          s.player.GetFireRate s.currentWeapon :=
      mul_nonneg (by linarith) (le_of_lt hrate)
    have hsplit : ⌊(s.shotTimer + (d + ds.sum)) * s.player.GetFireRate s.currentWeapon⌋₊ =
        ⌊(s.shotTimer + d -
          (⌊(s.shotTimer + d) * s.player.GetFireRate s.currentWeapon⌋₊ : ℚ) *
            (1 / s.player.GetFireRate s.currentWeapon) + ds.sum) *
            s.player.GetFireRate s.currentWeapon⌋₊ +
          ⌊(s.shotTimer + d) * s.player.GetFireRate s.currentWeapon⌋₊ := by
      rw [← hrest, Nat.floor_add_nat hrestnn]
    have hih := ih { s with
        shotTimer := s.shotTimer + d -
          ⌊(s.shotTimer + d) * s.player.GetFireRate s.currentWeapon⌋₊ *
            (1 / s.player.GetFireRate s.currentWeapon)
        projectiles := s.projectiles ++
          List.replicate ⌊(s.shotTimer + d) * s.player.GetFireRate s.currentWeapon⌋₊
            (MakeProjectile s.currentWeapon
              ⟨s.player.GetPosition.x, s.player.GetPosition.y - s.player.GetRadius⟩
              (s.player.GetSpacing s.currentWeapon * s.player.GetFireRate s.currentWeapon)) }
      halive hrate ht1nn (by rw [ht1]; linarith) hds
      (show ⌊(s.shotTimer + d -
          (⌊(s.shotTimer + d) * s.player.GetFireRate s.currentWeapon⌋₊ : ℚ) *
            (1 / s.player.GetFireRate s.currentWeapon) + ds.sum) *
            s.player.GetFireRate s.currentWeapon⌋₊ ≤ fuel by rw [hsplit] at hfuel; omega)
    have hih : (fireFrames fuel inp ds _).map Prod.snd =
        some ⌊(s.shotTimer + d -
          (⌊(s.shotTimer + d) * s.player.GetFireRate s.currentWeapon⌋₊ : ℚ) *
            (1 / s.player.GetFireRate s.currentWeapon) + ds.sum) *
            s.player.GetFireRate s.currentWeapon⌋₊ := hih
    simp only [Option.map_map]
    have hcomp : (Prod.snd ∘ fun r : State × Nat =>
        (r.1, (({ s with
          shotTimer := s.shotTimer + d -
            ⌊(s.shotTimer + d) * s.player.GetFireRate s.currentWeapon⌋₊ *
              (1 / s.player.GetFireRate s.currentWeapon)
          projectiles := s.projectiles ++
            List.replicate ⌊(s.shotTimer + d) * s.player.GetFireRate s.currentWeapon⌋₊
              (MakeProjectile s.currentWeapon
                ⟨s.player.GetPosition.x, s.player.GetPosition.y - s.player.GetRadius⟩
                (s.player.GetSpacing s.currentWeapon *
                  s.player.GetFireRate s.currentWeapon)) } : State).projectiles.length -
            s.projectiles.length) + r.2)) =
        (fun k => ⌊(s.shotTimer + d) * s.player.GetFireRate s.currentWeapon⌋₊ + k) ∘ Prod.snd := by
      funext r
      simp only [Function.comp_apply, List.length_append, List.length_replicate]
      omega
    rw [hcomp, ← Option.map_map, hih, Option.map_some', hsplit]
    congr 1
    omega

/-- Within a frame only the shooting block writes the shot timer, and no block after the
weapon switch writes the weapon selection. -/
theorem frame_shotTimer (fuel : Nat) (inp : Input) (s s1 : State)
    (h : frame fuel inp s = some s1) :
    ∃ t, beforeSpawn fuel inp s = some t ∧ s1.shotTimer = t.shotTimer ∧
      s1.currentWeapon = t.currentWeapon := by
  obtain ⟨t, ht, rfl⟩ := (frame_eq_some fuel inp s s1).mp h
  refine ⟨t, ht, ?_⟩
  have h1 : (levelProgression (simulate inp t)).shotTimer = (simulate inp t).shotTimer ∧
      (levelProgression (simulate inp t)).currentWeapon = (simulate inp t).currentWeapon := by
    simp only [levelProgression]
    split_ifs <;> exact ⟨rfl, rfl⟩
  rw [h1.1, h1.2]
  unfold simulate
  rw [powerupCollection_eq]
  show (asteroidShipCollisions inp _).shotTimer = _ ∧
    (asteroidShipCollisions inp _).currentWeapon = _
  unfold asteroidShipCollisions
  rw [shipLoop_eq]
  show (projectileAsteroidCollisions inp _).shotTimer = _ ∧
    (projectileAsteroidCollisions inp _).currentWeapon = _
  unfold projectileAsteroidCollisions
  rw [collisionLoop_eq]
  show (spawnAsteroids inp t).shotTimer = _ ∧ (spawnAsteroids inp t).currentWeapon = _
  rcases spawnAsteroids_cases inp t with ⟨-, he⟩ | ⟨-, a, -, he⟩ <;> rw [he] <;> exact ⟨rfl, rfl⟩

/-- The firing block over exact arithmetic, an idealisation of the single precision of the
code: with the ship alive, a positive fire rate of the selected weapon, the fire key held
in every frame and the shot timer initially 0, the shooting block run over frames with
non-negative frame times `dts` emits, given fuel for the loop, exactly `⌊T × fireRate⌋`
projectiles in total, where `T` is the sum of `dts`; so any other split of `T` into
non-negative frame times emits the same number, and at fire rate 22 with `T = 1` the
number is 22. -/
theorem fireFrames_exact (fuel : Nat) (inp : Input) (dts : List ℚ) (s : State)
    (halive : s.player.alive = true)
    (hrate : 0 < s.player.GetFireRate s.currentWeapon)
    (ht0 : s.shotTimer = 0) (hd : ∀ d ∈ dts, 0 ≤ d)
    (hfuel : ⌊dts.sum * s.player.GetFireRate s.currentWeapon⌋₊ ≤ fuel) :
    (fireFrames fuel inp dts s).map Prod.snd =
        some ⌊dts.sum * s.player.GetFireRate s.currentWeapon⌋₊ ∧
      (∀ dts2 : List ℚ, (∀ d ∈ dts2, 0 ≤ d) → dts2.sum = dts.sum →
        (fireFrames fuel inp dts2 s).map Prod.snd = (fireFrames fuel inp dts s).map Prod.snd) ∧
      (s.player.GetFireRate s.currentWeapon = 22 → dts.sum = 1 →
        (fireFrames fuel inp dts s).map Prod.snd = some 22) := by
  have key : ∀ l : List ℚ, (∀ d ∈ l, 0 ≤ d) → l.sum = dts.sum →
      (fireFrames fuel inp l s).map Prod.snd =
        some ⌊dts.sum * s.player.GetFireRate s.currentWeapon⌋₊ := by
    intro l hl hsum
    have h := fireFrames_count fuel inp l s halive hrate (by rw [ht0])
      (by rw [ht0, zero_mul]; exact one_pos) hl (by rw [ht0, zero_add, hsum]; exact hfuel)
    rw [ht0, zero_add, hsum] at h
    exact h
  refine ⟨key dts hd rfl, fun dts2 h2 hs => ?_, fun hr hT => ?_⟩
  · rw [key dts2 h2 hs, key dts hd rfl]
  · rw [key dts hd rfl, hr, hT]
    norm_num

theorem bulletState_rate : bulletState.player.GetFireRate bulletState.currentWeapon = 22 := rfl

theorem sixty_frames_sum : (List.replicate 60 ((1 : ℚ) / 60)).sum = 1 := by
  rw [List.sum_replicate]
  norm_num

theorem fireFrames_exact_example :
    bulletState.player.alive = true ∧
      0 < bulletState.player.GetFireRate bulletState.currentWeapon ∧
      bulletState.shotTimer = 0 ∧
      (∀ d ∈ List.replicate 60 ((1 : ℚ) / 60), 0 ≤ d) ∧
      (fireFrames 22 idleInput (List.replicate 60 (1 / 60)) bulletState).map Prod.snd = some 22 :=
  ⟨rfl, by rw [bulletState_rate]; norm_num, rfl,
    fun d hd => by rw [List.eq_of_mem_replicate hd]; norm_num,
    (fireFrames_exact 22 idleInput (List.replicate 60 (1 / 60)) bulletState rfl
      (by rw [bulletState_rate]; norm_num) rfl
      (fun d hd => by rw [List.eq_of_mem_replicate hd]; norm_num)
      (by rw [bulletState_rate, sixty_frames_sum]; norm_num)).2.2 bulletState_rate
      sixty_frames_sum⟩

theorem shipLoop_fireRate (dt : ℚ) (todo : List Asteroid) (s : State) :
    (shipLoop dt todo s).player.fireRateLaser = s.player.fireRateLaser ∧
      (shipLoop dt todo s).player.fireRateBullet = s.player.fireRateBullet := by
  induction todo generalizing s with
  | nil => exact ⟨rfl, rfl⟩
  | cons a todo ih =>
    simp only [shipLoop]
    split_ifs
    · rw [(ih _).1, (ih _).2]
      simp only [PlayerShip.TakeDamage, Ship.TakeDamage]
      split_ifs <;> exact ⟨rfl, rfl⟩
    · exact ih _
    · rw [(ih _).1, (ih _).2]
      exact ⟨rfl, rfl⟩

theorem collectLoop_fireRate (todo : List PowerUp) (s : State)
    (h : 0 < s.player.fireRateLaser ∧ 0 < s.player.fireRateBullet) :
    0 < (collectLoop todo s).player.fireRateLaser ∧
      0 < (collectLoop todo s).player.fireRateBullet := by
  induction todo generalizing s with
  | nil => exact h
  | cons a todo ih =>
    simp only [collectLoop]
    split_ifs
    · exact ih _ h
    · apply ih
      simp only [PlayerShip.UpgradeWeapon, Ship.UpgradeWeapon]
      split_ifs
      · exact ⟨mul_pos h.1 (by norm_num), h.2⟩
      · exact ⟨h.1, mul_pos h.2 (by norm_num)⟩
    · exact ih _ h

/-- In every reachable state both fire rates of the ship are positive. -/
theorem reachable_fireRate (s : State) (hr : Reachable s) :
    0 < s.player.fireRateLaser ∧ 0 < s.player.fireRateBullet := by
  induction hr with
  | init texW u => exact ⟨by norm_num [initState, PlayerShip.new, Ship.new],
      by norm_num [initState, PlayerShip.new, Ship.new]⟩
  | @step s s1 fuel inp _ hf ih =>
    obtain ⟨t, ht, rfl⟩ := (frame_eq_some fuel inp s s1).mp hf
    have htp : 0 < t.player.fireRateLaser ∧ 0 < t.player.fireRateBullet := by
      unfold beforeSpawn at ht
      have he := afterRestart_some fuel inp _ t ht
      by_cases hrs : processesRestart inp s
      · rw [restartLogic_yes inp s hrs] at he
        rw [he]
        exact ⟨by norm_num [PlayerShip.new, Ship.new], by norm_num [PlayerShip.new, Ship.new]⟩
      · rw [restartLogic_no inp s hrs] at he
        rw [he]
        simp only [updatePlayer, PlayerShip.Update]
        split_ifs <;> exact ih
    rw [(levelProgression_asteroids _).2.2.2.2.1]
    unfold simulate
    have hmid : ∀ x : State, (0 < x.player.fireRateLaser ∧ 0 < x.player.fireRateBullet) →
        0 < (powerupCollection x).player.fireRateLaser ∧
          0 < (powerupCollection x).player.fireRateBullet := by
      intro x hx
      simp only [powerupCollection]
      split_ifs
      · exact collectLoop_fireRate _ _ hx
      · exact hx
    apply hmid
    show 0 < (asteroidShipCollisions inp _).player.fireRateLaser ∧
      0 < (asteroidShipCollisions inp _).player.fireRateBullet
    unfold asteroidShipCollisions
    rw [(shipLoop_fireRate _ _ _).1, (shipLoop_fireRate _ _ _).2]
    show 0 < (projectileAsteroidCollisions inp _).player.fireRateLaser ∧
      0 < (projectileAsteroidCollisions inp _).player.fireRateBullet
    unfold projectileAsteroidCollisions
    rw [collisionLoop_eq]
    show 0 < (spawnAsteroids inp t).player.fireRateLaser ∧
      0 < (spawnAsteroids inp t).player.fireRateBullet
    rcases spawnAsteroids_cases inp t with ⟨-, he⟩ | ⟨-, a, -, he⟩ <;> rw [he] <;> exact htp

/-! ## Termination of the firing loop -/

/-- With less fuel than whole intervals in the timer the firing loop does not finish. -/
theorem fireLoop_short (interval : ℚ) (proj : Projectile) (hI : 0 < interval) (n : Nat) :
    ∀ (fuel : Nat) (t : ℚ) (ps : List Projectile), n * interval ≤ t → fuel < n →
      fireLoop interval proj fuel t ps = none := by
  induction n with
  | zero =>
    intro fuel t ps _ hf
    omega
  | succ n ih =>
    intro fuel t ps hlo hfuel
    push_cast at hlo
    have hn : (0 : ℚ) ≤ n * interval := mul_nonneg (Nat.cast_nonneg n) (le_of_lt hI)
    have hge : t ≥ interval := by linarith
    cases fuel with
    | zero => simp only [fireLoop, hge, if_true]
    | succ fuel =>
      simp only [fireLoop, hge, if_true]
      exact ih fuel (t - interval) (ps ++ [proj]) (by linarith) (by omega)

/-- The number of whole intervals in a timer value, and the remainder. -/
theorem interval_bounds (rate x : ℚ) (hrate : 0 < rate) (hx : 0 ≤ x) :
    (⌊x * rate⌋₊ : ℚ) * (1 / rate) ≤ x ∧ x < ((⌊x * rate⌋₊ : ℚ) + 1) * (1 / rate) ∧
      0 ≤ x - (⌊x * rate⌋₊ : ℚ) * (1 / rate) ∧ x - (⌊x * rate⌋₊ : ℚ) * (1 / rate) < 1 / rate := by
  have hlo := Nat.floor_le (mul_nonneg hx (le_of_lt hrate))
  have hhi := Nat.lt_floor_add_one (x * rate)
  have h1 : (⌊x * rate⌋₊ : ℚ) * (1 / rate) ≤ x := by
    rw [mul_one_div, div_le_iff₀ hrate]
    exact hlo
  have h2 : x < ((⌊x * rate⌋₊ : ℚ) + 1) * (1 / rate) := by
    rw [mul_one_div, lt_div_iff₀ hrate]
    exact hhi
  refine ⟨h1, h2, by linarith, ?_⟩
  have : ((⌊x * rate⌋₊ : ℚ) + 1) * (1 / rate) = (⌊x * rate⌋₊ : ℚ) * (1 / rate) + 1 / rate := by
    ring
  linarith

/-- The loop of the firing block over exact arithmetic, an idealisation of the single
precision of the code: for a positive fire rate, a frame time `dt ≥ 0` and a shot timer
`≥ 0`, the `while` loop of the shooting block ends after exactly
`⌊(shotTimer + dt) × fireRate⌋` iterations (with that much fuel it returns, with less it
does not), each iteration emits one projectile, and the shot timer it leaves lies in
`[0, 1 / fireRate)`. -/
theorem shooting_exact (inp : Input) (s : State)
    (halive : s.player.alive = true) (hspace : inp.keySpace = true)
    (hrate : 0 < s.player.GetFireRate s.currentWeapon)
    (hdt : 0 ≤ inp.dt) (ht : 0 ≤ s.shotTimer) :
    (∀ fuel : Nat, ⌊(s.shotTimer + inp.dt) * s.player.GetFireRate s.currentWeapon⌋₊ ≤ fuel →
        (shooting fuel inp s).map
            (fun t => (t.projectiles, t.shotTimer)) =
          some (s.projectiles ++
            List.replicate ⌊(s.shotTimer + inp.dt) * s.player.GetFireRate s.currentWeapon⌋₊
              (MakeProjectile s.currentWeapon
                ⟨s.player.GetPosition.x, s.player.GetPosition.y - s.player.GetRadius⟩
                (s.player.GetSpacing s.currentWeapon * s.player.GetFireRate s.currentWeapon)),
            s.shotTimer + inp.dt -
              ⌊(s.shotTimer + inp.dt) * s.player.GetFireRate s.currentWeapon⌋₊ *
                (1 / s.player.GetFireRate s.currentWeapon))) ∧
      (∀ fuel : Nat, fuel < ⌊(s.shotTimer + inp.dt) * s.player.GetFireRate s.currentWeapon⌋₊ →
        shooting fuel inp s = none) ∧
      0 ≤ s.shotTimer + inp.dt -
        ⌊(s.shotTimer + inp.dt) * s.player.GetFireRate s.currentWeapon⌋₊ *
          (1 / s.player.GetFireRate s.currentWeapon) ∧
      s.shotTimer + inp.dt -
        ⌊(s.shotTimer + inp.dt) * s.player.GetFireRate s.currentWeapon⌋₊ *
          (1 / s.player.GetFireRate s.currentWeapon) <
        1 / s.player.GetFireRate s.currentWeapon := by
  have hx : 0 ≤ s.shotTimer + inp.dt := by linarith
  obtain ⟨h1, h2, h3, h4⟩ := interval_bounds _ _ hrate hx
  refine ⟨fun fuel hf => ?_, fun fuel hf => ?_, h3, h4⟩
  · rw [shooting_fire fuel inp s halive hspace hrate hx hf]
    rfl
  · simp only [shooting, halive, hspace, Bool.and_self, if_true]
    rw [fireLoop_short _ _ (one_div_pos.mpr hrate) _ fuel _ _ h1 hf]
    rfl

theorem shooting_exact_example :
    bulletState.player.alive = true ∧ killInput.keySpace = true ∧
      0 < bulletState.player.GetFireRate bulletState.currentWeapon ∧
      0 ≤ killInput.dt ∧ 0 ≤ bulletState.shotTimer ∧
      0 ≤ bulletState.shotTimer + killInput.dt -
        ⌊(bulletState.shotTimer + killInput.dt) *
            bulletState.player.GetFireRate bulletState.currentWeapon⌋₊ *
          (1 / bulletState.player.GetFireRate bulletState.currentWeapon) ∧
      shooting 11 killInput bulletState = none :=
  ⟨rfl, rfl, by rw [bulletState_rate]; norm_num, by norm_num [killInput],
    by norm_num [bulletState, initState],
    (shooting_exact killInput bulletState rfl rfl (by rw [bulletState_rate]; norm_num)
      (by norm_num [killInput]) (by norm_num [bulletState, initState])).2.2.1,
    (shooting_exact killInput bulletState rfl rfl (by rw [bulletState_rate]; norm_num)
      (by norm_num [killInput]) (by norm_num [bulletState, initState])).2.1 11 (by
        have h1 : bulletState.shotTimer = 0 := rfl
        have h2 : killInput.dt = 5 / 9 := rfl
        rw [bulletState_rate, h1, h2]
        have : ⌊((0 : ℚ) + 5 / 9) * 22⌋₊ = 12 := by
          rw [Nat.floor_eq_iff (by norm_num)]
          norm_num
        rw [this]
        decide)⟩

/-! ## The kill counter and the threshold -/

/-- The simulation blocks do not lower the kill counter. -/
theorem simulate_destroyed (inp : Input) (t : State) :
    t.asteroidsDestroyed ≤ (simulate inp t).asteroidsDestroyed := by
  rw [(simulate_fields inp t).2.2.1]
  obtain ⟨events, kept, -, -, -, -, -, -, h7, -⟩ :=
    collisionLoop_events (atCollision inp t).projectiles inp.hitRaw
      { atCollision inp t with projectiles := [] }
  have h7 : (projectileAsteroidCollisions inp (atCollision inp t)).asteroidsDestroyed =
      (spawnAsteroids inp t).asteroidsDestroyed + events.length := h7
  rw [h7, (spawnAsteroids_score inp t).2]
  omega

/-- The kill counter and the level on entry to the level progression block. -/
theorem beforeLevel_destroyed (fuel : Nat) (inp : Input) (s m : State)
    (h : beforeLevel fuel inp s = some m) (hs : 0 ≤ s.asteroidsDestroyed) (hl : 1 ≤ s.level) :
    0 ≤ m.asteroidsDestroyed ∧ 1 ≤ m.level := by
  have hb : beforeLevel fuel inp s = (beforeSpawn fuel inp s).map (simulate inp) := rfl
  rw [hb, Option.map_eq_some'] at h
  obtain ⟨t, ht, rfl⟩ := h
  have hd := simulate_destroyed inp t
  rw [(simulate_level inp t).1]
  rcases beforeSpawn_some fuel inp s t ht with hh | hh
  · rw [hh.2.2.2.1] at hd
    rw [hh.2.2.2.2.1]
    exact ⟨le_trans hs hd, hl⟩
  · rw [hh.2.2.2.1] at hd
    rw [hh.2.2.2.2.1]
    exact ⟨hd, le_refl _⟩

/-- The level progression block: at most one level-up, which zeroes the kill counter
whatever the excess over the threshold; otherwise nothing changes. -/
theorem levelProgression_cases (m : State) :
    (m.asteroidsToNextLevel ≤ m.asteroidsDestroyed →
        (levelProgression m).level = m.level + 1 ∧
        (levelProgression m).asteroidsDestroyed = 0 ∧
        (levelProgression m).asteroidsToNextLevel = 10 + (m.level + 1) * 5) ∧
      (m.asteroidsDestroyed < m.asteroidsToNextLevel → levelProgression m = m) := by
  constructor
  · intro h
    simp only [levelProgression, ge_iff_le, h, if_true]
    exact ⟨trivial, trivial, trivial⟩
  · intro h
    have hn : ¬ (m.asteroidsDestroyed ≥ m.asteroidsToNextLevel) := not_le.mpr h
    simp only [levelProgression, hn, if_false]

/-- C23: in every state reachable from the initial session state
`0 ≤ asteroidsDestroyed < asteroidsToNextLevel`, and so at the end of every frame from
such a state. The frame runs the level progression block once: it raises the level by
at most one, and when it does, it sets `asteroidsDestroyed` to 0 whatever the number of
kills above the threshold, so none is carried over. -/
theorem destroyed_below_threshold (s : State) (hr : Reachable s) :
    0 ≤ s.asteroidsDestroyed ∧ s.asteroidsDestroyed < s.asteroidsToNextLevel ∧
      ∀ (fuel : Nat) (inp : Input) (s1 : State), frame fuel inp s = some s1 →
        0 ≤ s1.asteroidsDestroyed ∧ s1.asteroidsDestroyed < s1.asteroidsToNextLevel ∧
        ∃ m, beforeLevel fuel inp s = some m ∧ s1 = levelProgression m ∧
          (m.asteroidsToNextLevel ≤ m.asteroidsDestroyed →
            s1.level = m.level + 1 ∧ s1.asteroidsDestroyed = 0) ∧
          (m.asteroidsDestroyed < m.asteroidsToNextLevel →
            s1.level = m.level ∧ s1.asteroidsDestroyed = m.asteroidsDestroyed) := by
  have hstep : ∀ (s : State), 0 ≤ s.asteroidsDestroyed → 1 ≤ s.level →
      ∀ (fuel : Nat) (inp : Input) (s1 : State), frame fuel inp s = some s1 →
        0 ≤ s1.asteroidsDestroyed ∧ s1.asteroidsDestroyed < s1.asteroidsToNextLevel ∧
        ∃ m, beforeLevel fuel inp s = some m ∧ s1 = levelProgression m ∧
          (m.asteroidsToNextLevel ≤ m.asteroidsDestroyed →
            s1.level = m.level + 1 ∧ s1.asteroidsDestroyed = 0) ∧
          (m.asteroidsDestroyed < m.asteroidsToNextLevel →
            s1.level = m.level ∧ s1.asteroidsDestroyed = m.asteroidsDestroyed) := by
    intro s hs hl fuel inp s1 hf
    simp only [frame, Option.map_eq_some'] at hf
    obtain ⟨m, hm, rfl⟩ := hf
    obtain ⟨hd, hlev⟩ := beforeLevel_destroyed fuel inp s m hm hs hl
    obtain ⟨hup, hstay⟩ := levelProgression_cases m
    refine ⟨?_, ?_, m, hm, rfl, fun h => ⟨(hup h).1, (hup h).2.1⟩, fun h => ?_⟩
    · rcases le_or_lt m.asteroidsToNextLevel m.asteroidsDestroyed with h | h
      · rw [(hup h).2.1]
      · rw [hstay h]
        exact hd
    · rcases le_or_lt m.asteroidsToNextLevel m.asteroidsDestroyed with h | h
      · rw [(hup h).2.1, (hup h).2.2]
        omega
      · rw [hstay h]
        exact h
    · rw [hstay h]
      exact ⟨rfl, rfl⟩
  have hinv : 0 ≤ s.asteroidsDestroyed ∧ s.asteroidsDestroyed < s.asteroidsToNextLevel := by
    induction hr with
    | init texW u => exact ⟨le_refl _, by simp [initState]⟩
    | @step s s1 fuel inp hrs hf ih =>
      obtain ⟨h1, h2, -⟩ := hstep s ih.1 (reachable_threshold s hrs).1 fuel inp s1 hf
      exact ⟨h1, h2⟩
  exact ⟨hinv.1, hinv.2, hstep s hinv.1 (reachable_threshold s hr).1⟩

theorem frame_levelUp :
    frame 10 killInput (killState 9 (5 / 11) 9) =
      some (levelProgression (killState 9 (5 / 11) 10)) := by
  unfold frame
  rw [beforeLevel_kill 9 (5 / 11) 9 (by norm_num), Option.map_some']

theorem destroyed_below_threshold_witness :
    Reachable (killState 9 (5 / 11) 9) ∧
      (killState 9 (5 / 11) 9).asteroidsDestroyed = 9 ∧
      (killState 9 (5 / 11) 9).asteroidsDestroyed < (killState 9 (5 / 11) 9).asteroidsToNextLevel ∧
      frame 10 killInput (killState 9 (5 / 11) 9) =
        some (levelProgression (killState 9 (5 / 11) 10)) ∧
      (levelProgression (killState 9 (5 / 11) 10)).asteroidsDestroyed = 0 ∧
      (levelProgression (killState 9 (5 / 11) 10)).asteroidsToNextLevel = 20 ∧
      0 ≤ (levelProgression (killState 9 (5 / 11) 10)).asteroidsDestroyed ∧
      (levelProgression (killState 9 (5 / 11) 10)).asteroidsDestroyed <
        (levelProgression (killState 9 (5 / 11) 10)).asteroidsToNextLevel :=
  ⟨reachable_killState 8 (by decide), rfl,
    (destroyed_below_threshold _ (reachable_killState 8 (by decide))).2.1,
    frame_levelUp, by decide, by decide,
    ((destroyed_below_threshold _ (reachable_killState 8 (by decide))).2.2 10 killInput _
      frame_levelUp).1,
    ((destroyed_below_threshold _ (reachable_killState 8 (by decide))).2.2 10 killInput _
      frame_levelUp).2.1⟩

/-! ## First match wins -/

/-- The inner scan finds nothing exactly when the projectile overlaps no asteroid. -/
theorem scanAsteroids_none (p : Projectile) (l : List Asteroid) :
    scanAsteroids p l = none ↔ ∀ b ∈ l, hits p b = false := by
  induction l with
  | nil => simp [scanAsteroids]
  | cons b l ih =>
    simp only [scanAsteroids]
    split_ifs with hb
    · simp only [reduceCtorEq, List.mem_cons, forall_eq_or_imp, false_iff, not_and]
      intro h
      rw [hb] at h
      cases h
    · simp only [Option.map_eq_none', List.mem_cons, forall_eq_or_imp]
      rw [ih]
      constructor
      · intro h
        exact ⟨by simpa using hb, h⟩
      · intro h
        exact h.2

/-- The inner scan stops at the first asteroid in collection order that the projectile
overlaps and erases exactly that one. -/
theorem scanAsteroids_first (p : Projectile) (pre post : List Asteroid) (a : Asteroid)
    (hpre : ∀ b ∈ pre, hits p b = false) (ha : hits p a = true) :
    scanAsteroids p (pre ++ a :: post) = some (a, pre ++ post) := by
  induction pre with
  | nil => simp [scanAsteroids, ha]
  | cons b pre ih =>
    have hb : hits p b = false := hpre b (List.mem_cons_self _ _)
    have h := ih (fun c hc => hpre c (List.mem_cons_of_mem _ hc))
    simp [scanAsteroids, hb, h]

/-- A list in which some asteroid is overlapped splits at the first such asteroid. -/
theorem first_overlap_split (p : Projectile) (l : List Asteroid)
    (h : ¬ ∀ b ∈ l, hits p b = false) :
    ∃ pre a post, l = pre ++ a :: post ∧ (∀ b ∈ pre, hits p b = false) ∧ hits p a = true := by
  induction l with
  | nil => exact absurd (by simp) h
  | cons b l ih =>
    by_cases hb : hits p b = true
    · exact ⟨[], b, l, rfl, by simp, hb⟩
    · have hb : hits p b = false := by simpa using hb
      have hl : ¬ ∀ c ∈ l, hits p c = false := by
        intro hall
        apply h
        intro c hc
        rcases List.mem_cons.mp hc with rfl | hc
        · exact hb
        · exact hall c hc
      obtain ⟨pre, a, post, rfl, hpre, ha⟩ := ih hl
      refine ⟨b :: pre, a, post, rfl, fun c hc => ?_, ha⟩
      rcases List.mem_cons.mp hc with rfl | hc
      · exact hb
      · exact hpre c hc

theorem scanAsteroids_eq_find (p : Projectile) (l : List Asteroid) :
    scanAsteroids p l = (l.find? (hits p)).map fun a => (a, l.erase a) := by
  induction l with
  | nil => rfl
  | cons b l ih =>
    simp only [scanAsteroids]
    by_cases hb : hits p b = true
    · simp [hb]
    · have hb : hits p b = false := by simpa using hb
      simp only [hb, Bool.false_eq_true, if_false, List.find?_cons_of_neg, not_false_eq_true]
      rw [ih]
      cases hf : l.find? (hits p) with
      | none => rfl
      | some a =>
        have ha : hits p a = true := List.find?_some hf
        have hne : b ≠ a := by
          intro he
          rw [he, ha] at hb
          cases hb
        have he : (b :: l).erase a = b :: l.erase a :=
          List.erase_cons_tail (by simpa using hne)
        simp only [Option.map_some', he]

theorem firstMatchSpec_miss (p : Projectile) (ps : List Projectile) (l : List Asteroid)
    (h : ∀ b ∈ l, hits p b = false) :
    firstMatchSpec (p :: ps) l = (p :: (firstMatchSpec ps l).1, (firstMatchSpec ps l).2) := by
  have hscan := (scanAsteroids_none p l).mpr h
  rw [scanAsteroids_eq_find, Option.map_eq_none'] at hscan
  simp only [firstMatchSpec, hscan]

theorem firstMatchSpec_hit (p : Projectile) (ps : List Projectile) (pre post : List Asteroid)
    (a : Asteroid) (hpre : ∀ b ∈ pre, hits p b = false) (ha : hits p a = true) :
    firstMatchSpec (p :: ps) (pre ++ a :: post) = firstMatchSpec ps (pre ++ post) := by
  have hscan := scanAsteroids_first p pre post a hpre ha
  rw [scanAsteroids_eq_find, Option.map_eq_some'] at hscan
  obtain ⟨a1, hf, he⟩ := hscan
  simp only [Prod.mk.injEq] at he
  obtain ⟨rfl, he⟩ := he
  simp only [firstMatchSpec, hf, he]

/-- The outer loop computes the specification on the two collections. -/
theorem collisionLoop_firstMatch (todo : List Projectile) (raw : Nat → Nat) (s : State) :
    (collisionLoop todo raw s).projectiles = s.projectiles ++ (firstMatchSpec todo s.asteroids).1 ∧
      (collisionLoop todo raw s).asteroids = (firstMatchSpec todo s.asteroids).2 := by
  induction todo generalizing raw s with
  | nil => simp [collisionLoop, firstMatchSpec]
  | cons p todo ih =>
    cases hscan : scanAsteroids p s.asteroids with
    | none =>
      have hloop : collisionLoop (p :: todo) raw s =
          collisionLoop todo raw { s with projectiles := s.projectiles ++ [p] } := by
        simp only [collisionLoop, hscan]
      obtain ⟨h1, h2⟩ := ih raw { s with projectiles := s.projectiles ++ [p] }
      rw [hloop, h1, h2, firstMatchSpec_miss p todo s.asteroids ((scanAsteroids_none p _).mp hscan)]
      simp
    | some r =>
      obtain ⟨a, rest⟩ := r
      have hloop := collisionLoop_hit p todo raw s a rest hscan
      have hf := hscan
      rw [scanAsteroids_eq_find, Option.map_eq_some'] at hf
      obtain ⟨a1, hf, he⟩ := hf
      simp only [Prod.mk.injEq] at he
      obtain ⟨rfl, he⟩ := he
      obtain ⟨h1, h2⟩ := ih (resolveHit a1 raw s).2 { (resolveHit a1 raw s).1 with asteroids := rest }
      have hspec : firstMatchSpec (p :: todo) s.asteroids = firstMatchSpec todo rest := by
        simp only [firstMatchSpec, hf, he]
      rw [hloop, h1, h2, hspec]
      exact ⟨by rw [show ({ (resolveHit a1 raw s).1 with asteroids := rest } : State).projectiles =
        (resolveHit a1 raw s).1.projectiles from rfl, (resolveHit_fields a1 raw s).2.2.2.1], rfl⟩

theorem firstMatch_hits :
    hits topLaser farAsteroid = false ∧ hits topLaser topAsteroid = true ∧
      hits topLaser nearAsteroid = true ∧ hits farLaser farAsteroid = false ∧
      hits farLaser nearAsteroid = false := by
  have hr : topLaser.GetRadius = 3 := rfl
  have hf : farLaser.GetRadius = 3 := rfl
  refine ⟨?_, ?_, ?_, ?_, ?_⟩ <;>
    norm_num [hits, distLt, Vector2DistanceSqr, hr, hf, topAsteroid, farAsteroid, nearAsteroid,
      Projectile.GetPosition, Asteroid.GetPosition, Asteroid.GetRadius, Size.toInt] <;>
    norm_num [topLaser, farLaser]

theorem firstMatch_spec_value :
    firstMatchSpec [topLaser, farLaser, topLaser] [farAsteroid, topAsteroid, nearAsteroid] =
      ([farLaser], [farAsteroid]) := by
  obtain ⟨h1, h2, h3, h4, h5⟩ := firstMatch_hits
  have e1 := firstMatchSpec_hit topLaser [farLaser, topLaser] [farAsteroid] [nearAsteroid]
    topAsteroid (by simpa using h1) h2
  have e2 := firstMatchSpec_miss farLaser [topLaser] [farAsteroid, nearAsteroid]
    (by simpa using ⟨h4, h5⟩)
  have e3 := firstMatchSpec_hit topLaser [] [farAsteroid] [] nearAsteroid (by simpa using h1) h3
  simp only [List.cons_append, List.nil_append] at e1 e3
  rw [e1, e2, e3]
  rfl

/-- C21: the projectile-asteroid pass is first-match-wins. A projectile that overlaps no
asteroid still present is kept; a projectile that overlaps one removes the first such
asteroid in collection order, and no other, and is itself removed. On the two collections
the whole pass computes `firstMatchSpec`, and the surviving projectiles and asteroids are
sublists of the collections before the pass, so they keep their relative order. -/
theorem first_match_wins (inp : Input) (s : State) :
    ((projectileAsteroidCollisions inp s).projectiles,
        (projectileAsteroidCollisions inp s).asteroids) =
        firstMatchSpec s.projectiles s.asteroids ∧
      (projectileAsteroidCollisions inp s).projectiles.Sublist s.projectiles ∧
      (projectileAsteroidCollisions inp s).asteroids.Sublist s.asteroids ∧
      (∀ (p : Projectile) (todo : List Projectile) (raw : Nat → Nat) (t : State),
        (∀ b ∈ t.asteroids, hits p b = false) →
        collisionLoop (p :: todo) raw t =
          collisionLoop todo raw { t with projectiles := t.projectiles ++ [p] }) ∧
      ∀ (p : Projectile) (todo : List Projectile) (raw : Nat → Nat) (t : State)
        (pre post : List Asteroid) (a : Asteroid),
        t.asteroids = pre ++ a :: post → (∀ b ∈ pre, hits p b = false) → hits p a = true →
        collisionLoop (p :: todo) raw t =
            collisionLoop todo (resolveHit a raw t).2
              { (resolveHit a raw t).1 with asteroids := pre ++ post } ∧
          (resolveHit a raw t).1.projectiles = t.projectiles := by
  obtain ⟨h1, h2⟩ := collisionLoop_firstMatch s.projectiles inp.hitRaw { s with projectiles := [] }
  obtain ⟨events, kept, e1, -, e3, -, e5, -⟩ :=
    collisionLoop_events s.projectiles inp.hitRaw { s with projectiles := [] }
  refine ⟨?_, ?_, e5, ?_, ?_⟩
  · show ((collisionLoop _ _ _).projectiles, (collisionLoop _ _ _).asteroids) = _
    rw [h1, h2]
    rfl
  · show (collisionLoop _ _ _).projectiles.Sublist _
    rw [e1]
    exact e3
  · intro p todo raw t h
    have hscan := (scanAsteroids_none p t.asteroids).mpr h
    simp only [collisionLoop, hscan]
  · intro p todo raw t pre post a ht hpre ha
    have hscan := scanAsteroids_first p pre post a hpre ha
    rw [← ht] at hscan
    exact ⟨collisionLoop_hit p todo raw t a (pre ++ post) hscan,
      (resolveHit_fields a raw t).2.2.2.1⟩

theorem first_match_wins_witness :
    (∀ b ∈ [farAsteroid], hits topLaser b = false) ∧ hits topLaser topAsteroid = true ∧
      (projectileAsteroidCollisions idleInput firstMatchState).projectiles = [farLaser] ∧
      (projectileAsteroidCollisions idleInput firstMatchState).asteroids = [farAsteroid] ∧
      collisionLoop [topLaser, farLaser, topLaser] idleInput.hitRaw
          { firstMatchState with projectiles := [] } =
        collisionLoop [farLaser, topLaser]
          (resolveHit topAsteroid idleInput.hitRaw { firstMatchState with projectiles := [] }).2
          { (resolveHit topAsteroid idleInput.hitRaw
              { firstMatchState with projectiles := [] }).1 with
            asteroids := [farAsteroid] ++ [nearAsteroid] } :=
  ⟨by simpa using firstMatch_hits.1, firstMatch_hits.2.1,
    congrArg Prod.fst ((first_match_wins idleInput firstMatchState).1.trans firstMatch_spec_value),
    congrArg Prod.snd ((first_match_wins idleInput firstMatchState).1.trans firstMatch_spec_value),
    ((first_match_wins idleInput firstMatchState).2.2.2.2 topLaser [farLaser, topLaser]
      idleInput.hitRaw { firstMatchState with projectiles := [] } [farAsteroid] [nearAsteroid]
      topAsteroid rfl (by simpa using firstMatch_hits.1) firstMatch_hits.2.1).1⟩

/-! ## The asteroid-ship pass -/

theorem shipOverlaps_TakeDamage (p : PlayerShip) (d : Int) :
    shipOverlaps (p.TakeDamage d) = shipOverlaps p := by
  funext a
  simp only [shipOverlaps, PlayerShip.TakeDamage, PlayerShip.GetRadius, Ship.GetPosition,
    Ship.TakeDamage]
  split_ifs <;> rfl

/-- One iteration of the pass on an asteroid that overlaps the alive ship. -/
theorem shipLoop_collide (dt : ℚ) (a : Asteroid) (todo : List Asteroid) (t : State)
    (halive : t.player.alive = true) (hov : shipOverlaps t.player a = true) :
    shipLoop dt (a :: todo) t =
      shipLoop dt todo { t with
        player := t.player.TakeDamage a.GetDamage
        explosions := t.explosions ++
          [Explosion.new a.GetPosition (a.GetRadius * (3 / 2)) (4 / 10) Color.RED] } := by
  unfold shipOverlaps at hov
  simp only [shipLoop, halive, hov, Bool.and_self, if_true]

/-- One iteration of the pass on an asteroid that does not collide. -/
theorem shipLoop_advance (dt : ℚ) (a : Asteroid) (todo : List Asteroid) (t : State)
    (h : (t.player.alive && shipOverlaps t.player a) = false) :
    shipLoop dt (a :: todo) t =
      shipLoop dt todo
        (if (a.Update dt).2 then { t with asteroids := t.asteroids ++ [(a.Update dt).1] }
          else t) := by
  unfold shipOverlaps at h
  simp only [shipLoop, h, Bool.false_eq_true, if_false]
  cases (a.Update dt).2 <;> rfl

theorem shipLoop_split (dt : ℚ) (todo : List Asteroid) (t : State) :
    (shipLoop dt todo t).player.hp =
        t.player.hp - ((collisionSplit (shipOverlaps t.player) t.player.alive t.player.hp
          todo).1.map Asteroid.GetDamage).sum ∧
      (shipLoop dt todo t).explosions =
        t.explosions ++ (collisionSplit (shipOverlaps t.player) t.player.alive t.player.hp
          todo).1.map (fun a =>
            Explosion.new a.GetPosition (a.GetRadius * (3 / 2)) (4 / 10) Color.RED) ∧
      (shipLoop dt todo t).asteroids =
        t.asteroids ++ (collisionSplit (shipOverlaps t.player) t.player.alive t.player.hp
          todo).2.filterMap (fun a =>
            if (a.Update dt).2 then some (a.Update dt).1 else none) := by
  induction todo generalizing t with
  | nil => simp [shipLoop, collisionSplit]
  | cons a todo ih =>
    cases h : (t.player.alive && shipOverlaps t.player a) with
    | true =>
      have halive : t.player.alive = true := (Bool.and_eq_true_iff.mp h).1
      have hov : shipOverlaps t.player a = true := (Bool.and_eq_true_iff.mp h).2
      have hhp : (t.player.TakeDamage a.GetDamage).hp = t.player.hp - a.GetDamage :=
        Ship.TakeDamage_hp t.player.toShip a.GetDamage halive
      have hal : (t.player.TakeDamage a.GetDamage).alive = decide (0 < t.player.hp - a.GetDamage) :=
        Ship.TakeDamage_alive t.player.toShip a.GetDamage halive
      obtain ⟨i1, i2, i3⟩ := ih { t with
        player := t.player.TakeDamage a.GetDamage
        explosions := t.explosions ++
          [Explosion.new a.GetPosition (a.GetRadius * (3 / 2)) (4 / 10) Color.RED] }
      simp only [shipOverlaps_TakeDamage, hhp, hal] at i1 i2 i3
      rw [shipLoop_collide dt a todo t halive hov, i1, i2, i3]
      simp only [collisionSplit, h, if_true, List.map_cons, List.sum_cons, List.append_assoc,
        List.singleton_append]
      exact ⟨by ring, trivial, trivial⟩
    | false =>
      rw [shipLoop_advance dt a todo t h]
      simp only [collisionSplit, h, Bool.false_eq_true, if_false]
      cases hu : (a.Update dt).2 with
      | true =>
        obtain ⟨i1, i2, i3⟩ := ih { t with asteroids := t.asteroids ++ [(a.Update dt).1] }
        simp only [if_true]
        rw [i1, i2, i3, List.filterMap_cons_some (by rw [hu]; rfl)]
        simp
      | false =>
        obtain ⟨i1, i2, i3⟩ := ih t
        simp only [Bool.false_eq_true, if_false]
        rw [i1, i2, i3, List.filterMap_cons_none (by rw [hu]; rfl)]
        exact ⟨rfl, rfl, rfl⟩

theorem rammed_overlaps :
    shipOverlaps rammedState.player starAsteroid = true ∧
      shipOverlaps rammedState.player cornerAsteroid = false := by
  constructor <;>
    norm_num [shipOverlaps, distLt, Vector2DistanceSqr, rammedState, initState, PlayerShip.new,
      Ship.new, Ship.GetPosition, PlayerShip.GetRadius, Asteroid.GetPosition, Asteroid.GetRadius,
      starAsteroid, cornerAsteroid, topAsteroid, Size.toInt, C_WIDTH, C_HEIGHT]

theorem rammed_split :
    collisionSplit (shipOverlaps rammedState.player) rammedState.player.alive rammedState.player.hp
        rammedState.asteroids =
      ([starAsteroid, starAsteroid], [cornerAsteroid, starAsteroid]) := by
  have ha : rammedState.player.alive = true := rfl
  have hh : rammedState.player.hp = 100 := rfl
  have hl : rammedState.asteroids = [starAsteroid, cornerAsteroid, starAsteroid, starAsteroid] :=
    rfl
  have hd : starAsteroid.GetDamage = 80 := rfl
  rw [ha, hh, hl]
  simp [collisionSplit, rammed_overlaps.1, rammed_overlaps.2, hd]

theorem rammed_advance :
    [cornerAsteroid, starAsteroid].filterMap
        (fun a => if (a.Update idleInput.dt).2 then some (a.Update idleInput.dt).1 else none) =
      [cornerAsteroid,
        { starAsteroid with transform := { position := ⟨800, 452⟩, rotation := 0 } }] := by
  have hdt : idleInput.dt = 1 / 60 := rfl
  have hc : cornerAsteroid.Update (1 / 60) = (cornerAsteroid, true) := by
    norm_num [Asteroid.Update, Asteroid.GetRadius, Vector2Add, Vector2Scale, cornerAsteroid,
      topAsteroid, Size.toInt, screenW, screenH]
  have hs : starAsteroid.Update (1 / 60) =
      ({ starAsteroid with transform := { position := ⟨800, 452⟩, rotation := 0 } }, true) := by
    norm_num [Asteroid.Update, Asteroid.GetRadius, Vector2Add, Vector2Scale, starAsteroid,
      Size.toInt, screenW, screenH]
  rw [hdt]
  simp only [List.filterMap_cons, hc, hs, if_true, List.filterMap_nil]

/-- C22: the asteroid-ship pass examines the asteroids in collection order. While the ship
is alive, an asteroid that overlaps it applies its `GetDamage` to the ship, adds one
explosion and is removed without being advanced; every other asteroid is advanced by
`Update` and removed only if it left the screen. When a collision brings hp to 0 or below,
the rest of the pass only advances the remaining asteroids. So hp after the pass is hp
before it minus the total damage of the asteroids removed by collision, which are those
that `collisionSplit` selects. -/
theorem ship_pass_damage (inp : Input) (s : State) :
    (asteroidShipCollisions inp s).player.hp =
        s.player.hp - ((collisionSplit (shipOverlaps s.player) s.player.alive s.player.hp
          s.asteroids).1.map Asteroid.GetDamage).sum ∧
      (asteroidShipCollisions inp s).explosions =
        s.explosions ++ (collisionSplit (shipOverlaps s.player) s.player.alive s.player.hp
          s.asteroids).1.map (fun a =>
            Explosion.new a.GetPosition (a.GetRadius * (3 / 2)) (4 / 10) Color.RED) ∧
      (asteroidShipCollisions inp s).asteroids =
        (collisionSplit (shipOverlaps s.player) s.player.alive s.player.hp
          s.asteroids).2.filterMap (fun a =>
            if (a.Update inp.dt).2 then some (a.Update inp.dt).1 else none) ∧
      (∀ (a : Asteroid) (todo : List Asteroid) (t : State),
        t.player.alive = true → shipOverlaps t.player a = true →
        shipLoop inp.dt (a :: todo) t =
            shipLoop inp.dt todo { t with
              player := t.player.TakeDamage a.GetDamage
              explosions := t.explosions ++
                [Explosion.new a.GetPosition (a.GetRadius * (3 / 2)) (4 / 10) Color.RED] } ∧
          (t.player.TakeDamage a.GetDamage).hp = t.player.hp - a.GetDamage ∧
          (t.player.hp - a.GetDamage ≤ 0 →
            shipLoop inp.dt (a :: todo) t =
              { t with
                player := t.player.TakeDamage a.GetDamage
                explosions := t.explosions ++
                  [Explosion.new a.GetPosition (a.GetRadius * (3 / 2)) (4 / 10) Color.RED]
                asteroids := t.asteroids ++ todo.filterMap (fun b =>
                  if (b.Update inp.dt).2 then some (b.Update inp.dt).1 else none) })) ∧
      ∀ (a : Asteroid) (todo : List Asteroid) (t : State),
        (t.player.alive && shipOverlaps t.player a) = false →
        shipLoop inp.dt (a :: todo) t =
          shipLoop inp.dt todo
            (if (a.Update inp.dt).2 then
              { t with asteroids := t.asteroids ++ [(a.Update inp.dt).1] }
            else t) := by
  obtain ⟨h1, h2, h3⟩ := shipLoop_split inp.dt s.asteroids { s with asteroids := [] }
  refine ⟨h1, h2, ?_, ?_, fun a todo t h => shipLoop_advance inp.dt a todo t h⟩
  · show (shipLoop _ _ _).asteroids = _
    rw [h3]
    rfl
  · intro a todo t halive hov
    refine ⟨shipLoop_collide inp.dt a todo t halive hov,
      Ship.TakeDamage_hp t.player.toShip a.GetDamage halive, fun hle => ?_⟩
    have hdead : (t.player.TakeDamage a.GetDamage).alive = false := by
      have hal : (t.player.TakeDamage a.GetDamage).alive =
          decide (0 < t.player.hp - a.GetDamage) :=
        Ship.TakeDamage_alive t.player.toShip a.GetDamage halive
      rw [hal]
      exact decide_eq_false (not_lt.mpr hle)
    rw [shipLoop_collide inp.dt a todo t halive hov, shipLoop_dead inp.dt todo _ hdead]

theorem ship_pass_damage_witness :
    rammedState.player.hp = 100 ∧ starAsteroid.GetDamage = 80 ∧
      rammedState.asteroids = [starAsteroid, cornerAsteroid, starAsteroid, starAsteroid] ∧
      (asteroidShipCollisions idleInput rammedState).player.hp = -60 ∧
      (asteroidShipCollisions idleInput rammedState).explosions =
        [Explosion.new ⟨800, 450⟩ 96 (4 / 10) Color.RED,
          Explosion.new ⟨800, 450⟩ 96 (4 / 10) Color.RED] ∧
      (asteroidShipCollisions idleInput rammedState).asteroids =
        [cornerAsteroid,
          { starAsteroid with transform := { position := ⟨800, 452⟩, rotation := 0 } }] :=
  ⟨rfl, rfl, rfl,
    (ship_pass_damage idleInput rammedState).1.trans (by rw [rammed_split]; rfl),
    (ship_pass_damage idleInput rammedState).2.1.trans (by
      rw [rammed_split]
      norm_num [rammedState, initState, starAsteroid, Asteroid.GetPosition, Asteroid.GetRadius,
        Size.toInt]),
    (ship_pass_damage idleInput rammedState).2.2.1.trans (by rw [rammed_split, rammed_advance])⟩

/-! ## The firing block in single precision -/

theorem bitLengthAux_le (fuel : Nat) : ∀ n : Nat, n ≠ 0 → n ≤ fuel →
    2 ^ (bitLengthAux fuel n - 1) ≤ n := by
  induction fuel with
  | zero =>
    intro n hn hf
    exact absurd (Nat.le_zero.mp hf) hn
  | succ fuel ih =>
    intro n hn hf
    simp only [bitLengthAux, hn, if_false, Nat.add_sub_cancel]
    by_cases h2 : n / 2 = 0
    · have h0 : bitLengthAux fuel (n / 2) = 0 := by
        rw [h2]
        cases fuel <;> simp [bitLengthAux]
      rw [h0]
      simp only [pow_zero]
      omega
    · have hle : n / 2 ≤ fuel := by omega
      have h1 := ih (n / 2) h2 hle
      have hpos : 1 ≤ bitLengthAux fuel (n / 2) := by
        cases fuel with
        | zero => omega
        | succ f => simp [bitLengthAux, h2]
      have hpow : 2 ^ bitLengthAux fuel (n / 2) = 2 * 2 ^ (bitLengthAux fuel (n / 2) - 1) := by
        rw [← pow_succ']
        congr 1
        omega
      rw [hpow]
      omega

theorem bitLength_le (n : Nat) (hn : n ≠ 0) : 2 ^ (bitLength n - 1) ≤ n :=
  bitLengthAux_le n n hn (le_refl n)

/-- The digit that rounding drops is small: `d = q × 2^e` is at most `p / 2^23` unless
nothing is dropped beyond the integer part. -/
theorem roundF32_exponent (p q : Nat) (hq : 0 < q) :
    bitLength (p / q) - 24 = 0 ∨ 2 ^ 23 * (q * 2 ^ (bitLength (p / q) - 24)) ≤ p := by
  by_cases he : bitLength (p / q) - 24 = 0
  · exact Or.inl he
  · right
    have hn : p / q ≠ 0 := by
      intro h0
      apply he
      rw [h0]
      rfl
    have h1 := bitLength_le (p / q) hn
    have hexp : bitLength (p / q) - 1 = 23 + (bitLength (p / q) - 24) := by omega
    rw [hexp, pow_add] at h1
    have h2 : 2 ^ 23 * 2 ^ (bitLength (p / q) - 24) * q ≤ p :=
      (Nat.le_div_iff_mul_le hq).mp h1
    calc 2 ^ 23 * (q * 2 ^ (bitLength (p / q) - 24))
        = 2 ^ 23 * 2 ^ (bitLength (p / q) - 24) * q := by ring
      _ ≤ p := h2

/-- Rounding an integer number of units changes it by at most `2^-24` of itself. -/
theorem roundF32_near (p : Nat) :
    2 ^ 24 * roundF32 p 1 ≤ 2 ^ 24 * p + p ∧ 2 ^ 24 * p ≤ 2 ^ 24 * roundF32 p 1 + p := by
  have hexp := roundF32_exponent p 1 one_pos
  simp only [roundF32, Nat.div_one, one_mul] at hexp ⊢
  generalize bitLength p - 24 = e at hexp ⊢
  have hd : 0 < 2 ^ e := pow_pos (by decide) e
  have hdiv := Nat.div_add_mod p (2 ^ e)
  have hmod := Nat.mod_lt p hd
  have he1 : e = 0 → 2 ^ e = 1 := fun h => by rw [h]; rfl
  generalize p / 2 ^ e = m at hdiv ⊢
  generalize p % 2 ^ e = r at hdiv hmod ⊢
  have hm1 : (m + 1) * 2 ^ e = m * 2 ^ e + 2 ^ e := by ring
  have hm2 : 2 ^ e * m = m * 2 ^ e := by ring
  rw [hm2] at hdiv
  generalize m * 2 ^ e = x at hdiv hm1 ⊢
  rw [hm1]
  generalize 2 ^ e = d at *
  have hcases : d = 1 ∨ 2 ^ 23 * d ≤ p := hexp.imp he1 id
  norm_num at hcases ⊢
  split_ifs <;> omega

/-- A quotient of at least one unit does not round to zero. -/
theorem roundF32_pos (p q : Nat) (hq : 0 < q) (hpq : q ≤ p) : 0 < roundF32 p q := by
  have hexp := roundF32_exponent p q hq
  simp only [roundF32]
  generalize bitLength (p / q) - 24 = e at hexp ⊢
  have hd : 0 < 2 ^ e := pow_pos (by decide) e
  have hm : 0 < p / (q * 2 ^ e) := by
    apply Nat.div_pos _ (Nat.mul_pos hq hd)
    rcases hexp with he | he
    · rw [he, pow_zero, mul_one]
      exact hpq
    · calc q * 2 ^ e ≤ 2 ^ 23 * (q * 2 ^ e) := Nat.le_mul_of_pos_left _ (by decide)
        _ ≤ p := he
  split_ifs
  · exact Nat.mul_pos hm hd
  · exact Nat.mul_pos (Nat.succ_pos _) hd
  · exact Nat.mul_pos hm hd
  · exact Nat.mul_pos (Nat.succ_pos _) hd

/-- The interval `1.f / fireRate` of a positive finite fire rate is positive. -/
theorem interval_pos (fireRate : Nat) (h0 : 0 < fireRate) (h1 : fireRate ≤ F32.maxFinite) :
    0 < F32.div F32.one fireRate := by
  apply roundF32_pos _ _ h0
  refine le_trans h1 ?_
  unfold F32.maxFinite F32.one
  norm_num

/-- The loop in single precision, from a shot timer `t` of at most `B ≤ 2^23 × interval`:
every subtraction lowers the timer by at least half the interval, so that `fuel` with
`2 t < fuel × interval` is enough; and with `n` the number of iterations and `r` the timer
left, `t` and `r + n × interval` differ by at most `n × B / 2^24`. -/
theorem fireLoopF_run (i B : Nat) (hB : B ≤ 2 ^ 23 * i) :
    ∀ (fuel t c : Nat), t ≤ B → 2 * t < fuel * i →
      ∃ r n, fireLoopF i fuel t c = some (r, c + n) ∧ r < i ∧ r ≤ t ∧
        2 ^ 24 * (r + n * i) ≤ 2 ^ 24 * t + n * B ∧
        2 ^ 24 * t ≤ 2 ^ 24 * (r + n * i) + n * B := by
  intro fuel
  induction fuel with
  | zero =>
    intro t c _ hf
    omega
  | succ fuel ih =>
    intro t c ht hf
    by_cases hlt : t ≥ i
    · obtain ⟨h1, h2⟩ := roundF32_near (t - i)
      have hsub : F32.sub t i = roundF32 (t - i) 1 := rfl
      have hf2 : (fuel + 1) * i = fuel * i + i := by ring
      norm_num at h1 h2 hB
      obtain ⟨r, n, hr, hri, hrt, hb1, hb2⟩ := ih (F32.sub t i) (c + 1) (by rw [hsub]; omega)
        (by rw [hsub]; omega)
      refine ⟨r, n + 1, ?_, hri, ?_, ?_, ?_⟩
      · simp only [fireLoopF, hlt, if_true]
        rw [hr]
        congr 2
        omega
      · rw [hsub] at hrt
        omega
      · have hn : (n + 1) * i = n * i + i := by ring
        have hn2 : (n + 1) * B = n * B + B := by ring
        rw [hsub] at hb1
        norm_num at hb1 ⊢
        omega
      · have hn : (n + 1) * i = n * i + i := by ring
        have hn2 : (n + 1) * B = n * B + B := by ring
        rw [hsub] at hb2
        norm_num at hb2 ⊢
        omega
    · refine ⟨t, 0, ?_, by omega, le_refl t, by omega, by omega⟩
      simp only [fireLoopF, hlt, if_false]
      rfl

/-- The loop ends after exactly as many iterations as it counts: less fuel is not
enough. -/
theorem fireLoopF_short (i : Nat) : ∀ (fuel t c r n : Nat),
    fireLoopF i fuel t c = some (r, c + n) → ∀ fuel2 : Nat, fuel2 < n →
      fireLoopF i fuel2 t c = none := by
  intro fuel
  induction fuel with
  | zero =>
    intro t c r n h fuel2 hlt
    simp only [fireLoopF] at h
    split_ifs at h with hc
    simp only [Option.some.injEq, Prod.mk.injEq] at h
    omega
  | succ fuel ih =>
    intro t c r n h fuel2 hlt
    simp only [fireLoopF] at h
    split_ifs at h with hc
    · cases n with
      | zero => omega
      | succ n =>
        have h2 : fireLoopF i fuel (F32.sub t i) (c + 1) = some (r, (c + 1) + n) := by
          rw [h]
          congr 2
          omega
        cases fuel2 with
        | zero => simp only [fireLoopF, hc, if_true]
        | succ f2 =>
          simp only [fireLoopF, hc, if_true]
          exact ih _ _ _ _ h2 f2 (by omega)
    · simp only [Option.some.injEq, Prod.mk.injEq] at h
      omega

/-- When the subtraction of the interval is absorbed by rounding, the loop does not
end. -/
theorem fireLoopF_stuck (i t : Nat) (hge : t ≥ i) (habs : F32.sub t i = t) :
    ∀ fuel c : Nat, fireLoopF i fuel t c = none := by
  intro fuel
  induction fuel with
  | zero =>
    intro c
    simp only [fireLoopF, hge, if_true]
  | succ fuel ih =>
    intro c
    simp only [fireLoopF, hge, if_true, habs]
    exact ih (c + 1)

/-- The firing branch over frames in single precision. With `B ≤ 2^23 × interval` a bound
on the shot timer after `shotTimer += dt` (`(1 + 2^-24) × (interval + dt) ≤ B` for every
frame time) and fuel with `2 B < fuel × interval`, every frame's loop ends, and the sum
`t + T` of the first shot timer and the frame times differs from `r + N × interval`, the
last shot timer plus one interval for each projectile, by at most `B / 2^24` for each of
the `J + N` rounded additions and subtractions. -/
theorem fireFramesF_run (fireRate B fuel : Nat)
    (hB : B ≤ 2 ^ 23 * F32.div F32.one fireRate)
    (hfuel : 2 * B < fuel * F32.div F32.one fireRate) :
    ∀ (dts : List Nat) (t : Nat), t < F32.div F32.one fireRate →
      (∀ dt ∈ dts, (2 ^ 24 + 1) * (F32.div F32.one fireRate + dt) ≤ 2 ^ 24 * B) →
      ∃ r N, fireFramesF fuel fireRate dts t = some (r, N) ∧ r < F32.div F32.one fireRate ∧
        2 ^ 24 * (r + N * F32.div F32.one fireRate) ≤
          2 ^ 24 * (t + dts.sum) + (dts.length + N) * B ∧
        2 ^ 24 * (t + dts.sum) ≤
          2 ^ 24 * (r + N * F32.div F32.one fireRate) + (dts.length + N) * B := by
  generalize hi : F32.div F32.one fireRate = i at *
  intro dts
  induction dts with
  | nil =>
    intro t ht _
    exact ⟨t, 0, rfl, ht, by simp, by simp⟩
  | cons dt dts ih =>
    intro t ht hdts
    have hdt := hdts dt (List.mem_cons_self _ _)
    obtain ⟨a1, a2⟩ := roundF32_near (t + dt)
    have hadd : F32.add t dt = roundF32 (t + dt) 1 := rfl
    norm_num at hdt a1 a2 hB
    obtain ⟨r1, n, hr1, hr1i, -, hb1, hb2⟩ := fireLoopF_run i B (by norm_num; exact hB) fuel
      (F32.add t dt) 0 (by rw [hadd]; omega) (by rw [hadd]; omega)
    rw [Nat.zero_add] at hr1
    obtain ⟨r, N, hr, hri, hc1, hc2⟩ := ih r1 hr1i
      (fun d hd => hdts d (List.mem_cons_of_mem _ hd))
    have hstep : shootingF fuel fireRate dt t = some (r1, n) := by
      unfold shootingF
      rw [hi]
      exact hr1
    refine ⟨r, n + N, ?_, hri, ?_, ?_⟩
    · simp only [fireFramesF, hstep, hr, Option.map_some']
    · have e1 : (n + N) * i = n * i + N * i := by ring
      have e2 : ((dt :: dts).length + (n + N)) * B = (dts.length + N) * B + n * B + B := by
        simp only [List.length_cons]
        ring
      rw [hadd] at hb1
      rw [List.sum_cons, e1, e2]
      generalize (dts.length + N) * B = x at hc1 ⊢
      generalize n * B = y at hb1 ⊢
      generalize n * i = u at hb1 ⊢
      generalize N * i = v at hc1 ⊢
      generalize roundF32 (t + dt) 1 = w at a1 a2 hb1
      generalize dts.sum = T at hc1 ⊢
      norm_num at hb1 hc1 ⊢
      omega
    · have e1 : (n + N) * i = n * i + N * i := by ring
      have e2 : ((dt :: dts).length + (n + N)) * B = (dts.length + N) * B + n * B + B := by
        simp only [List.length_cons]
        ring
      rw [hadd] at hb2
      rw [List.sum_cons, e1, e2]
      generalize (dts.length + N) * B = x at hc2 ⊢
      generalize n * B = y at hb2 ⊢
      generalize n * i = u at hb2 ⊢
      generalize N * i = v at hc2 ⊢
      generalize roundF32 (t + dt) 1 = w at a1 a2 hb2
      generalize dts.sum = T at hc2 ⊢
      norm_num at hb2 hc2 ⊢
      omega

theorem half_second_floor : ⌊(((0 : ℚ) + 1 / 2) * 22)⌋₊ = 11 := by
  have h : ((0 : ℚ) + 1 / 2) * 22 = ((11 : ℕ) : ℚ) := by norm_num
  rw [h, Nat.floor_natCast]

theorem one_second_floor : ⌊((1 : ℚ) * 22)⌋₊ = 22 := by
  have h : (1 : ℚ) * 22 = ((22 : ℕ) : ℚ) := by norm_num
  rw [h, Nat.floor_natCast]

set_option maxRecDepth 1000000 in
theorem absorbed_subtraction :
    F32.add 0 (F32.ofRatio (2 ^ 21) 1) = 2 ^ 170 ∧
      F32.div F32.one (F32.ofRatio 18 1) ≤ 2 ^ 170 ∧
      F32.sub (2 ^ 170) (F32.div F32.one (F32.ofRatio 18 1)) = 2 ^ 170 := by
  decide

set_option maxRecDepth 1000000 in
/-- C24, as stated, fails in the arithmetic of the code. With the bullet weapon (22/s), a
shot timer of 0 and a frame of 0.5 s the loop runs 10 times, not `⌊0.5 × 22⌋ = 11` times:
`1.f / 22.f` is rounded up, and ten subtractions leave a timer just below it. With the
laser (18/s) and a frame of `2^21` s the loop does not end: the spacing of `float` at
`2^21` is 1/4, so that subtracting the interval 1/18 gives `2^21` again. -/
theorem fire_loop_counterexample :
    (shootingF 24 (F32.ofRatio 22 1) (F32.ofRatio 1 2) 0).map Prod.snd = some 10 ∧
      ⌊(((0 : ℚ) + 1 / 2) * 22)⌋₊ = 11 ∧
      ∀ fuel : Nat, shootingF fuel (F32.ofRatio 18 1) (F32.ofRatio (2 ^ 21) 1) 0 = none := by
  refine ⟨by decide, half_second_floor, fun fuel => ?_⟩
  obtain ⟨h1, h2, h3⟩ := absorbed_subtraction
  unfold shootingF
  rw [h1]
  exact fireLoopF_stuck _ _ h2 h3 fuel 0

/-- C24, amended: in single precision, for a finite fire rate > 0, `dt ≥ 0` and a shot
timer ≥ 0 such that `t = shotTimer + dt` (rounded) is finite and at most
`2^23 × interval`, where `interval = 1.f / fireRate`: the interval is positive, and the
while loop ends, given fuel for `2 t / interval` iterations. It emits one projectile per
iteration, `n` in all, and less fuel than `n` does not end it; `n × interval ≤ 2 t`; the
timer `r` it leaves satisfies `0 ≤ r < interval`; and `t` differs from `r + n × interval`
by at most `n × t / 2^24`, the rounding of the `n` subtractions. -/
theorem fire_loop_rounded (fireRate dt shotTimer fuel : Nat)
    (hrate : 0 < fireRate) (hfin : fireRate ≤ F32.maxFinite)
    (hsum : F32.add shotTimer dt ≤ F32.maxFinite)
    (hB : F32.add shotTimer dt ≤ 2 ^ 23 * F32.div F32.one fireRate)
    (hfuel : 2 * F32.add shotTimer dt < fuel * F32.div F32.one fireRate) :
    0 < F32.div F32.one fireRate ∧
      (shootingF fuel fireRate dt shotTimer).isSome = true ∧
      ∀ r n : Nat, shootingF fuel fireRate dt shotTimer = some (r, n) →
        r < F32.div F32.one fireRate ∧ r ≤ F32.maxFinite ∧
        (∀ fuel2 : Nat, fuel2 < n → shootingF fuel2 fireRate dt shotTimer = none) ∧
        n * F32.div F32.one fireRate ≤ 2 * F32.add shotTimer dt ∧
        2 ^ 24 * (r + n * F32.div F32.one fireRate) ≤
          2 ^ 24 * F32.add shotTimer dt + n * F32.add shotTimer dt ∧
        2 ^ 24 * F32.add shotTimer dt ≤
          2 ^ 24 * (r + n * F32.div F32.one fireRate) + n * F32.add shotTimer dt := by
  obtain ⟨r, n, hr, hri, hrt, hb1, hb2⟩ := fireLoopF_run (F32.div F32.one fireRate)
    (F32.add shotTimer dt) hB fuel (F32.add shotTimer dt) 0 (le_refl _) hfuel
  rw [Nat.zero_add] at hr
  have hrun : shootingF fuel fireRate dt shotTimer = some (r, n) := hr
  refine ⟨interval_pos fireRate hrate hfin, by rw [hrun]; rfl, fun r2 n2 h2 => ?_⟩
  rw [hrun] at h2
  simp only [Option.some.injEq, Prod.mk.injEq] at h2
  obtain ⟨rfl, rfl⟩ := h2
  refine ⟨hri, le_trans hrt hsum, fun fuel2 hlt => ?_, ?_, hb1, hb2⟩
  · exact fireLoopF_short _ fuel _ 0 r n (by rw [Nat.zero_add]; exact hr) fuel2 hlt
  · have hv : n * F32.add shotTimer dt ≤ 2 ^ 23 * (n * F32.div F32.one fireRate) := by
      calc n * F32.add shotTimer dt ≤ n * (2 ^ 23 * F32.div F32.one fireRate) :=
            Nat.mul_le_mul_left n hB
        _ = 2 ^ 23 * (n * F32.div F32.one fireRate) := by ring
    generalize F32.div F32.one fireRate = i at *
    generalize F32.add shotTimer dt = t at *
    generalize n * i = u at *
    generalize n * t = v at *
    norm_num at hb1 hv ⊢
    omega

set_option maxRecDepth 1000000 in
theorem bullet_half_second :
    shootingF 22 (F32.ofRatio 22 1) (F32.ofRatio 1 2) 0 =
      some (32437384725266560191665234762063858028773376, 10) := by
  decide

set_option maxRecDepth 1000000 in
theorem fire_loop_rounded_witness :
    0 < F32.ofRatio 22 1 ∧ F32.ofRatio 22 1 ≤ F32.maxFinite ∧
      F32.add 0 (F32.ofRatio 1 2) ≤ F32.maxFinite ∧
      F32.add 0 (F32.ofRatio 1 2) ≤ 2 ^ 23 * F32.div F32.one (F32.ofRatio 22 1) ∧
      2 * F32.add 0 (F32.ofRatio 1 2) < 22 * F32.div F32.one (F32.ofRatio 22 1) ∧
      shootingF 22 (F32.ofRatio 22 1) (F32.ofRatio 1 2) 0 =
        some (32437384725266560191665234762063858028773376, 10) ∧
      32437384725266560191665234762063858028773376 < F32.div F32.one (F32.ofRatio 22 1) ∧
      shootingF 9 (F32.ofRatio 22 1) (F32.ofRatio 1 2) 0 = none :=
  ⟨by decide, by decide, by decide, by decide, by decide, bullet_half_second,
    ((fire_loop_rounded (F32.ofRatio 22 1) (F32.ofRatio 1 2) 0 22 (by decide) (by decide)
      (by decide) (by decide) (by decide)).2.2
      32437384725266560191665234762063858028773376 10 bullet_half_second).1,
    ((fire_loop_rounded (F32.ofRatio 22 1) (F32.ofRatio 1 2) 0 22 (by decide) (by decide)
      (by decide) (by decide) (by decide)).2.2
      32437384725266560191665234762063858028773376 10 bullet_half_second).2.2.1 9
      (by decide)⟩

set_option maxRecDepth 1000000 in
/-- C11, as stated, fails in the arithmetic of the code. With the bullet weapon (22/s)
and a shot timer of 0, 64 frames of 1/64 s, exactly 1 s in all, emit 21 projectiles, not
`⌊1 × 22⌋ = 22`. And the number depends on the split: the laser (18/s) emits 18
projectiles in 64 frames of 1/64 s and 17 in one frame of 1 s. -/
theorem fire_count_counterexample :
    (List.replicate 64 (F32.ofRatio 1 64)).sum = F32.one ∧
      (fireFramesF 30 (F32.ofRatio 22 1) (List.replicate 64 (F32.ofRatio 1 64)) 0).map
        Prod.snd = some 21 ∧
      ⌊((1 : ℚ) * 22)⌋₊ = 22 ∧
      (fireFramesF 30 (F32.ofRatio 18 1) (List.replicate 64 (F32.ofRatio 1 64)) 0).map
        Prod.snd = some 18 ∧
      (fireFramesF 30 (F32.ofRatio 18 1) [F32.one] 0).map Prod.snd = some 17 :=
  ⟨by decide, by decide, one_second_floor, by decide, by decide⟩

/-- C11, amended: in single precision, with the ship alive, the fire input held on every
frame, the weapon unchanged, a finite fire rate > 0 and the shot timer initially 0, let
`interval = 1.f / fireRate` and let `B ≤ 2^23 × interval` be a finite bound with
`(1 + 2^-24) × (interval + dt) ≤ B` for every frame time `dt`. Then over any sequence of
`J` such frame times with sum `T` every frame's loop ends, given fuel for `2 B / interval`
iterations, and the total number `N` of projectiles and the last shot timer `r` satisfy
`0 ≤ r < interval` and `|T − (r + N × interval)| ≤ (J + N) × B / 2^24`: `N` is
`T / interval` up to the remainder and the rounding of the `J` additions and `N`
subtractions. -/
theorem fire_count_rounded (fireRate B fuel : Nat) (dts : List Nat)
    (hrate : 0 < fireRate) (hfin : fireRate ≤ F32.maxFinite)
    (hB : B ≤ 2 ^ 23 * F32.div F32.one fireRate) (hBfin : B ≤ F32.maxFinite)
    (hfuel : 2 * B < fuel * F32.div F32.one fireRate)
    (hdts : ∀ dt ∈ dts, (2 ^ 24 + 1) * (F32.div F32.one fireRate + dt) ≤ 2 ^ 24 * B) :
    (fireFramesF fuel fireRate dts 0).isSome = true ∧
      ∀ r N : Nat, fireFramesF fuel fireRate dts 0 = some (r, N) →
        r < F32.div F32.one fireRate ∧ r ≤ F32.maxFinite ∧
        2 ^ 24 * (r + N * F32.div F32.one fireRate) ≤
          2 ^ 24 * dts.sum + (dts.length + N) * B ∧
        2 ^ 24 * dts.sum ≤
          2 ^ 24 * (r + N * F32.div F32.one fireRate) + (dts.length + N) * B := by
  have hi := interval_pos fireRate hrate hfin
  obtain ⟨r, N, hr, hri, hb1, hb2⟩ := fireFramesF_run fireRate B fuel hB hfuel dts 0 hi hdts
  rw [Nat.zero_add] at hb1 hb2
  refine ⟨by rw [hr]; rfl, fun r2 N2 h2 => ?_⟩
  rw [hr] at h2
  simp only [Option.some.injEq, Prod.mk.injEq] at h2
  obtain ⟨rfl, rfl⟩ := h2
  refine ⟨hri, ?_, hb1, hb2⟩
  cases dts with
  | nil =>
    simp only [fireFramesF, Option.some.injEq, Prod.mk.injEq] at hr
    rw [← hr.1]
    exact Nat.zero_le _
  | cons dt dts =>
    have h := hdts dt (List.mem_cons_self _ _)
    norm_num at h
    omega

set_option maxRecDepth 1000000 in
theorem bullet_one_second :
    fireFramesF 5 (F32.ofRatio 22 1) (List.replicate 64 (F32.ofRatio 1 64)) 0 =
      some (32437427260562425308973167683889786999799808, 21) := by
  decide

set_option maxRecDepth 1000000 in
theorem fire_count_rounded_witness :
    0 < F32.ofRatio 22 1 ∧ F32.ofRatio 22 1 ≤ F32.maxFinite ∧
      2 * F32.div F32.one (F32.ofRatio 22 1) ≤ 2 ^ 23 * F32.div F32.one (F32.ofRatio 22 1) ∧
      2 * F32.div F32.one (F32.ofRatio 22 1) ≤ F32.maxFinite ∧
      2 * (2 * F32.div F32.one (F32.ofRatio 22 1)) < 5 * F32.div F32.one (F32.ofRatio 22 1) ∧
      (2 ^ 24 + 1) * (F32.div F32.one (F32.ofRatio 22 1) + F32.ofRatio 1 64) ≤
        2 ^ 24 * (2 * F32.div F32.one (F32.ofRatio 22 1)) ∧
      fireFramesF 5 (F32.ofRatio 22 1) (List.replicate 64 (F32.ofRatio 1 64)) 0 =
        some (32437427260562425308973167683889786999799808, 21) ∧
      (32437427260562425308973167683889786999799808 : Nat) <
        F32.div F32.one (F32.ofRatio 22 1) ∧
      2 ^ 24 * (List.replicate 64 (F32.ofRatio 1 64)).sum ≤
        2 ^ 24 * (32437427260562425308973167683889786999799808 +
            21 * F32.div F32.one (F32.ofRatio 22 1)) +
          ((List.replicate 64 (F32.ofRatio 1 64)).length + 21) *
            (2 * F32.div F32.one (F32.ofRatio 22 1)) :=
  ⟨by decide, by decide, by decide, by decide, by decide, by decide, bullet_one_second,
    ((fire_count_rounded (F32.ofRatio 22 1) (2 * F32.div F32.one (F32.ofRatio 22 1)) 5
      (List.replicate 64 (F32.ofRatio 1 64)) (by decide) (by decide) (by decide) (by decide)
      (by decide) (fun d hd => by rw [List.eq_of_mem_replicate hd]; decide)).2
      32437427260562425308973167683889786999799808 21 bullet_one_second).1,
    ((fire_count_rounded (F32.ofRatio 22 1) (2 * F32.div F32.one (F32.ofRatio 22 1)) 5
      (List.replicate 64 (F32.ofRatio 1 64)) (by decide) (by decide) (by decide) (by decide)
      (by decide) (fun d hd => by rw [List.eq_of_mem_replicate hd]; decide)).2
      32437427260562425308973167683889786999799808 21 bullet_one_second).2.2.2⟩

end Asteroids
